import Mathlib

/-!
# War-data story site: dataset queries, filter broadcast, narrative steps

A shallow embedding of the pure parts of
`src/src/filters.js`, `src/src/data-loader.js`, `src/src/story.js` and
`src/visualizations/sankey.js`.

* Module-level mutable globals (`warData`, `filteredData`, `filterState`,
  `listeners`) become fields of an explicit state record that every
  operation takes and returns.
* Years and death counts are integers (`Int`). Numbers that the program
  computes by division and addition are JavaScript numbers (`JsNumber`, binary64
  with round to nearest even); `prepareCumulativeData` is given both in that
  arithmetic and in exact rationals (`ℚ`).
* A callback is represented by an identifier; calling it is recorded in a
  trace, oldest call first.
* DOM writes (button classes, slider text) carry no data used here and are
  left out, except the step indicator of the narrative.
-/

namespace WarStory

/-! ## Data model -/

/-- One entry of `data/wars_data.json` (latitude and longitude are not used by
any function embedded here). -/
structure ConflictRecord where
  conflict_name : String
  start_year : Int
  end_year : Int
  total_deaths : Int
  military_deaths : Int
  civilian_deaths : Int
  conflict_type : String
  geographic_region : String
deriving DecidableEq, Repr

/-- The object `filterState` of `filters.js`; `none` is JavaScript `null`. -/
structure FilterState where
  selectedConflict : Option String
  selectedType : String
  selectedRegion : String
  timeRange : Int × Int
deriving DecidableEq, Repr

/-- The initial value of `filterState` (`filters.js` lines 4-9). -/
def initialFilterState : FilterState :=
  { selectedConflict := none, selectedType := "all", selectedRegion := "all",
    timeRange := (700, 2025) }

/-- JavaScript truthiness of `filterState.selectedConflict`: `null` and the
empty string are falsy, every other string is truthy. -/
def truthy : Option String → Bool
  | none => false
  | some s => s != ""

/-! ## filters.js -/

/-- The function `applyFilters` of `filters.js`: four successive passes over a
copy of `warData`. -/
def applyFilters (warData : List ConflictRecord) (filterState : FilterState) :
    List ConflictRecord :=
  let data := warData
  let data :=
    if filterState.selectedType ≠ "all" then
      data.filter (fun d => d.conflict_type == filterState.selectedType)
    else data
  let data :=
    if filterState.selectedRegion ≠ "all" then
      data.filter (fun d => d.geographic_region == filterState.selectedRegion)
    else data
  let data :=
    data.filter (fun d =>
      decide (d.start_year ≤ filterState.timeRange.2) &&
      decide (d.end_year ≥ filterState.timeRange.1))
  let data :=
    if truthy filterState.selectedConflict then
      data.filter (fun d => some d.conflict_name == filterState.selectedConflict)
    else data
  data

/-- One invocation `callback(filteredData, filterState)`. -/
structure ListenerCall where
  callback : Nat
  data : List ConflictRecord
  state : FilterState
deriving DecidableEq, Repr

/-- The globals shared by `data-loader.js` and `filters.js`, plus the trace of
listener invocations. -/
structure App where
  warData : List ConflictRecord
  filteredData : List ConflictRecord
  filterState : FilterState
  listeners : List Nat
  calls : List ListenerCall
deriving DecidableEq, Repr

/-- The function `registerFilterListener`: `listeners.push(callback)`. -/
def registerFilterListener (callback : Nat) (app : App) : App :=
  { app with listeners := app.listeners ++ [callback] }

/-- The function `notifyListeners`: recompute `filteredData`, then call each
listener, in list order, with `(filteredData, filterState)`. -/
def notifyListeners (app : App) : App :=
  let filteredData := applyFilters app.warData app.filterState
  { app with
    filteredData := filteredData
    calls := app.calls ++
      app.listeners.map (fun callback => ⟨callback, filteredData, app.filterState⟩) }

/-- The function `setConflictTypeFilter`. -/
def setConflictTypeFilter (type : String) (app : App) : App :=
  notifyListeners
    { app with filterState :=
        { app.filterState with selectedType := type, selectedConflict := none } }

/-- The function `setRegionFilter`. -/
def setRegionFilter (region : String) (app : App) : App :=
  notifyListeners
    { app with filterState :=
        { app.filterState with selectedRegion := region, selectedConflict := none } }

/-- The function `setTimeRangeFilter`. -/
def setTimeRangeFilter (start stop : Int) (app : App) : App :=
  notifyListeners
    { app with filterState :=
        { app.filterState with timeRange := (start, stop), selectedConflict := none } }

/-- The function `setConflictFilter`: strict equality with the current selection
toggles it off, anything else selects `conflictName`. -/
def setConflictFilter (conflictName : String) (app : App) : App :=
  notifyListeners
    { app with filterState :=
        if app.filterState.selectedConflict = some conflictName then
          { app.filterState with selectedConflict := none }
        else
          { app.filterState with selectedConflict := some conflictName } }

/-- The function `resetFilters` (its writes to the buttons and the slider are
not part of the state). -/
def resetFilters (app : App) : App :=
  notifyListeners
    { app with filterState :=
        { selectedConflict := none, selectedType := "all", selectedRegion := "all",
          timeRange := (700, 2025) } }

/-- The five operations that mutate `filterState`. -/
inductive FilterOp where
  | setConflictTypeFilter (type : String)
  | setRegionFilter (region : String)
  | setTimeRangeFilter (start stop : Int)
  | setConflictFilter (conflictName : String)
  | resetFilters
deriving DecidableEq, Repr

/-- Run one operation on the application state. -/
def FilterOp.run : FilterOp → App → App
  | .setConflictTypeFilter type => WarStory.setConflictTypeFilter type
  | .setRegionFilter region => WarStory.setRegionFilter region
  | .setTimeRangeFilter start stop => WarStory.setTimeRangeFilter start stop
  | .setConflictFilter conflictName => WarStory.setConflictFilter conflictName
  | .resetFilters => WarStory.resetFilters

/-! ## data-loader.js: simple queries -/

/-- The function `getDataByTimePeriod`. -/
def getDataByTimePeriod (warData : List ConflictRecord) (startYear endYear : Int) :
    List ConflictRecord :=
  warData.filter (fun d => decide (d.start_year ≤ endYear) && decide (d.end_year ≥ startYear))

/-- The method `Array.prototype.sort` step: insert `a` into a list already
ordered by the comparator `cmp`, in front of the first element it does not
have to follow (`cmp a b ≤ 0`). -/
def orderedInsertBy {α : Type} (cmp : α → α → Int) (a : α) : List α → List α
  | [] => [a]
  | b :: l => if cmp a b ≤ 0 then a :: b :: l else b :: orderedInsertBy cmp a l

/-- The method `Array.prototype.sort(cmp)`. ECMAScript requires the sort to be
stable, and for a comparator that is a consistent weak order every stable sort
returns the same array; it is embedded as insertion sort, each element being
inserted in front of the (already sorted) elements that followed it. -/
def jsSort {α : Type} (cmp : α → α → Int) : List α → List α
  | [] => []
  | a :: l => orderedInsertBy cmp a (jsSort cmp l)

/-- The function `getDeadliestConflicts` (`n` defaults to 10 in the source):
copy, sort with `(a, b) => b.total_deaths - a.total_deaths`, `slice(0, n)`. -/
def getDeadliestConflicts (warData : List ConflictRecord) (n : Nat) : List ConflictRecord :=
  (jsSort (fun a b => b.total_deaths - a.total_deaths) warData).take n

/-! ## d3-array helpers used by the data transforms -/

/-- One step of `d3.group`: push `d` onto the group of its key, or open a new
group at the end of the map. -/
def groupInsert {α : Type} (key : α → String) (groups : List (String × List α)) (d : α) :
    List (String × List α) :=
  if groups.any (fun g => g.1 == key d) then
    groups.map (fun g => if g.1 == key d then (g.1, g.2 ++ [d]) else g)
  else
    groups ++ [(key d, [d])]

/-- The function `d3.group(data, key)`: a map in insertion order from key to the
array of the values with that key. -/
def d3group {α : Type} (data : List α) (key : α → String) : List (String × List α) :=
  data.foldl (groupInsert key) []

/-- The function `d3.sum(values, f)`: adds up the values that are truthy numbers
(so a zero is skipped). -/
def d3sum {α : Type} (values : List α) (f : α → ℚ) : ℚ :=
  values.foldl (fun sum v => if f v ≠ 0 then sum + f v else sum) 0

/-- The function `d3.min(values, f)`; `none` is `undefined`. -/
def d3min {α : Type} (values : List α) (f : α → Int) : Option Int :=
  values.foldl (fun min v =>
    match min with
    | none => some (f v)
    | some m => if m > f v then some (f v) else some m) none

/-- The function `d3.max(values, f)`; `none` is `undefined`. -/
def d3max {α : Type} (values : List α) (f : α → Int) : Option Int :=
  values.foldl (fun max v =>
    match max with
    | none => some (f v)
    | some m => if m < f v then some (f v) else some m) none

/-- The function `d3.range(start, stop)` on integers: `start, start + 1, ...`
up to but excluding `stop`. -/
def d3range (start stop : Int) : List Int :=
  (List.range (stop - start).toNat).map (fun (i : Nat) => start + (i : Int))

/-- The function `d3.rollup(values, reduce, key)`: group, then reduce each group. -/
def d3rollup {α β : Type} (values : List α) (reduce : List α → β) (key : α → String) :
    List (String × β) :=
  (d3group values key).map (fun g => (g.1, reduce g.2))

/-- The expression `byType.get(k) || 0`. -/
def getOrZero (byType : List (String × ℚ)) (k : String) : ℚ :=
  match byType.lookup k with
  | none => 0
  | some v => v

/-- The distinct elements of `ks`, each at the place of its first occurrence
(the key order of a JavaScript `Map` filled while scanning `ks`). -/
def distinctKeys (ks : List String) : List String :=
  ks.foldl (fun acc k => if k ∈ acc then acc else acc ++ [k]) []

/-! ## data-loader.js: Sankey data -/

/-- A node of the Sankey diagram; `type` is `conflict` or `casualty`. -/
structure SankeyNode where
  name : String
  type : String
deriving DecidableEq, Repr

/-- What the expression `typeNodes[key]` evaluates to on the plain object
`typeNodes`: a number stored under `key`; the object `Object.prototype`, which
is what the accessor `__proto__` returns on an object literal; or, when `key` is
neither, the property of that name of `Object.prototype` (`undefined` for most
keys). -/
inductive PropertyValue where
  | number (n : Nat)
  | objectPrototype
  | fromPrototype
deriving DecidableEq, Repr

/-- The assignment `typeNodes[key] = value` on the object literal `typeNodes`,
whose own properties are listed newest first. The key `__proto__` is the
accessor inherited from `Object.prototype`; its setter ignores a value that is
not an object or `null`, so assigning a number to it stores nothing. -/
def setProperty (obj : List (String × Nat)) (key : String) (value : Nat) : List (String × Nat) :=
  if key = "__proto__" then obj else (key, value) :: obj

/-- The expression `typeNodes[key]`. -/
def getProperty (obj : List (String × Nat)) (key : String) : PropertyValue :=
  if key = "__proto__" then .objectPrototype
  else
    match obj.lookup key with
    | some n => .number n
    | none => .fromPrototype

/-- A link of the Sankey diagram. `source` is the value read from the object
`typeNodes`. -/
structure SankeyLink where
  source : PropertyValue
  target : Nat
  value : Int
deriving DecidableEq, Repr

/-- The object `{ nodes, links }`. -/
structure SankeyData where
  nodes : List SankeyNode
  links : List SankeyLink
deriving DecidableEq, Repr

/-- The state threaded through the first `typeGroups.forEach`: the arrays and
the counter it mutates. -/
structure NodeBuild where
  nodes : List SankeyNode
  typeNodes : List (String × Nat)
  nodeIndex : Nat
deriving DecidableEq, Repr

/-- The first `typeGroups.forEach` of both Sankey builders: for each type,
`typeNodes[type] = nodeIndex`, then one node is pushed and the counter goes up. -/
def buildTypeNodes (typeGroups : List (String × List ConflictRecord)) : NodeBuild :=
  typeGroups.foldl (fun b g =>
    { nodes := b.nodes ++ [{ name := g.1, type := "conflict" }]
      typeNodes := setProperty b.typeNodes g.1 b.nodeIndex
      nodeIndex := b.nodeIndex + 1 })
    { nodes := [], typeNodes := [], nodeIndex := 0 }

/-- The function `prepareSankeyData` of `data-loader.js`. -/
def prepareSankeyData (warData : List ConflictRecord) : SankeyData :=
  let typeGroups := d3group warData (fun d => d.conflict_type)
  let b := buildTypeNodes typeGroups
  let militaryNode := b.nodeIndex
  let civilianNode := b.nodeIndex + 1
  let nodes := b.nodes ++
    [{ name := "Military Deaths", type := "casualty" },
     { name := "Civilian Deaths", type := "casualty" }]
  let links := typeGroups.foldl (fun links g =>
    let militaryDeaths := g.2.foldl (fun sum d => sum + d.military_deaths) 0
    let civilianDeaths := g.2.foldl (fun sum d => sum + d.civilian_deaths) 0
    links ++
      [{ source := getProperty b.typeNodes g.1, target := militaryNode, value := militaryDeaths },
       { source := getProperty b.typeNodes g.1, target := civilianNode, value := civilianDeaths }])
    []
  { nodes := nodes, links := links }

/-- The function `d3.sum` on integer-valued accessors (zeros are skipped). -/
def d3sumInt {α : Type} (values : List α) (f : α → Int) : Int :=
  values.foldl (fun sum v => if f v ≠ 0 then sum + f v else sum) 0

/-- The function `prepareSankeyDataFromFiltered` of `sankey.js`. -/
def prepareSankeyDataFromFiltered (data : List ConflictRecord) : SankeyData :=
  let typeGroups := d3group data (fun d => d.conflict_type)
  let b := buildTypeNodes typeGroups
  let militaryNode := b.nodeIndex
  let civilianNode := b.nodeIndex + 1
  let nodes := b.nodes ++
    [{ name := "Military Deaths", type := "casualty" },
     { name := "Civilian Deaths", type := "casualty" }]
  let links := typeGroups.foldl (fun links g =>
    let militaryDeaths := d3sumInt g.2 (fun d => d.military_deaths)
    let civilianDeaths := d3sumInt g.2 (fun d => d.civilian_deaths)
    let links :=
      if militaryDeaths > 0 then
        links ++
          [{ source := getProperty b.typeNodes g.1, target := militaryNode, value := militaryDeaths }]
      else links
    let links :=
      if civilianDeaths > 0 then
        links ++
          [{ source := getProperty b.typeNodes g.1, target := civilianNode, value := civilianDeaths }]
      else links
    links)
    []
  { nodes := nodes, links := links }

/-- The sum of `military_deaths` over the records of `data` whose type is `t`. -/
def militarySum (data : List ConflictRecord) (t : String) : Int :=
  ((data.filter (fun r => r.conflict_type == t)).map (fun r => r.military_deaths)).sum

/-- The sum of `civilian_deaths` over the records of `data` whose type is `t`. -/
def civilianSum (data : List ConflictRecord) (t : String) : Int :=
  ((data.filter (fun r => r.conflict_type == t)).map (fun r => r.civilian_deaths)).sum

/-- The conflict types of `data`, distinct, in order of first appearance. -/
def conflictTypes (data : List ConflictRecord) : List String :=
  distinctKeys (data.map (fun r => r.conflict_type))

/-- The source of the links of type `t` when `types` are the types with a node:
the index of the node of `t`, except for the type named `__proto__`, whose index
is never stored. -/
def typeSource (types : List String) (t : String) : PropertyValue :=
  if t = "__proto__" then .objectPrototype else .number (types.indexOf t)

/-! ## data-loader.js: cumulative series -/

/-- The per-year object built by the first `map` of `prepareCumulativeData`;
`CivilWar` is the field `'Civil War'`. -/
structure YearEntry where
  year : Int
  Interstate : ℚ
  CivilWar : ℚ
  Colonial : ℚ
deriving DecidableEq, Repr

/-- The object returned for each year by `prepareCumulativeData`. -/
structure CumulativeEntry where
  year : Int
  Interstate : ℚ
  CivilWar : ℚ
  Colonial : ℚ
  total : ℚ
deriving DecidableEq, Repr

/-- The callback of the first `map` of `prepareCumulativeData`: the annualised
deaths of the conflicts active in `year`, per type, in exact arithmetic (the
quotients and sums are not rounded; `yearEntryWith` below takes the arithmetic
as a parameter). -/
def yearEntry (warData : List ConflictRecord) (year : Int) : YearEntry :=
  let activeConflicts :=
    warData.filter (fun d => decide (d.start_year ≤ year) && decide (d.end_year ≥ year))
  let byType := d3rollup activeConflicts
    (fun v => d3sum v (fun d =>
      let duration := d.end_year - d.start_year + 1
      (d.total_deaths : ℚ) / (duration : ℚ)))
    (fun d => d.conflict_type)
  { year := year
    Interstate := getOrZero byType "Interstate"
    CivilWar := getOrZero byType "Civil War"
    Colonial := getOrZero byType "Colonial" }

/-- The second `map` of `prepareCumulativeData`, the three captured variables
`cumInterstate`, `cumCivil`, `cumColonial` being passed along, in exact
arithmetic (`cumulateWith` below takes the arithmetic as a parameter). -/
def cumulate : ℚ → ℚ → ℚ → List YearEntry → List CumulativeEntry
  | _, _, _, [] => []
  | cumInterstate, cumCivil, cumColonial, d :: rest =>
    let cumInterstate := cumInterstate + d.Interstate
    let cumCivil := cumCivil + d.CivilWar
    let cumColonial := cumColonial + d.Colonial
    { year := d.year, Interstate := cumInterstate, CivilWar := cumCivil,
      Colonial := cumColonial, total := cumInterstate + cumCivil + cumColonial } ::
      cumulate cumInterstate cumCivil cumColonial rest

/-- The array `years` of `prepareCumulativeData`; on an empty dataset `d3.min`
and `d3.max` are `undefined` and `d3.range` returns the empty array. -/
def cumulativeYears (warData : List ConflictRecord) : List Int :=
  match d3min warData (fun d => d.start_year), d3max warData (fun d => d.end_year) with
  | some lo, some hi => d3range lo (hi + 1)
  | _, _ => []

/-- The function `prepareCumulativeData` in exact arithmetic;
`prepareCumulativeDataWith binary64` below is the function as the program
computes it. -/
def prepareCumulativeData (warData : List ConflictRecord) : List CumulativeEntry :=
  let years := cumulativeYears warData
  let cumulativeData := years.map (fun year => yearEntry warData year)
  cumulate 0 0 0 cumulativeData

/-- The annualised deaths of type `T` in `year` as the spec words them (section
4.3): the sum, over the records of type `T` with `start_year ≤ year ≤ end_year`,
of `total_deaths / (end_year - start_year + 1)`. -/
def annualized (warData : List ConflictRecord) (T : String) (year : Int) : ℚ :=
  ((warData.filter (fun r =>
      r.conflict_type == T && (decide (r.start_year ≤ year) && decide (r.end_year ≥ year)))).map
    (fun r => (r.total_deaths : ℚ) / ((r.end_year - r.start_year + 1 : Int) : ℚ))).sum

/-- The order between two entries of the cumulative series: no field decreases. -/
def CumulativeEntry.le (e e' : CumulativeEntry) : Prop :=
  e.Interstate ≤ e'.Interstate ∧ e.CivilWar ≤ e'.CivilWar ∧ e.Colonial ≤ e'.Colonial ∧
    e.total ≤ e'.total

/-! ## JavaScript numbers -/

/-- A JavaScript number, that is an IEEE 754 binary64 value, the sign of zero
left out: a finite value `m * 2 ^ e`, or `Infinity`, `-Infinity`, `NaN`. Finite
values are kept in one form: zero is `finite 0 0`; a normal number has
`2 ^ 52 ≤ |m| < 2 ^ 53` and `-1074 ≤ e ≤ 971`; a subnormal number has
`0 < |m| < 2 ^ 52` and `e = -1074`. -/
inductive JsNumber where
  | finite (m : Int) (e : Int)
  | posInfinity
  | negInfinity
  | nan
deriving DecidableEq, Repr

/-- Halving `n` until it is below 2, at most `fuel` times: the number of
halvings. -/
def floorLog2Aux : Nat → Nat → Nat
  | 0, _ => 0
  | fuel + 1, n => if n < 2 then 0 else floorLog2Aux fuel (n / 2) + 1

/-- The position of the leading binary digit of `n`, that is `⌊log₂ n⌋` for
`n ≥ 1`. -/
def floorLog2 (n : Nat) : Nat :=
  floorLog2Aux n n

/-- The quotient `num / den` of two naturals (`den > 0`) rounded to the nearest
integer, a tie going to the even one. -/
def roundHalfEven (num den : Nat) : Nat :=
  let q := num / den
  let r := num % den
  if 2 * r < den then q
  else if den < 2 * r then q + 1
  else if q % 2 = 0 then q else q + 1

/-- The exponent of the binary64 format for the positive rational `a / d`:
`L - 52` with `L = ⌊log₂ (a / d)⌋`, which puts the mantissa between `2 ^ 52` and
`2 ^ 53`, or `-1074` in the subnormal range. -/
def binaryExponent (a d : Nat) : Int :=
  let l : Int := (floorLog2 a : Int) - (floorLog2 d : Int)
  let L : Int := if d * 2 ^ l.toNat ≤ a * 2 ^ (-l).toNat then l else l - 1
  max (L - 52) (-1074)

/-- The number of sign `negative`, mantissa `m ≤ 2 ^ 53` and exponent `e`: a
mantissa that has reached `2 ^ 53` moves to the next exponent, and a number
beyond the largest finite one is an infinity. -/
def JsNumber.ofMantissa (negative : Bool) (m : Nat) (e : Int) : JsNumber :=
  let m' := if m = 2 ^ 53 then 2 ^ 52 else m
  let e' := if m = 2 ^ 53 then e + 1 else e
  if e' > 971 then (if negative then .negInfinity else .posInfinity)
  else if m' = 0 then .finite 0 0
  else .finite (if negative then -(m' : Int) else (m' : Int)) e'

/-- Rounding to binary64: the JavaScript number nearest to the rational `n / d`
(`d > 0`), a tie going to the even mantissa: the mantissa is `|n / d| / 2 ^ e`
rounded to an integer, `e` being the exponent of the format. -/
def roundRatio (n : Int) (d : Nat) : JsNumber :=
  let a := n.natAbs
  if a = 0 then .finite 0 0
  else
    let e := binaryExponent a d
    JsNumber.ofMantissa (decide (n < 0))
      (roundHalfEven (a * 2 ^ (-e).toNat) (d * 2 ^ e.toNat)) e

/-- The JavaScript expression `x + y`: the exact sum rounded to binary64, with
the rules for `Infinity` and `NaN`. -/
def JsNumber.add : JsNumber → JsNumber → JsNumber
  | .finite m1 e1, .finite m2 e2 =>
    let e := min e1 e2
    let s := m1 * 2 ^ (e1 - e).toNat + m2 * 2 ^ (e2 - e).toNat
    roundRatio (s * 2 ^ e.toNat) (2 ^ (-e).toNat)
  | .nan, _ => .nan
  | _, .nan => .nan
  | .posInfinity, .negInfinity => .nan
  | .negInfinity, .posInfinity => .nan
  | .posInfinity, _ => .posInfinity
  | _, .posInfinity => .posInfinity
  | .negInfinity, _ => .negInfinity
  | _, .negInfinity => .negInfinity

/-- The JavaScript expression `a / b` for two numbers whose values are the
integers `a` and `b`: the exact quotient rounded to binary64; a division by
zero gives `Infinity`, `-Infinity` or, for `0 / 0`, `NaN`. -/
def JsNumber.divide (a b : Int) : JsNumber :=
  if b = 0 then (if a > 0 then .posInfinity else if a < 0 then .negInfinity else .nan)
  else roundRatio (if b < 0 then -a else a) b.natAbs

/-- The JavaScript number for the integer `n`: `n` itself when it has at most
53 significant bits, the nearest number otherwise. -/
def JsNumber.ofInt (n : Int) : JsNumber :=
  roundRatio n 1

/-- Truthiness of a number (`if (value)`, `value || 0`): false for zero
and `NaN`. -/
def JsNumber.truthy : JsNumber → Bool
  | .finite m _ => m != 0
  | .posInfinity => true
  | .negInfinity => true
  | .nan => false

/-- The JavaScript expression `u < x` for a finite `u` given by its value:
true below a greater finite number and below `Infinity`, false against
`-Infinity` and `NaN`. -/
def jsLess (u : ℚ) : JsNumber → Bool
  | .finite m e => decide (u < (m : ℚ) * (2 : ℚ) ^ e)
  | .posInfinity => true
  | .negInfinity => false
  | .nan => false

/-! ## data-loader.js: the cumulative series in the arithmetic of the program -/

/-- The operations on numbers that `prepareCumulativeData` uses: the literal
`0`, `x + y`, the quotient `a / b` of two integer-valued numbers, and the
truthiness of a number. -/
structure Arithmetic (F : Type) where
  zero : F
  add : F → F → F
  div : Int → Int → F
  truthy : F → Bool

/-- The arithmetic of JavaScript numbers. -/
def binary64 : Arithmetic JsNumber :=
  { zero := .finite 0 0, add := JsNumber.add, div := JsNumber.divide,
    truthy := JsNumber.truthy }

/-- Exact arithmetic on rationals (no rounding); a quotient by zero is left at
Lean's value 0. -/
def exactArithmetic : Arithmetic ℚ :=
  { zero := 0, add := fun x y => x + y, div := fun a b => (a : ℚ) / (b : ℚ),
    truthy := fun x => decide (x ≠ 0) }

/-- The per-year object built by the first `map` of `prepareCumulativeData`,
with numbers of type `F`. -/
structure YearEntryOf (F : Type) where
  year : Int
  Interstate : F
  CivilWar : F
  Colonial : F
deriving DecidableEq, Repr

/-- The object returned for each year by `prepareCumulativeData`, with numbers
of type `F`. -/
structure CumulativeEntryOf (F : Type) where
  year : Int
  Interstate : F
  CivilWar : F
  Colonial : F
  total : F
deriving DecidableEq, Repr

/-- The function `d3.sum(values, f)`: `sum = 0`, then `sum += value` for each
value that is truthy. -/
def d3sumWith {F α : Type} (A : Arithmetic F) (values : List α) (f : α → F) : F :=
  values.foldl (fun sum v => if A.truthy (f v) then A.add sum (f v) else sum) A.zero

/-- The expression `x || 0` on a number. -/
def orZero {F : Type} (A : Arithmetic F) (x : F) : F :=
  if A.truthy x then x else A.zero

/-- The expression `byType.get(k) || 0`; a missing key gives `undefined`, which
is falsy. -/
def getOrZeroWith {F : Type} (A : Arithmetic F) (byType : List (String × F)) (k : String) : F :=
  match byType.lookup k with
  | none => A.zero
  | some v => orZero A v

/-- The callback of the first `map` of `prepareCumulativeData`. -/
def yearEntryWith {F : Type} (A : Arithmetic F) (warData : List ConflictRecord) (year : Int) :
    YearEntryOf F :=
  let activeConflicts :=
    warData.filter (fun d => decide (d.start_year ≤ year) && decide (d.end_year ≥ year))
  let byType := d3rollup activeConflicts
    (fun v => d3sumWith A v (fun d =>
      let duration := d.end_year - d.start_year + 1
      A.div d.total_deaths duration))
    (fun d => d.conflict_type)
  { year := year
    Interstate := getOrZeroWith A byType "Interstate"
    CivilWar := getOrZeroWith A byType "Civil War"
    Colonial := getOrZeroWith A byType "Colonial" }

/-- The second `map` of `prepareCumulativeData`, the three captured variables
being passed along. -/
def cumulateWith {F : Type} (A : Arithmetic F) :
    F → F → F → List (YearEntryOf F) → List (CumulativeEntryOf F)
  | _, _, _, [] => []
  | cumInterstate, cumCivil, cumColonial, d :: rest =>
    let cumInterstate := A.add cumInterstate d.Interstate
    let cumCivil := A.add cumCivil d.CivilWar
    let cumColonial := A.add cumColonial d.Colonial
    { year := d.year, Interstate := cumInterstate, CivilWar := cumCivil,
      Colonial := cumColonial,
      total := A.add (A.add cumInterstate cumCivil) cumColonial } ::
      cumulateWith A cumInterstate cumCivil cumColonial rest

/-- The function `prepareCumulativeData` in the arithmetic `A`; the program
runs it in `binary64`, and `prepareCumulativeData` above is the same function
in `exactArithmetic`. -/
def prepareCumulativeDataWith {F : Type} (A : Arithmetic F) (warData : List ConflictRecord) :
    List (CumulativeEntryOf F) :=
  let years := cumulativeYears warData
  let cumulativeData := years.map (fun year => yearEntryWith A warData year)
  cumulateWith A A.zero A.zero A.zero cumulativeData

/-- The annualised deaths of type `T` in `year` in the arithmetic `A`: the
`d3.sum`, over the records of type `T` with `start_year ≤ year ≤ end_year` in
dataset order, of `total_deaths / (end_year - start_year + 1)`, or `0` when
that sum is falsy. -/
def annualizedWith {F : Type} (A : Arithmetic F) (warData : List ConflictRecord) (T : String)
    (year : Int) : F :=
  orZero A (d3sumWith A
    (warData.filter (fun r =>
      r.conflict_type == T && (decide (r.start_year ≤ year) && decide (r.end_year ≥ year))))
    (fun r => A.div r.total_deaths (r.end_year - r.start_year + 1)))

/-- The running sum, in the arithmetic `A`, of the annualised deaths of type
`T` over the years `lo, lo + 1, ..., year` in this order, starting from `0`. -/
def runningSum {F : Type} (A : Arithmetic F) (warData : List ConflictRecord) (T : String)
    (lo year : Int) : F :=
  (d3range lo (year + 1)).foldl (fun sum y => A.add sum (annualizedWith A warData T y)) A.zero

/-- Forgetting the arithmetic of a per-year object over the rationals. -/
def YearEntryOf.toYearEntry (e : YearEntryOf ℚ) : YearEntry :=
  { year := e.year, Interstate := e.Interstate, CivilWar := e.CivilWar,
    Colonial := e.Colonial }

/-- Forgetting the arithmetic of an entry over the rationals. -/
def CumulativeEntryOf.toEntry (e : CumulativeEntryOf ℚ) : CumulativeEntry :=
  { year := e.year, Interstate := e.Interstate, CivilWar := e.CivilWar,
    Colonial := e.Colonial, total := e.total }

/-! ## story.js: the narrative controller -/

/-- The step handlers of `storyViz`. -/
inductive Handler where
  | showPerson | personToCircle | showManyCircles | formTimeline | zoomToModernEra
  | breakApartCircles | splitCircles | beginDrift | completeDrift
  | emphasizeCivilians | showConclusion
deriving DecidableEq, Repr

/-- The state of `storyViz`: the field `data` (`null` until a load succeeds),
`currentStep`, the flag `pulseActive` (`undefined` at start, which is falsy),
the text of the element `#current-step` when the page has one, and traces of
what the object did: the handlers executed (every animation of the narrative is
scheduled inside a handler), the handlers that got to draw from `data`, the
number of pulse cycles started, the number of `fetch` calls and the `alert`
messages shown. -/
structure Story where
  data : Option (List ConflictRecord)
  currentStep : Int
  pulseActive : Bool
  hasIndicator : Bool
  indicatorText : Option Int
  handlerRuns : List Handler
  dataDraws : List Handler
  pulseIterations : Nat
  fetchCalls : Nat
  alerts : List String
deriving DecidableEq, Repr

/-- The state of `storyViz` when the script is loaded. -/
def initialStory (hasIndicator : Bool) : Story :=
  { data := none, currentStep := 0, pulseActive := false, hasIndicator := hasIndicator,
    indicatorText := none, handlerRuns := [], dataDraws := [], pulseIterations := 0,
    fetchCalls := 0, alerts := [] }

/-- The closure `pulse` of `emphasizeCivilians`: it returns at once when
`pulseActive` is false, and otherwise starts one cycle (two chained transitions
whose `end` callback is `pulseCycleEnd`). -/
def pulse (st : Story) : Story :=
  if !st.pulseActive then st
  else { st with pulseIterations := st.pulseIterations + 1 }

/-- The `end` callback of a pulse cycle: `if (this.pulseActive) pulse()`. -/
def pulseCycleEnd (st : Story) : Story :=
  if st.pulseActive then pulse st else st

/-- What a handler that reads `this.data` does with it: `showManyCircles` and
`formTimeline` return at once when `data` is `null`; `zoomToModernEra` and
`breakApartCircles` then fail on their first use of it (`d3.max(null, ...)`,
`null.filter`), which comes before they draw anything. With data they draw. -/
def drawFromData (h : Handler) (st : Story) : Story :=
  match st.data with
  | none => st
  | some _ => { st with dataDraws := st.dataDraws ++ [h] }

/-- Executing a handler: it is recorded in the trace; the four handlers that
read `this.data` draw from it when it is loaded; `emphasizeCivilians` sets
`pulseActive` and calls `pulse`; `showConclusion` clears `pulseActive`; no
handler writes `currentStep`. -/
def runHandler (h : Handler) (st : Story) : Story :=
  let st := { st with handlerRuns := st.handlerRuns ++ [h] }
  match h with
  | .showManyCircles => drawFromData h st
  | .formTimeline => drawFromData h st
  | .zoomToModernEra => drawFromData h st
  | .breakApartCircles => drawFromData h st
  | .emphasizeCivilians => pulse { st with pulseActive := true }
  | .showConclusion => { st with pulseActive := false }
  | _ => st

/-- The method `transitionToStep`; the `switch` is written as a chain of strict
comparisons, a step outside 0..11 matching no case. -/
def transitionToStep (step : Int) (st : Story) : Story :=
  let st := if st.hasIndicator then { st with indicatorText := some step } else st
  if step = st.currentStep ∧ step > 0 then st
  else
    let st := { st with currentStep := step }
    if step = 0 then runHandler .showPerson st
    else if step = 1 then runHandler .showPerson st
    else if step = 2 then runHandler .personToCircle st
    else if step = 3 then runHandler .showManyCircles st
    else if step = 4 then runHandler .formTimeline st
    else if step = 5 then runHandler .zoomToModernEra st
    else if step = 6 then runHandler .breakApartCircles st
    else if step = 7 then runHandler .splitCircles st
    else if step = 8 then runHandler .beginDrift st
    else if step = 9 then runHandler .completeDrift st
    else if step = 10 then runHandler .emphasizeCivilians st
    else if step = 11 then runHandler .showConclusion st
    else st

/-- The `switch` statement of `transitionToStep` on its own. -/
def switchStep (step : Int) (st : Story) : Story :=
  if step = 0 then runHandler .showPerson st
  else if step = 1 then runHandler .showPerson st
  else if step = 2 then runHandler .personToCircle st
  else if step = 3 then runHandler .showManyCircles st
  else if step = 4 then runHandler .formTimeline st
  else if step = 5 then runHandler .zoomToModernEra st
  else if step = 6 then runHandler .breakApartCircles st
  else if step = 7 then runHandler .splitCircles st
  else if step = 8 then runHandler .beginDrift st
  else if step = 9 then runHandler .completeDrift st
  else if step = 10 then runHandler .emphasizeCivilians st
  else if step = 11 then runHandler .showConclusion st
  else st

/-- The step table of the spec (section 4.2): step number to handler. -/
def stepTable : List Handler :=
  [.showPerson, .showPerson, .personToCircle, .showManyCircles, .formTimeline,
   .zoomToModernEra, .breakApartCircles, .splitCircles, .beginDrift, .completeDrift,
   .emphasizeCivilians, .showConclusion]

/-- What the `fetch` of `data/wars_data.json` comes to: the promise rejects
(network error), or there is a response with its `ok` flag and the result of
`response.json()` (`none` when the body is not JSON). -/
inductive FetchOutcome where
  | networkError
  | response (ok : Bool) (json : Option (List ConflictRecord))
deriving DecidableEq, Repr

/-- The text of the `alert` in `storyViz.loadData`. -/
def loadFailureMessage : String :=
  "Failed to load data. Please make sure you are running this from a web server (not file://)"

/-- The method `storyViz.loadData`: one `fetch`; a response that is not `ok`
throws; on success `data` is set and `showPerson` is called; every failure ends
in the `catch` block, which alerts. (The fields `military_pct`, `civilian_pct`
added to each record are not part of `ConflictRecord`.) -/
def Story.loadData (outcome : FetchOutcome) (st : Story) : Story :=
  let st := { st with fetchCalls := st.fetchCalls + 1 }
  match outcome with
  | .response true (some json) => runHandler .showPerson { st with data := some json }
  | _ => { st with alerts := st.alerts ++ [loadFailureMessage] }

/-- What can happen to `storyViz` after `init`: the scroll observer requests a
step, or the `end` callback of a pulse cycle fires. -/
inductive StoryEvent where
  | scroll (step : Int)
  | pulseEnd
deriving DecidableEq, Repr

/-- Run one event. -/
def StoryEvent.run : StoryEvent → Story → Story
  | .scroll step => transitionToStep step
  | .pulseEnd => pulseCycleEnd

/-- Run a sequence of events, oldest first. -/
def runEvents (events : List StoryEvent) (st : Story) : Story :=
  events.foldl (fun st ev => ev.run st) st

/-- Run a sequence of `transitionToStep` calls, oldest first. -/
def runSteps (steps : List Int) (st : Story) : Story :=
  steps.foldl (fun st step => transitionToStep step st) st

/-! ## story.js: the scheduled pulse cycles -/

/-- The narrative together with what d3 has scheduled for the pulse of step 10.
A pulse cycle is the pair of chained transitions that `pulse` creates on the
circles of class `civilian-particle` of the page; the `end` listener of the
second transition calls `pulse` again when `pulseActive` is set. `cycleOnPage`
tells whether the circles of that class on the page have a pulse cycle
scheduled (it stands for all of them, and is moot on a page without such a
circle); `cycleDetached` tells the same of circles that a handler has removed
from the page since, whose transitions d3 keeps running. A transition created on
an element pre-empts the transitions scheduled on it before; the model takes
the creation and the start of a transition together. -/
structure Stage where
  story : Story
  cycleOnPage : Bool
  cycleDetached : Bool
deriving DecidableEq, Repr

/-- The stage when the script is loaded: nothing is scheduled. -/
def initialStage (hasIndicator : Bool) : Stage :=
  { story := initialStory hasIndicator, cycleOnPage := false, cycleDetached := false }

/-- The handler that the `switch` of `transitionToStep` selects for `step`. -/
def handlerOfStep (step : Int) : Option Handler :=
  if step = 0 then some .showPerson
  else if step = 1 then some .showPerson
  else if step = 2 then some .personToCircle
  else if step = 3 then some .showManyCircles
  else if step = 4 then some .formTimeline
  else if step = 5 then some .zoomToModernEra
  else if step = 6 then some .breakApartCircles
  else if step = 7 then some .splitCircles
  else if step = 8 then some .beginDrift
  else if step = 9 then some .completeDrift
  else if step = 10 then some .emphasizeCivilians
  else if step = 11 then some .showConclusion
  else none

/-- What a handler does to the scheduled pulse cycles. `showPerson` and, when
the data is loaded, `showManyCircles` remove every element of the page;
`completeDrift` creates a transition on the circles of class
`civilian-particle` of the page, which pre-empts their pulse cycle;
`emphasizeCivilians` calls `pulse`, which schedules a cycle on them;
`showConclusion` interrupts them and creates a transition on them. The other
handlers create transitions on other elements only (`.person-figure`,
`.war-circle`, `.timeline-axis`, `.death-particle`, `.military-particle`). -/
def Stage.schedule (h : Handler) (g : Stage) : Stage :=
  match h with
  | .showPerson =>
    { g with cycleOnPage := false, cycleDetached := g.cycleDetached || g.cycleOnPage }
  | .showManyCircles =>
    match g.story.data with
    | none => g
    | some _ =>
      { g with cycleOnPage := false, cycleDetached := g.cycleDetached || g.cycleOnPage }
  | .completeDrift => { g with cycleOnPage := false }
  | .emphasizeCivilians => { g with cycleOnPage := true }
  | .showConclusion => { g with cycleOnPage := false }
  | _ => g

/-- The method `transitionToStep` on the stage: the narrative state changes as
`transitionToStep` says, and unless the call returns early the handler of the
step acts on the scheduled pulse cycles. -/
def Stage.transitionToStep (step : Int) (g : Stage) : Stage :=
  let g' := { g with story := WarStory.transitionToStep step g.story }
  if step = g.story.currentStep ∧ step > 0 then g'
  else
    match handlerOfStep step with
    | some h => Stage.schedule h g'
    | none => g'

/-- The pulse cycle scheduled on the circles of the page comes to its end: when
there is one, its `end` listener runs, and a new cycle is scheduled exactly when
`pulseActive` is set. -/
def Stage.pageCycleEnd (g : Stage) : Stage :=
  if g.cycleOnPage then
    { g with story := pulseCycleEnd g.story, cycleOnPage := g.story.pulseActive }
  else g

/-- The pulse cycle scheduled on removed circles comes to its end: when there
is one, its `end` listener runs, and `pulse`, if it is called, schedules a cycle
on the circles of the page. -/
def Stage.detachedCycleEnd (g : Stage) : Stage :=
  if g.cycleDetached then
    { g with story := pulseCycleEnd g.story, cycleDetached := false,
             cycleOnPage := g.cycleOnPage || g.story.pulseActive }
  else g

/-- What can happen on the stage: the scroll observer requests a step, or a
scheduled pulse cycle comes to its end. -/
inductive StageEvent where
  | scroll (step : Int)
  | pageCycleEnd
  | detachedCycleEnd
deriving DecidableEq, Repr

/-- Run one event on the stage. -/
def StageEvent.run : StageEvent → Stage → Stage
  | .scroll step => Stage.transitionToStep step
  | .pageCycleEnd => Stage.pageCycleEnd
  | .detachedCycleEnd => Stage.detachedCycleEnd

/-- Run a sequence of events on the stage, oldest first. -/
def Stage.runEvents (events : List StageEvent) (g : Stage) : Stage :=
  events.foldl (fun g ev => ev.run g) g

/-- Run a sequence of `transitionToStep` calls on the stage, oldest first. -/
def Stage.runSteps (steps : List Int) (g : Stage) : Stage :=
  steps.foldl (fun g step => Stage.transitionToStep step g) g

/-! ## story.js: step 6, particles -/

/-- An element of `allSmallCircles` in `breakApartCircles`; the random target
position and the colour are left out. -/
structure Particle where
  originalData : ConflictRecord
  index : Nat
deriving DecidableEq, Repr

/-- The expression `(d.start_year + d.end_year) / 2`. -/
def midYear (d : ConflictRecord) : ℚ :=
  ((d.start_year + d.end_year : Int) : ℚ) / 2

/-- The constant `numCircles` of `breakApartCircles`:
`Math.max(10, Math.min(150, Math.floor(d.total_deaths / 200000)))`. -/
def numCircles (d : ConflictRecord) : Int :=
  max 10 (min 150 (d.total_deaths / 200000))

/-- The `for` loop of `breakApartCircles` for one conflict. -/
def particlesFor (d : ConflictRecord) : List Particle :=
  (List.range (numCircles d).toNat).map (fun i => { originalData := d, index := i })

/-- The array `allSmallCircles` built by `breakApartCircles` from `this.data`. -/
def allSmallCircles (data : List ConflictRecord) : List Particle :=
  let filteredData := data.filter (fun d =>
    let year := midYear d
    decide (year ≥ 1800) && decide (year ≤ 1970))
  filteredData.foldl (fun all d => all ++ particlesFor d) []

/-! ## story.js: derived fields, steps 3, 5 and 7 -/

/-- The value of a JavaScript division `a / b` of two integers with the
rounding left out: the exact quotient when `b` is not zero, otherwise
`Infinity`, `-Infinity` or `NaN`. -/
inductive JsQuotient where
  | finite (q : ℚ)
  | posInfinity
  | negInfinity
  | nan
deriving DecidableEq, Repr

/-- The JavaScript expression `a / b` on integers, without the rounding of the
quotient. -/
def jsDiv (a b : Int) : JsQuotient :=
  if b ≠ 0 then .finite ((a : ℚ) / (b : ℚ))
  else if a > 0 then .posInfinity
  else if a < 0 then .negInfinity
  else .nan

/-- The fields `military_pct` and `civilian_pct` that `storyViz.loadData`
attaches to a record. -/
def derivedPercentages (d : ConflictRecord) : JsQuotient × JsQuotient :=
  (jsDiv d.military_deaths d.total_deaths, jsDiv d.civilian_deaths d.total_deaths)

/-- A scale `d3.scaleLinear().domain([d0, d1]).range([r0, r1])` applied to `x`. -/
def scaleLinear (d0 d1 r0 r1 x : ℚ) : ℚ :=
  let t := (x - d0) / (d1 - d0)
  r0 * (1 - t) + r1 * t

/-- A target radius: the constant 0, or the application, left unevaluated, of
`d3.scaleSqrt().domain([0, domainMax]).range([rangeLo, rangeHi])` to `x`
(`domainMax` is the result of `d3.max`). -/
inductive RadiusTarget where
  | zero
  | sqrtScale (domainMax : Option Int) (rangeLo rangeHi : ℚ) (x : Int)
deriving DecidableEq, Repr

/-- The real number a target radius stands for: a square-root scale maps `x` to
`rangeLo * (1 - t) + rangeHi * t` with `t = (√x - √0) / (√domainMax - √0)`. -/
def RadiusTarget.HasValue : RadiusTarget → ℝ → Prop
  | .zero, r => r = 0
  | .sqrtScale (some domainMax) rangeLo rangeHi x, r =>
    r = (rangeLo : ℝ) * (1 - (Real.sqrt x - Real.sqrt 0) / (Real.sqrt domainMax - Real.sqrt 0))
      + (rangeHi : ℝ) * ((Real.sqrt x - Real.sqrt 0) / (Real.sqrt domainMax - Real.sqrt 0))
  | .sqrtScale none _ _ _, _ => False

/-- The radius that `showManyCircles` animates the circle of `d` to:
`radiusScale(d.total_deaths)` with domain `[0, maxDeaths]` and range `[5, 80]`. -/
def showManyCirclesRadius (data : List ConflictRecord) (d : ConflictRecord) : RadiusTarget :=
  let maxDeaths := d3max data (fun d => d.total_deaths)
  .sqrtScale maxDeaths 5 80 d.total_deaths

/-- The attributes a transition drives a circle to. -/
structure CircleTarget where
  cx : ℚ
  cy : ℚ
  r : RadiusTarget
  opacity : ℚ
deriving DecidableEq, Repr

/-- The targets `zoomToModernEra` sets for the circle bound to `d`; `width` and
`height` are those of the window, the margins are 100. -/
def zoomTarget (width height : ℚ) (data : List ConflictRecord) (d : ConflictRecord) :
    CircleTarget :=
  let maxDeaths := d3max data (fun d => d.total_deaths)
  { cx :=
      let year := midYear d
      if year < 1800 ∨ year > 1970 then -100
      else scaleLinear 1800 1970 100 (width - 100) year
    cy := height / 2
    r :=
      let year := midYear d
      if year < 1800 ∨ year > 1970 then .zero
      else .sqrtScale maxDeaths 8 70 d.total_deaths
    opacity :=
      let year := midYear d
      if year ≥ 1800 ∧ year ≤ 1970 then 7 / 10 else 0 }

/-- The transition of `zoomToModernEra` over the selection `.war-circle`, one
circle per record of `this.data`: each circle with its new targets. -/
def zoomToModernEra (width height : ℚ) (data : List ConflictRecord) :
    List (ConflictRecord × CircleTarget) :=
  data.map (fun d => (d, zoomTarget width height data d))

/-- A particle circle of the page: its datum and its CSS classes. -/
structure ParticleElement where
  datum : Particle
  classes : List String
deriving DecidableEq, Repr

/-- The call `selection.classed(name, false)`. -/
def removeClass (name : String) (classes : List String) : List String :=
  classes.filter (fun c => c != name)

/-- The call `selection.classed(name, true)`. -/
def addClass (name : String) (classes : List String) : List String :=
  if name ∈ classes then classes else classes ++ [name]

/-- The constant `isMilitary` of `splitCircles` for a particle of conflict `c`
and the draw `u` of `Math.random()`. -/
def isMilitary (u : ℚ) (c : ConflictRecord) : Bool :=
  let militaryPct := JsNumber.divide c.military_deaths c.total_deaths
  jsLess u militaryPct

/-- The callback of `particles.each` in `splitCircles`, `u` being the value of
`Math.random()`. -/
def splitParticle (u : ℚ) (e : ParticleElement) : ParticleElement :=
  let originalData := e.datum.originalData
  let added := if isMilitary u originalData then "military-particle" else "civilian-particle"
  { e with classes := addClass added (removeClass "death-particle" e.classes) }

/-- The method `splitCircles` on the circles the page holds when it is called
(none of class `death-particle` as long as the timer of `breakApartCircles` has
not fired): each element of class `death-particle` gets the callback with the
next value of `Math.random()`, the other elements are not selected; `random` is
the stream of those values and `k` the number already drawn. -/
def splitCircles (random : Nat → ℚ) : Nat → List ParticleElement → List ParticleElement
  | _, [] => []
  | k, e :: es =>
    if "death-particle" ∈ e.classes then
      splitParticle (random k) e :: splitCircles random (k + 1) es
    else e :: splitCircles random k es

/-- The particle circles that `breakApartCircles` appends: class `death-particle`. -/
def deathParticles (data : List ConflictRecord) : List ParticleElement :=
  (allSmallCircles data).map (fun p => { datum := p, classes := ["death-particle"] })

/-- The function `getFilteredData` of `filters.js`. -/
def getFilteredData (app : App) : List ConflictRecord :=
  app.filteredData

/-- The value of `pulseActive` that a trace of handler executions calls for:
true when `emphasizeCivilians` (step 10) occurs in it with no `showConclusion`
(step 11) after it. -/
def pulseExpected (runs : List Handler) : Bool :=
  runs.foldl (fun b h =>
    match h with
    | .emphasizeCivilians => true
    | .showConclusion => false
    | _ => b) false

/-- The conjunction of the active predicates of a filter state on a record:
the type test unless `selectedType` is `all`, the region test unless
`selectedRegion` is `all`, the overlap with `timeRange`, and the name test when
`selectedConflict` is truthy. -/
def passesFilters (filterState : FilterState) (d : ConflictRecord) : Bool :=
  (filterState.selectedType == "all" || d.conflict_type == filterState.selectedType) &&
  (filterState.selectedRegion == "all" || d.geographic_region == filterState.selectedRegion) &&
  (decide (d.start_year ≤ filterState.timeRange.2) &&
    decide (d.end_year ≥ filterState.timeRange.1)) &&
  (!truthy filterState.selectedConflict ||
    some d.conflict_name == filterState.selectedConflict)

/-- The sum of `total_deaths` over the records of `warData` whose type is `T`. -/
def deathsOfType (warData : List ConflictRecord) (T : String) : Int :=
  ((warData.filter (fun r => r.conflict_type == T)).map (fun r => r.total_deaths)).sum

/-! ## data-loader.js and main.js: statistics and start-up -/

/-- The field `dateRange` of the statistics; `none` is `undefined`. -/
structure DateRange where
  min : Option Int
  max : Option Int
deriving DecidableEq, Repr

/-- The object returned by `getDataStats`. -/
structure DataStats where
  totalConflicts : Nat
  totalDeaths : Int
  totalMilitaryDeaths : Int
  totalCivilianDeaths : Int
  dateRange : DateRange
  conflictTypes : List String
  regions : List String
deriving DecidableEq, Repr

/-- The function `getDataStats`; `[...new Set(xs)]` keeps the first occurrence
of each value, in order. -/
def getDataStats (warData : List ConflictRecord) : DataStats :=
  { totalConflicts := warData.length
    totalDeaths := warData.foldl (fun sum d => sum + d.total_deaths) 0
    totalMilitaryDeaths := warData.foldl (fun sum d => sum + d.military_deaths) 0
    totalCivilianDeaths := warData.foldl (fun sum d => sum + d.civilian_deaths) 0
    dateRange :=
      { min := d3min warData (fun d => d.start_year)
        max := d3max warData (fun d => d.end_year) }
    conflictTypes := distinctKeys (warData.map (fun d => d.conflict_type))
    regions := distinctKeys (warData.map (fun d => d.geographic_region)) }

/-- The explorer page: the globals of `data-loader.js` and `filters.js`, the
number of `console.error` calls, the `alert` messages shown, the visualizations
initialised by `init` in order, and whether `setupEventListeners` and
`setupSmoothScrolling` have run. -/
structure Page where
  app : App
  consoleErrors : Nat
  alerts : List String
  visualizations : List String
  eventListeners : Bool
  smoothScrolling : Bool
deriving DecidableEq, Repr

/-- The page before `init`. -/
def initialPage : Page :=
  { app := { warData := [], filteredData := [], filterState := initialFilterState,
             listeners := [], calls := [] }
    consoleErrors := 0, alerts := [], visualizations := [], eventListeners := false,
    smoothScrolling := false }

/-- The function `loadData` of `data-loader.js`: `response.ok` is not looked
at; when `response.json()` yields the records they are sorted by `start_year`
and copied to `filteredData`; a rejected `fetch` or `json()` ends in the `catch`
block, which calls `console.error` and returns `[]`. -/
def loadData (outcome : FetchOutcome) (p : Page) : Page :=
  match outcome with
  | .response _ (some json) =>
    let warData := jsSort (fun a b => a.start_year - b.start_year) json
    { p with app := { p.app with warData := warData, filteredData := warData } }
  | _ => { p with consoleErrors := p.consoleErrors + 1 }

/-- The function `setupEventListeners` of `main.js`, as far as the state goes:
it registers the one filter listener of the page. -/
def setupEventListeners (p : Page) : Page :=
  { p with app := registerFilterListener 0 p.app, eventListeners := true }

/-- The function `init` of `main.js`: it awaits `loadData`, whose result it
does not look at, then initialises the six visualizations and sets up the
listeners and the scrolling. -/
def init (outcome : FetchOutcome) (p : Page) : Page :=
  let p := loadData outcome p
  let p := { p with visualizations :=
    p.visualizations ++ ["timeline", "timelineZoom", "map", "areaChart", "sankey", "barChart"] }
  let p := setupEventListeners p
  { p with smoothScrolling := true }

/-- Run a sequence of filter operations, oldest first. -/
def runOps (ops : List FilterOp) (app : App) : App :=
  ops.foldl (fun app op => op.run app) app

/-- The operation is not a `setTimeRangeFilter` with `start` after `stop`. -/
def FilterOp.rangeOrdered : FilterOp → Prop
  | .setTimeRangeFilter start stop => start ≤ stop
  | _ => True

/-! ## Example data (spec, section 8) -/

/-- Record A of the end-to-end scenario. -/
def recA : ConflictRecord :=
  { conflict_name := "A", start_year := 1900, end_year := 1918, total_deaths := 1000,
    military_deaths := 600, civilian_deaths := 400, conflict_type := "Interstate",
    geographic_region := "Europe" }

/-- Record B of the end-to-end scenario. -/
def recB : ConflictRecord :=
  { conflict_name := "B", start_year := 1939, end_year := 1945, total_deaths := 5000,
    military_deaths := 1000, civilian_deaths := 4000, conflict_type := "Interstate",
    geographic_region := "Europe" }

/-- The two-record dataset of the end-to-end scenario. -/
def exampleData : List ConflictRecord := [recA, recB]

/-- The application right after `loadData` on the two-record dataset, with one
registered listener. -/
def exampleApp : App :=
  { warData := exampleData, filteredData := exampleData, filterState := initialFilterState,
    listeners := [0], calls := [] }

/-- A filter state whose selected conflict is the empty name. -/
def emptyNameState : FilterState :=
  { initialFilterState with selectedConflict := some "" }

/-- A filter state with all four filters active. -/
def allActiveState : FilterState :=
  { selectedConflict := some "B", selectedType := "Interstate", selectedRegion := "Europe",
    timeRange := (1940, 1942) }

/-- The example application with conflict A selected. -/
def selectedAApp : App :=
  { exampleApp with filterState := { initialFilterState with selectedConflict := some "A" } }

/-- A conflict of the 16th century (outside the window of step 5 and 6). -/
def recOld : ConflictRecord :=
  { conflict_name := "Old", start_year := 1500, end_year := 1510, total_deaths := 3000000,
    military_deaths := 1000000, civilian_deaths := 2000000, conflict_type := "Interstate",
    geographic_region := "Europe" }

/-- A conflict without civilian deaths. -/
def recNoCivil : ConflictRecord :=
  { conflict_name := "N", start_year := 1850, end_year := 1851, total_deaths := 500,
    military_deaths := 500, civilian_deaths := 0, conflict_type := "Colonial",
    geographic_region := "Africa" }

/-- A conflict with 4 deaths. -/
def recFour : ConflictRecord :=
  { conflict_name := "Four", start_year := 1900, end_year := 1901, total_deaths := 4,
    military_deaths := 4, civilian_deaths := 0, conflict_type := "Interstate",
    geographic_region := "Europe" }

/-- A conflict with 1 death. -/
def recOne : ConflictRecord :=
  { conflict_name := "One", start_year := 1910, end_year := 1911, total_deaths := 1,
    military_deaths := 0, civilian_deaths := 1, conflict_type := "Civil War",
    geographic_region := "Asia" }

/-- A conflict whose `conflict_type` is the string `__proto__`. -/
def recProto : ConflictRecord :=
  { conflict_name := "P", start_year := 1900, end_year := 1901, total_deaths := 1000,
    military_deaths := 700, civilian_deaths := 300, conflict_type := "__proto__",
    geographic_region := "Europe" }

/-- A record whose `end_year` is before its `start_year`. -/
def recBackwards : ConflictRecord :=
  { conflict_name := "Back", start_year := 1950, end_year := 1940, total_deaths := 70,
    military_deaths := 30, civilian_deaths := 40, conflict_type := "Colonial",
    geographic_region := "Asia" }

/-- The stage after `storyViz.loadData` has loaded the two-record example. -/
def loadedStage : Stage :=
  { story := Story.loadData (.response true (some exampleData)) (initialStory true),
    cycleOnPage := false, cycleDetached := false }

/-- The stage after the narrative has been scrolled from the top to step 10 and
two pulse cycles have come to their end there. -/
def pulsingStage : Stage :=
  Stage.runEvents
    [.scroll 1, .scroll 2, .scroll 3, .scroll 4, .scroll 5, .scroll 6, .scroll 7, .scroll 8,
     .scroll 9, .scroll 10, .pageCycleEnd, .pageCycleEnd] loadedStage

/-- A conflict two thirds of whose deaths are military. -/
def recTwoOfThree : ConflictRecord :=
  { conflict_name := "T", start_year := 1900, end_year := 1901, total_deaths := 3,
    military_deaths := 2, civilian_deaths := 1, conflict_type := "Interstate",
    geographic_region := "Europe" }

/-- A page with one circle of class `war-circle` and two particles of record A. -/
def examplePage : List ParticleElement :=
  [{ datum := { originalData := recB, index := 0 }, classes := ["war-circle"] },
   { datum := { originalData := recA, index := 0 }, classes := ["death-particle"] },
   { datum := { originalData := recA, index := 1 }, classes := ["death-particle"] }]

/-! # Theorems -/

/-! ## applyFilters -/

theorem mem_applyFilters {warData : List ConflictRecord} {st : FilterState}
    {r : ConflictRecord} :
    r ∈ applyFilters warData st ↔
      r ∈ warData ∧
      (st.selectedType ≠ "all" → r.conflict_type = st.selectedType) ∧
      (st.selectedRegion ≠ "all" → r.geographic_region = st.selectedRegion) ∧
      (r.start_year ≤ st.timeRange.2 ∧ r.end_year ≥ st.timeRange.1) ∧
      (truthy st.selectedConflict = true → some r.conflict_name = st.selectedConflict) := by
  unfold applyFilters
  by_cases h1 : st.selectedType = "all" <;> by_cases h2 : st.selectedRegion = "all" <;>
    by_cases h3 : truthy st.selectedConflict = true <;>
    simp [h1, h2, h3, List.mem_filter] <;> tauto

theorem truthy_some {name : String} : truthy (some name) = true ↔ name ≠ "" := by
  simp [truthy]

/-- C1 (as stated, refuted): with the empty string as `selectedConflict` a
conflict is selected, yet `applyFilters` returns record A, whose name is not
the selected one. -/
theorem applyFilters_emptyName_counterexample :
    emptyNameState.selectedConflict = some "" ∧
      recA ∈ applyFilters [recA] emptyNameState ∧ recA.conflict_name ≠ "" := by
  decide

/-- C1 (amended): every record returned by `applyFilters` is a record of the
dataset and satisfies at once: the type equality unless `selectedType` is
`all`, the region equality unless `selectedRegion` is `all`, the overlap of
its years with `timeRange`, and `conflict_name = selectedConflict` whenever
`selectedConflict` is a non-empty name. -/
theorem applyFilters_sound (warData : List ConflictRecord) (st : FilterState)
    (r : ConflictRecord) (hr : r ∈ applyFilters warData st) :
    r ∈ warData ∧
      (st.selectedType ≠ "all" → r.conflict_type = st.selectedType) ∧
      (st.selectedRegion ≠ "all" → r.geographic_region = st.selectedRegion) ∧
      (r.start_year ≤ st.timeRange.2 ∧ r.end_year ≥ st.timeRange.1) ∧
      (∀ name, st.selectedConflict = some name → name ≠ "" → r.conflict_name = name) := by
  obtain ⟨h0, h1, h2, h3, h4⟩ := mem_applyFilters.mp hr
  refine ⟨h0, h1, h2, h3, ?_⟩
  intro name hs hne
  have := h4 (by rw [hs]; exact truthy_some.mpr hne)
  rw [hs] at this
  exact Option.some.inj this

/-- Witness for `applyFilters_sound`: record B under four active filters. -/
theorem applyFilters_sound_witness :
    recB ∈ applyFilters exampleData allActiveState ∧
      (recB ∈ exampleData ∧
        (allActiveState.selectedType ≠ "all" → recB.conflict_type = allActiveState.selectedType) ∧
        (allActiveState.selectedRegion ≠ "all" →
          recB.geographic_region = allActiveState.selectedRegion) ∧
        (recB.start_year ≤ allActiveState.timeRange.2 ∧
          recB.end_year ≥ allActiveState.timeRange.1) ∧
        (∀ name, allActiveState.selectedConflict = some name → name ≠ "" →
          recB.conflict_name = name)) :=
  ⟨by decide, applyFilters_sound exampleData allActiveState recB (by decide)⟩

/-! ## Time-range filter -/

/-- C2: with no type and no region filter, the records kept by
`setTimeRangeFilter s e`, and those returned by `getDataByTimePeriod s e`, are
exactly the records whose years overlap `[s, e]`; a record 1939-1945 is kept for
`[1940, 1942]`, and the two-record example gives `[A, B]` for `[1910, 1940]`. -/
theorem timeRange_is_overlap (app : App) (s e : Int)
    (hType : app.filterState.selectedType = "all")
    (hRegion : app.filterState.selectedRegion = "all") :
    (∀ r, r ∈ (setTimeRangeFilter s e app).filteredData ↔
        r ∈ app.warData ∧ r.start_year ≤ e ∧ r.end_year ≥ s) ∧
      (∀ r, r ∈ getDataByTimePeriod app.warData s e ↔
        r ∈ app.warData ∧ r.start_year ≤ e ∧ r.end_year ≥ s) ∧
      (∀ r, r ∈ app.warData → r.start_year = 1939 → r.end_year = 1945 →
        r ∈ (setTimeRangeFilter 1940 1942 app).filteredData ∧
        r ∈ getDataByTimePeriod app.warData 1940 1942) ∧
      (setTimeRangeFilter 1910 1940 exampleApp).filteredData = [recA, recB] ∧
      getDataByTimePeriod exampleData 1910 1940 = [recA, recB] := by
  have key : ∀ s e r, r ∈ (setTimeRangeFilter s e app).filteredData ↔
      r ∈ app.warData ∧ r.start_year ≤ e ∧ r.end_year ≥ s := by
    intro s e r
    simp only [setTimeRangeFilter, notifyListeners, mem_applyFilters]
    simp [hType, hRegion, truthy]
  have key2 : ∀ s e r, r ∈ getDataByTimePeriod app.warData s e ↔
      r ∈ app.warData ∧ r.start_year ≤ e ∧ r.end_year ≥ s := by
    intro s e r
    simp [getDataByTimePeriod, List.mem_filter]
  refine ⟨key s e, key2 s e, ?_, by decide, by decide⟩
  intro r hr h1 h2
  exact ⟨(key 1940 1942 r).mpr ⟨hr, by omega, by omega⟩,
    (key2 1940 1942 r).mpr ⟨hr, by omega, by omega⟩⟩

/-- Witness for `timeRange_is_overlap`: the two-record example, range 1910-1940. -/
theorem timeRange_is_overlap_witness :
    exampleApp.filterState.selectedType = "all" ∧
      exampleApp.filterState.selectedRegion = "all" ∧
      (∀ r, r ∈ (setTimeRangeFilter 1910 1940 exampleApp).filteredData ↔
        r ∈ exampleApp.warData ∧ r.start_year ≤ 1940 ∧ r.end_year ≥ 1910) :=
  ⟨rfl, rfl, (timeRange_is_overlap exampleApp 1910 1940 rfl rfl).1⟩

/-! ## The conflict toggle -/

/-- C3 (as stated, refuted): from a state in which conflict A is already
selected, two calls `setConflictFilter("A")` end with A selected, not `null`. -/
theorem setConflictFilter_twice_counterexample :
    (setConflictFilter "A" (setConflictFilter "A" selectedAApp)).filterState.selectedConflict
      = some "A" := by
  decide

/-- C3 (amended): two consecutive calls of `setConflictFilter` with the same
name leave `selectedConflict` equal to `null` exactly when it was not already
that name before the first call. -/
theorem setConflictFilter_twice (app : App) (name : String) :
    (setConflictFilter name (setConflictFilter name app)).filterState.selectedConflict = none ↔
      app.filterState.selectedConflict ≠ some name := by
  by_cases h : app.filterState.selectedConflict = some name <;>
    simp [setConflictFilter, notifyListeners, h]

/-! ## Narrative step transitions -/

theorem runHandler_handlerRuns (h : Handler) (st : Story) :
    (runHandler h st).handlerRuns = st.handlerRuns ++ [h] := by
  cases h <;> simp [runHandler, drawFromData, pulse] <;> split <;> rfl

theorem runHandler_currentStep (h : Handler) (st : Story) :
    (runHandler h st).currentStep = st.currentStep := by
  cases h <;> simp [runHandler, drawFromData, pulse] <;> split <;> rfl


/-- C4: for a requested step `s` in 0..11, `transitionToStep s` executes the
handler of step `s` once, and nothing else, when `s` differs from the current
step or `s = 0`; when `s` is the current step and `s > 0` it executes no handler
and leaves `currentStep` and the pulse flag as they were. -/
theorem transitionToStep_handler (st : Story) (s : Int) (h0 : 0 ≤ s) (h11 : s ≤ 11) :
    ((s ≠ st.currentStep ∨ s = 0) →
        ∃ h, stepTable[s.toNat]? = some h ∧
          (transitionToStep s st).handlerRuns = st.handlerRuns ++ [h] ∧
          (transitionToStep s st).currentStep = s) ∧
      ((s = st.currentStep ∧ s > 0) →
        (transitionToStep s st).handlerRuns = st.handlerRuns ∧
          (transitionToStep s st).currentStep = st.currentStep ∧
          (transitionToStep s st).pulseActive = st.pulseActive) := by
  constructor
  · intro hne
    have hcond : ¬ (s = st.currentStep ∧ s > 0) := by omega
    cases hI : st.hasIndicator <;>
      interval_cases s <;>
      simp [transitionToStep, hI, runHandler_handlerRuns, runHandler_currentStep, stepTable] <;>
      (rw [if_neg (by omega)]
       exact ⟨runHandler_handlerRuns _ _, runHandler_currentStep _ _⟩)
  · intro heq
    cases hI : st.hasIndicator <;>
      simp [transitionToStep, hI, ← heq.1, heq.2]

/-- Witness for `transitionToStep_handler`: step 3 requested in the initial state. -/
theorem transitionToStep_handler_witness :
    (0 : Int) ≤ 3 ∧ (3 : Int) ≤ 11 ∧
      (transitionToStep 3 (initialStory true)).handlerRuns = [Handler.showManyCircles] ∧
      (transitionToStep 3 (transitionToStep 3 (initialStory true))).handlerRuns
        = [Handler.showManyCircles] := by
  refine ⟨by decide, by decide, ?_, ?_⟩
  · obtain ⟨h, hh, hrun, _⟩ :=
      (transitionToStep_handler (initialStory true) 3 (by decide) (by decide)).1
        (Or.inl (by decide))
    have : h = Handler.showManyCircles := by
      have h3 : stepTable[(3 : Int).toNat]? = some Handler.showManyCircles := by decide
      rw [h3] at hh
      exact (Option.some.inj hh).symm
    rw [hrun, this]
    rfl
  · decide

/-! ## Listener notification -/

/-- C5: each of the five operations appends to the call trace exactly one call
per registered listener, in registration order, each call carrying
`applyFilters` of the updated state and that state; the theorem has no
side condition, so it covers calls that change nothing. Registration appends
to the listener list, and the operations leave that list and the dataset alone. -/
theorem setters_notify_all (op : FilterOp) (app : App) (callback : Nat) :
    (op.run app).calls = app.calls ++
        app.listeners.map (fun cb =>
          ⟨cb, applyFilters app.warData (op.run app).filterState, (op.run app).filterState⟩) ∧
      (op.run app).listeners = app.listeners ∧
      (op.run app).warData = app.warData ∧
      (registerFilterListener callback app).listeners = app.listeners ++ [callback] := by
  cases op <;>
    simp [FilterOp.run, setConflictTypeFilter, setRegionFilter, setTimeRangeFilter,
      setConflictFilter, resetFilters, notifyListeners, registerFilterListener]

/-! ## Stable descending sort and `getDeadliestConflicts` -/

theorem orderedInsertBy_perm {α : Type} (cmp : α → α → Int) (a : α) (l : List α) :
    (orderedInsertBy cmp a l).Perm (a :: l) := by
  induction l with
  | nil => exact List.Perm.refl _
  | cons b l ih =>
    unfold orderedInsertBy
    split
    · exact List.Perm.refl _
    · exact (List.Perm.cons b ih).trans (List.Perm.swap a b l)

theorem jsSort_perm {α : Type} (cmp : α → α → Int) (l : List α) :
    (jsSort cmp l).Perm l := by
  induction l with
  | nil => exact List.Perm.refl _
  | cons a l ih =>
    exact (orderedInsertBy_perm cmp a (jsSort cmp l)).trans (List.Perm.cons a ih)

theorem orderedInsertBy_pairwise {α : Type} (key : α → Int) (a : α) (l : List α)
    (hl : l.Pairwise (fun x y => key x ≥ key y)) :
    (orderedInsertBy (fun x y => key y - key x) a l).Pairwise (fun x y => key x ≥ key y) := by
  induction l with
  | nil => simp [orderedInsertBy]
  | cons b l ih =>
    unfold orderedInsertBy
    have hb := List.pairwise_cons.mp hl
    split
    · rename_i hab
      refine List.pairwise_cons.mpr ⟨?_, hl⟩
      intro y hy
      rcases List.mem_cons.mp hy with rfl | hy
      · omega
      · have := hb.1 y hy
        omega
    · rename_i hab
      refine List.pairwise_cons.mpr ⟨?_, ih hb.2⟩
      intro y hy
      rcases List.mem_cons.mp ((orderedInsertBy_perm _ a l).subset hy) with rfl | hy
      · omega
      · exact hb.1 y hy

theorem jsSort_pairwise {α : Type} (key : α → Int) (l : List α) :
    (jsSort (fun x y => key y - key x) l).Pairwise (fun x y => key x ≥ key y) := by
  induction l with
  | nil => simp [jsSort]
  | cons a l ih => exact orderedInsertBy_pairwise key a _ ih

theorem orderedInsertBy_filter {α : Type} (key : α → Int) (v : Int) (a : α) (l : List α) :
    (orderedInsertBy (fun x y => key y - key x) a l).filter (fun x => key x == v)
      = (a :: l).filter (fun x => key x == v) := by
  induction l with
  | nil => simp [orderedInsertBy]
  | cons b l ih =>
    unfold orderedInsertBy
    split
    · rfl
    · rename_i hab
      by_cases ha : key a = v
      · have hbv : ¬ key b = v := by omega
        rw [List.filter_cons_of_neg (by simpa using hbv), ih]
        simp [List.filter_cons, ha, hbv]
      · have ih' := ih
        rw [List.filter_cons_of_neg (by simpa using ha)] at ih'
        simp [List.filter_cons, ih', ha]

theorem jsSort_filter {α : Type} (key : α → Int) (v : Int) (l : List α) :
    (jsSort (fun x y => key y - key x) l).filter (fun x => key x == v)
      = l.filter (fun x => key x == v) := by
  induction l with
  | nil => simp [jsSort]
  | cons a l ih =>
    show (orderedInsertBy _ a (jsSort _ l)).filter _ = _
    rw [orderedInsertBy_filter, List.filter_cons, List.filter_cons, ih]

/-- Two lists that are permutations of each other, both in non-increasing key
order and with the same sublist of elements for every key value, are equal. -/
theorem stable_sorted_unique {α : Type} (key : α → Int) :
    ∀ (s t : List α), s.Perm t →
      s.Pairwise (fun x y => key x ≥ key y) → t.Pairwise (fun x y => key x ≥ key y) →
      (∀ v, s.filter (fun x => key x == v) = t.filter (fun x => key x == v)) → s = t := by
  intro s
  induction s with
  | nil =>
    intro t hp _ _ _
    exact (List.Perm.nil_eq hp)
  | cons a s ih =>
    intro t hp hs ht hf
    cases t with
    | nil => exact absurd hp.length_eq (by simp)
    | cons b t =>
      have hs' := List.pairwise_cons.mp hs
      have ht' := List.pairwise_cons.mp ht
      have hab : key a ≥ key b := by
        rcases List.mem_cons.mp (hp.symm.subset (List.mem_cons_self b t)) with h | h
        · rw [h]
        · exact hs'.1 b h
      have hba : key b ≥ key a := by
        rcases List.mem_cons.mp (hp.subset (List.mem_cons_self a s)) with h | h
        · rw [h]
        · exact ht'.1 a h
      have hkey : key b = key a := by omega
      have hfa := hf (key a)
      rw [List.filter_cons_of_pos (by simp), List.filter_cons_of_pos (by simp [hkey])] at hfa
      have hhead : a = b := (List.cons.inj hfa).1
      subst hhead
      have hst : s.Perm t := List.Perm.cons_inv hp
      have hf' : ∀ v, s.filter (fun x => key x == v) = t.filter (fun x => key x == v) := by
        intro v
        by_cases hv : key a = v
        · have := hf v
          rw [List.filter_cons_of_pos (by simp [hv]), List.filter_cons_of_pos (by simp [hv])]
            at this
          exact (List.cons.inj this).2
        · have := hf v
          rw [List.filter_cons_of_neg (by simpa using hv),
            List.filter_cons_of_neg (by simpa using hv)] at this
          exact this
      rw [ih t hst hs'.2 ht'.2 hf']

/-- C6: `getDeadliestConflicts n` returns `min n (dataset size)` records; they
are records of the dataset, none used twice; they are in non-increasing order of
`total_deaths`; for each death count the records with that count appear in
dataset order; and the result is the length-`n` prefix of the one list that is a
permutation of the dataset, non-increasing in `total_deaths` and keeps ties in
dataset order, so it depends on the dataset and `n` only. -/
theorem getDeadliestConflicts_spec (warData : List ConflictRecord) (n : Nat) :
    (getDeadliestConflicts warData n).length = min n warData.length ∧
      (getDeadliestConflicts warData n).Subperm warData ∧
      (getDeadliestConflicts warData n).Pairwise
        (fun a b => a.total_deaths ≥ b.total_deaths) ∧
      (∀ v, (getDeadliestConflicts warData n).filter (fun r => r.total_deaths == v) <+:
        warData.filter (fun r => r.total_deaths == v)) ∧
      (∀ sorted : List ConflictRecord, sorted.Perm warData →
        sorted.Pairwise (fun a b => a.total_deaths ≥ b.total_deaths) →
        (∀ v, sorted.filter (fun r => r.total_deaths == v)
          = warData.filter (fun r => r.total_deaths == v)) →
        getDeadliestConflicts warData n = sorted.take n) := by
  have hperm := jsSort_perm (fun a b : ConflictRecord => b.total_deaths - a.total_deaths) warData
  have hsorted := jsSort_pairwise (fun r : ConflictRecord => r.total_deaths) warData
  have hstable := fun v => jsSort_filter (fun r : ConflictRecord => r.total_deaths) v warData
  refine ⟨?_, ?_, ?_, ?_, ?_⟩
  · simp [getDeadliestConflicts, hperm.length_eq]
  · exact ((List.take_sublist n _).subperm).trans hperm.subperm
  · exact hsorted.sublist (List.take_sublist n _)
  · intro v
    rw [← hstable v]
    refine ⟨(List.drop n (jsSort (fun a b : ConflictRecord => b.total_deaths - a.total_deaths)
      warData)).filter (fun r => r.total_deaths == v), ?_⟩
    unfold getDeadliestConflicts
    rw [← List.filter_append, List.take_append_drop]
  · intro sorted hp hs hf
    have : jsSort (fun a b : ConflictRecord => b.total_deaths - a.total_deaths) warData
        = sorted :=
      stable_sorted_unique (fun r : ConflictRecord => r.total_deaths) _ _
        (hperm.trans hp.symm) hsorted hs (fun v => (hstable v).trans (hf v).symm)
    unfold getDeadliestConflicts
    rw [this]

/-! ## Grouping by key -/

theorem distinctKeys_snoc (ks : List String) (k : String) :
    distinctKeys (ks ++ [k]) =
      if k ∈ distinctKeys ks then distinctKeys ks else distinctKeys ks ++ [k] := by
  simp [distinctKeys, List.foldl_append]

theorem mem_distinctKeys (ks : List String) (k : String) :
    k ∈ distinctKeys ks ↔ k ∈ ks := by
  induction ks using List.reverseRecOn with
  | nil => simp [distinctKeys]
  | append_singleton ks a ih =>
    rw [distinctKeys_snoc]
    by_cases h : a ∈ distinctKeys ks
    · rw [if_pos h, List.mem_append, List.mem_singleton, ih]
      constructor
      · exact Or.inl
      · rintro (h' | rfl)
        · exact h'
        · exact ih.mp h
    · rw [if_neg h, List.mem_append, List.mem_append, ih]

theorem nodup_distinctKeys (ks : List String) : (distinctKeys ks).Nodup := by
  induction ks using List.reverseRecOn with
  | nil => simp [distinctKeys]
  | append_singleton ks a ih =>
    rw [distinctKeys_snoc]
    by_cases h : a ∈ distinctKeys ks
    · rw [if_pos h]; exact ih
    · rw [if_neg h]
      exact List.Nodup.append ih (List.nodup_singleton a)
        (by
          intro x hx hx'
          rw [List.mem_singleton] at hx'
          exact h (hx' ▸ hx))

theorem distinctKeys_firstAppearance (ks : List String) :
    (distinctKeys ks).Pairwise (fun a b => ks.indexOf a < ks.indexOf b) := by
  induction ks using List.reverseRecOn with
  | nil => simp [distinctKeys]
  | append_singleton ks a ih =>
    rw [distinctKeys_snoc]
    have hold : (distinctKeys ks).Pairwise
        (fun x y => (ks ++ [a]).indexOf x < (ks ++ [a]).indexOf y) := by
      refine ih.imp_of_mem ?_
      intro x y hx hy hxy
      rw [List.indexOf_append_of_mem ((mem_distinctKeys ks x).mp hx),
        List.indexOf_append_of_mem ((mem_distinctKeys ks y).mp hy)]
      exact hxy
    by_cases h : a ∈ distinctKeys ks
    · rw [if_pos h]; exact hold
    · rw [if_neg h]
      refine List.pairwise_append.mpr ⟨hold, List.pairwise_singleton _ _, ?_⟩
      intro x hx y hy
      rw [List.mem_singleton] at hy
      subst hy
      have hxk := (mem_distinctKeys ks x).mp hx
      have hyk : y ∉ ks := fun hc => h ((mem_distinctKeys ks y).mpr hc)
      rw [List.indexOf_append_of_mem hxk, List.indexOf_append_of_not_mem hyk]
      have := List.indexOf_lt_length.mpr hxk
      omega

theorem d3group_snoc {α : Type} (l : List α) (d : α) (key : α → String) :
    d3group (l ++ [d]) key = groupInsert key (d3group l key) d := by
  simp [d3group, List.foldl_append]

/-- The map built by `d3.group`: its keys are the distinct keys in order of
first appearance, and the group of a key is the sublist of the values having it. -/
theorem d3group_eq {α : Type} (l : List α) (key : α → String) :
    d3group l key =
      (distinctKeys (l.map key)).map (fun k => (k, l.filter (fun d => key d == k))) := by
  induction l using List.reverseRecOn with
  | nil => simp [d3group, distinctKeys]
  | append_singleton l d ih =>
    rw [d3group_snoc, ih, List.map_append, List.map_singleton, distinctKeys_snoc]
    unfold groupInsert
    by_cases h : key d ∈ distinctKeys (l.map key)
    · have hany : ((distinctKeys (l.map key)).map
          (fun k => (k, l.filter (fun d => key d == k)))).any (fun g => g.1 == key d) = true := by
        simp only [List.any_eq_true, List.mem_map]
        exact ⟨_, ⟨key d, h, rfl⟩, by simp⟩
      rw [if_pos hany, if_pos h, List.map_map]
      apply List.map_congr_left
      intro k _
      by_cases hk : k = key d
      · subst hk; simp
      · have hk' : ¬ key d = k := fun hc => hk hc.symm
        simp [hk, hk']
    · have hany : ¬ ((distinctKeys (l.map key)).map
          (fun k => (k, l.filter (fun d => key d == k)))).any (fun g => g.1 == key d) = true := by
        simp only [List.any_eq_true, List.mem_map, not_exists, not_and]
        rintro g ⟨k, hk, rfl⟩ hc
        have : k = key d := by simpa using hc
        exact h (this ▸ hk)
      rw [if_neg hany, if_neg h, List.map_append, List.map_singleton]
      congr 1
      · apply List.map_congr_left
        intro k hk
        have hk' : ¬ key d = k := fun hc => h (hc ▸ hk)
        simp [hk']
      · have hnone : l.filter (fun x => key x == key d) = [] := by
          rw [List.filter_eq_nil_iff]
          intro x hx hc
          have : key x = key d := by simpa using hc
          exact h ((mem_distinctKeys _ _).mpr (this ▸ List.mem_map_of_mem key hx))
        simp [hnone]

/-! ## Sankey builders -/

theorem foldl_append_flatMap {β γ : Type} (f : β → List γ) (l : List β) (init : List γ) :
    l.foldl (fun acc g => acc ++ f g) init = init ++ l.flatMap f := by
  induction l generalizing init with
  | nil => simp
  | cons g l ih => simp [ih, List.append_assoc]

theorem foldl_add_sum {α : Type} (f : α → Int) (l : List α) (a : Int) :
    l.foldl (fun sum d => sum + f d) a = a + (l.map f).sum := by
  induction l generalizing a with
  | nil => simp
  | cons d l ih => simp [ih, add_assoc]

theorem foldl_skipZero_sum {α : Type} (f : α → Int) (l : List α) (a : Int) :
    l.foldl (fun sum v => if f v ≠ 0 then sum + f v else sum) a = a + (l.map f).sum := by
  induction l generalizing a with
  | nil => simp
  | cons d l ih =>
    simp only [List.foldl_cons, List.map_cons, List.sum_cons, ih]
    by_cases h : f d = 0
    · simp [h]
    · simp [h, add_assoc]

theorem d3sumInt_eq {α : Type} (l : List α) (f : α → Int) :
    d3sumInt l f = (l.map f).sum := by
  unfold d3sumInt
  rw [foldl_skipZero_sum, zero_add]

theorem buildTypeNodes_snoc (gs : List (String × List ConflictRecord))
    (g : String × List ConflictRecord) :
    buildTypeNodes (gs ++ [g]) =
      { nodes := (buildTypeNodes gs).nodes ++ [{ name := g.1, type := "conflict" }]
        typeNodes := setProperty (buildTypeNodes gs).typeNodes g.1 (buildTypeNodes gs).nodeIndex
        nodeIndex := (buildTypeNodes gs).nodeIndex + 1 } := by
  simp [buildTypeNodes, List.foldl_append]

/-- What the first `forEach` leaves behind when the group keys are distinct:
one node per key in order, the counter at the number of keys, and each key other
than `__proto__` stored with its position. -/
theorem buildTypeNodes_spec (gs : List (String × List ConflictRecord))
    (hnd : (gs.map Prod.fst).Nodup) :
    (buildTypeNodes gs).nodes =
        gs.map (fun g => ({ name := g.1, type := "conflict" } : SankeyNode)) ∧
      (buildTypeNodes gs).nodeIndex = gs.length ∧
      ∀ k ∈ gs.map Prod.fst, k ≠ "__proto__" →
        (buildTypeNodes gs).typeNodes.lookup k = some ((gs.map Prod.fst).indexOf k) := by
  induction gs using List.reverseRecOn with
  | nil => simp [buildTypeNodes]
  | append_singleton gs g ih =>
    rw [List.map_append, List.map_singleton] at hnd
    have hnd' := List.nodup_append.mp hnd
    obtain ⟨ih1, ih2, ih3⟩ := ih hnd'.1
    have hg : g.1 ∉ gs.map Prod.fst := fun hc => hnd'.2.2 hc (List.mem_singleton_self _)
    rw [buildTypeNodes_snoc]
    refine ⟨by simp [ih1], by simp [ih2], ?_⟩
    intro k hk hproto
    rw [List.map_append, List.map_singleton] at hk ⊢
    simp only [setProperty]
    rcases List.mem_append.mp hk with hk | hk
    · have hne : ¬ k = g.1 := fun hc => hg (hc ▸ hk)
      rw [List.indexOf_append_of_mem hk]
      by_cases hgp : g.1 = "__proto__"
      · rw [if_pos hgp]
        exact ih3 k hk hproto
      · rw [if_neg hgp]
        simp only [List.lookup_cons]
        have : (k == g.1) = false := by simpa using hne
        rw [this]
        exact ih3 k hk hproto
    · rw [List.mem_singleton] at hk
      subst hk
      rw [List.indexOf_append_of_not_mem hg, if_neg hproto]
      simp [ih2]

/-- The value read back from `typeNodes` for a type that has a node. -/
theorem getProperty_typeNodes (gs : List (String × List ConflictRecord))
    (hnd : (gs.map Prod.fst).Nodup) (k : String) (hk : k ∈ gs.map Prod.fst) :
    getProperty (buildTypeNodes gs).typeNodes k = typeSource (gs.map Prod.fst) k := by
  unfold getProperty typeSource
  by_cases hp : k = "__proto__"
  · rw [if_pos hp, if_pos hp]
  · rw [if_neg hp, if_neg hp, (buildTypeNodes_spec gs hnd).2.2 k hk hp]

theorem conflictTypes_groups (data : List ConflictRecord) :
    (d3group data (fun d => d.conflict_type)).map Prod.fst = conflictTypes data := by
  rw [d3group_eq, List.map_map]
  exact List.map_id _

/-- A closed form of `prepareSankeyData`. -/
theorem prepareSankeyData_eq (data : List ConflictRecord) :
    prepareSankeyData data =
      { nodes := (conflictTypes data).map (fun t => { name := t, type := "conflict" }) ++
          [{ name := "Military Deaths", type := "casualty" },
           { name := "Civilian Deaths", type := "casualty" }]
        links := (conflictTypes data).flatMap (fun t =>
          [{ source := typeSource (conflictTypes data) t
             target := (conflictTypes data).length
             value := militarySum data t },
           { source := typeSource (conflictTypes data) t
             target := (conflictTypes data).length + 1
             value := civilianSum data t }]) } := by
  have hkeys := conflictTypes_groups data
  have hb := buildTypeNodes_spec (d3group data (fun d => d.conflict_type))
    (by rw [hkeys]; exact nodup_distinctKeys _)
  obtain ⟨hb1, hb2, _⟩ := hb
  have hb3 : ∀ t ∈ conflictTypes data,
      getProperty (buildTypeNodes (d3group data (fun d => d.conflict_type))).typeNodes t
        = typeSource (conflictTypes data) t := by
    intro t ht
    have h := getProperty_typeNodes (d3group data (fun d => d.conflict_type))
      (by rw [hkeys]; exact nodup_distinctKeys _) t (by rw [hkeys]; exact ht)
    rw [hkeys] at h
    exact h
  have hlen : (d3group data (fun d => d.conflict_type)).length = (conflictTypes data).length := by
    rw [← hkeys, List.length_map]
  unfold prepareSankeyData
  simp only [foldl_append_flatMap, List.nil_append, hb1, hb2, hlen, foldl_add_sum, zero_add]
  congr 1
  · rw [d3group_eq, List.map_map]
    rfl
  · rw [d3group_eq, List.flatMap_map]
    apply List.flatMap_congr
    intro t ht
    rw [d3group_eq] at hb3
    simp only [hb3 t ht]
    rfl

/-- A closed form of `prepareSankeyDataFromFiltered`. -/
theorem prepareSankeyDataFromFiltered_eq (data : List ConflictRecord) :
    prepareSankeyDataFromFiltered data =
      { nodes := (conflictTypes data).map (fun t => { name := t, type := "conflict" }) ++
          [{ name := "Military Deaths", type := "casualty" },
           { name := "Civilian Deaths", type := "casualty" }]
        links := (conflictTypes data).flatMap (fun t =>
          (if militarySum data t > 0 then
            [{ source := typeSource (conflictTypes data) t
               target := (conflictTypes data).length
               value := militarySum data t }]
           else []) ++
          (if civilianSum data t > 0 then
            [{ source := typeSource (conflictTypes data) t
               target := (conflictTypes data).length + 1
               value := civilianSum data t }]
           else [])) } := by
  have hkeys := conflictTypes_groups data
  have hb := buildTypeNodes_spec (d3group data (fun d => d.conflict_type))
    (by rw [hkeys]; exact nodup_distinctKeys _)
  obtain ⟨hb1, hb2, _⟩ := hb
  have hb3 : ∀ t ∈ conflictTypes data,
      getProperty (buildTypeNodes (d3group data (fun d => d.conflict_type))).typeNodes t
        = typeSource (conflictTypes data) t := by
    intro t ht
    have h := getProperty_typeNodes (d3group data (fun d => d.conflict_type))
      (by rw [hkeys]; exact nodup_distinctKeys _) t (by rw [hkeys]; exact ht)
    rw [hkeys] at h
    exact h
  have hlen : (d3group data (fun d => d.conflict_type)).length = (conflictTypes data).length := by
    rw [← hkeys, List.length_map]
  have hstep : ∀ (tn : List (String × Nat)) (n : Nat),
      (fun (links : List SankeyLink) (g : String × List ConflictRecord) =>
        if d3sumInt g.2 (fun d => d.civilian_deaths) > 0 then
          (if d3sumInt g.2 (fun d => d.military_deaths) > 0 then
            links ++ [{ source := getProperty tn g.1, target := n,
                        value := d3sumInt g.2 (fun d => d.military_deaths) }]
          else links) ++
            [{ source := getProperty tn g.1, target := n + 1,
               value := d3sumInt g.2 (fun d => d.civilian_deaths) }]
        else
          (if d3sumInt g.2 (fun d => d.military_deaths) > 0 then
            links ++ [{ source := getProperty tn g.1, target := n,
                        value := d3sumInt g.2 (fun d => d.military_deaths) }]
          else links)) =
      (fun links g => links ++
        ((if d3sumInt g.2 (fun d => d.military_deaths) > 0 then
            [({ source := getProperty tn g.1, target := n,
                value := d3sumInt g.2 (fun d => d.military_deaths) } : SankeyLink)]
          else []) ++
         (if d3sumInt g.2 (fun d => d.civilian_deaths) > 0 then
            [({ source := getProperty tn g.1, target := n + 1,
                value := d3sumInt g.2 (fun d => d.civilian_deaths) } : SankeyLink)]
          else []))) := by
    intro tn n
    funext links g
    by_cases h1 : d3sumInt g.2 (fun d => d.military_deaths) > 0 <;>
      by_cases h2 : d3sumInt g.2 (fun d => d.civilian_deaths) > 0 <;>
      simp [h1, h2]
  simp only [prepareSankeyDataFromFiltered, hstep]
  simp only [foldl_append_flatMap, List.nil_append, hb1, hb2, hlen, d3sumInt_eq]
  congr 1
  · rw [d3group_eq, List.map_map]
    rfl
  · rw [d3group_eq, List.flatMap_map]
    apply List.flatMap_congr
    intro t ht
    rw [d3group_eq] at hb3
    simp only [hb3 t ht]
    rfl

theorem filter_flatMap_of_not_mem {α β : Type} (l : List α) (a : α) (ha : a ∉ l)
    (F : α → List β) (p : β → Bool)
    (h2 : ∀ b ∈ l, b ≠ a → ∀ x ∈ F b, p x = false) :
    (l.flatMap F).filter p = [] := by
  rw [List.filter_eq_nil_iff]
  intro x hx
  obtain ⟨b, hb, hxb⟩ := List.mem_flatMap.mp hx
  have hne : b ≠ a := fun hc => ha (hc ▸ hb)
  simp [h2 b hb hne x hxb]

/-- Filtering a concatenation of blocks indexed by a duplicate-free list keeps
exactly the block of `a` when the test holds on that block and fails on the others. -/
theorem filter_flatMap_of_unique {α β : Type} (l : List α) (hnd : l.Nodup) (a : α)
    (ha : a ∈ l) (F : α → List β) (p : β → Bool)
    (h1 : ∀ x ∈ F a, p x = true)
    (h2 : ∀ b ∈ l, b ≠ a → ∀ x ∈ F b, p x = false) :
    (l.flatMap F).filter p = F a := by
  induction l with
  | nil => cases ha
  | cons b l ih =>
    have hnd' := List.nodup_cons.mp hnd
    rw [List.flatMap_cons, List.filter_append]
    by_cases hba : b = a
    · subst hba
      rw [List.filter_eq_self.mpr h1,
        filter_flatMap_of_not_mem l b hnd'.1 F p
          (fun c hc hne => h2 c (List.mem_cons_of_mem _ hc) hne),
        List.append_nil]
    · have hal : a ∈ l := by
        rcases List.mem_cons.mp ha with h | h
        · exact absurd h.symm hba
        · exact h
      have hnil : (F b).filter p = [] := by
        rw [List.filter_eq_nil_iff]
        intro x hx
        simp [h2 b (List.mem_cons_self _ _) hba x hx]
      rw [hnil, List.nil_append]
      exact ih hnd'.2 hal (fun c hc hne => h2 c (List.mem_cons_of_mem _ hc) hne)

theorem mem_conflictTypes (data : List ConflictRecord) (t : String) :
    t ∈ conflictTypes data ↔ ∃ r ∈ data, r.conflict_type = t := by
  unfold conflictTypes
  rw [mem_distinctKeys, List.mem_map]

theorem militarySum_nonneg (data : List ConflictRecord) (t : String)
    (h : ∀ r ∈ data, 0 ≤ r.military_deaths) : 0 ≤ militarySum data t := by
  unfold militarySum
  apply List.sum_nonneg
  intro x hx
  obtain ⟨r, hr, rfl⟩ := List.mem_map.mp hx
  exact h r (List.mem_filter.mp hr).1

theorem civilianSum_nonneg (data : List ConflictRecord) (t : String)
    (h : ∀ r ∈ data, 0 ≤ r.civilian_deaths) : 0 ≤ civilianSum data t := by
  unfold civilianSum
  apply List.sum_nonneg
  intro x hx
  obtain ⟨r, hr, rfl⟩ := List.mem_map.mp hx
  exact h r (List.mem_filter.mp hr).1

/-- The node of a conflict type `t` sits at the position of `t` among the
distinct types, and nowhere else. -/
theorem typeNode_index (types : List String) (hnd : types.Nodup) (t : String)
    (ht : t ∈ types) (j : Nat) :
    (types.map (fun t => ({ name := t, type := "conflict" } : SankeyNode)) ++
        [{ name := "Military Deaths", type := "casualty" },
         { name := "Civilian Deaths", type := "casualty" }])[j]?
      = some { name := t, type := "conflict" } ↔ j = types.indexOf t := by
  constructor
  · intro h
    by_cases hj : j < types.length
    · rw [List.getElem?_append_left (by simpa using hj), List.getElem?_map,
        List.getElem?_eq_getElem hj] at h
      simp only [Option.map_some', Option.some.injEq, SankeyNode.mk.injEq, and_true] at h
      rw [← h, List.indexOf_getElem hnd]
    · exfalso
      rw [List.getElem?_append_right (by simpa using hj)] at h
      simp only [List.length_map] at h
      rcases hk : j - types.length with _ | _ | k
      · rw [hk] at h; simp at h
      · rw [hk] at h; simp at h
      · rw [hk] at h; simp at h
  · rintro rfl
    rw [List.getElem?_append_left (by simpa using List.indexOf_lt_length.mpr ht),
      List.getElem?_map, List.getElem?_indexOf ht]
    rfl

/-- Conservation for every conflict type other than `__proto__`: in a dataset
with non-negative death counts such a type, when it occurs, has exactly one
node, at the same index in the output of `prepareSankeyData` and of
`prepareSankeyDataFromFiltered`, and in both outputs the values of the links
whose source is that index add up to the military plus the civilian deaths of
the records of that type. -/
theorem sankey_conservation_named (data : List ConflictRecord)
    (hnonneg : ∀ r ∈ data, 0 ≤ r.military_deaths ∧ 0 ≤ r.civilian_deaths)
    (t : String) (hpresent : ∃ r ∈ data, r.conflict_type = t) (hname : t ≠ "__proto__") :
    ∃ i : Nat,
      (∀ j, (prepareSankeyData data).nodes[j]? = some { name := t, type := "conflict" } ↔
        j = i) ∧
      (∀ j, (prepareSankeyDataFromFiltered data).nodes[j]?
        = some { name := t, type := "conflict" } ↔ j = i) ∧
      ((((prepareSankeyData data).links.filter (fun l => l.source == .number i)).map
          (fun l => l.value)).sum
        = militarySum data t + civilianSum data t) ∧
      ((((prepareSankeyDataFromFiltered data).links.filter
          (fun l => l.source == .number i)).map (fun l => l.value)).sum
        = militarySum data t + civilianSum data t) := by
  have hnd : (conflictTypes data).Nodup := nodup_distinctKeys _
  have ht : t ∈ conflictTypes data := (mem_conflictTypes data t).mpr hpresent
  have hself : (typeSource (conflictTypes data) t
      == PropertyValue.number ((conflictTypes data).indexOf t)) = true := by
    simp [typeSource, hname]
  have hother : ∀ b ∈ conflictTypes data, b ≠ t →
      (typeSource (conflictTypes data) b
        == PropertyValue.number ((conflictTypes data).indexOf t)) = false := by
    intro b hb hne
    unfold typeSource
    by_cases hp : b = "__proto__"
    · rw [if_pos hp]
      rfl
    · rw [if_neg hp]
      have : ¬ (conflictTypes data).indexOf b = (conflictTypes data).indexOf t :=
        fun hc => hne ((List.indexOf_inj hb ht).mp hc)
      simpa using this
  refine ⟨(conflictTypes data).indexOf t, ?_, ?_, ?_, ?_⟩
  · intro j
    rw [prepareSankeyData_eq]
    exact typeNode_index _ hnd t ht j
  · intro j
    rw [prepareSankeyDataFromFiltered_eq]
    exact typeNode_index _ hnd t ht j
  · rw [prepareSankeyData_eq]
    simp only []
    rw [filter_flatMap_of_unique (conflictTypes data) hnd t ht]
    · simp
    · intro x hx
      simp only [List.mem_cons, List.mem_singleton, List.not_mem_nil, or_false] at hx
      rcases hx with rfl | rfl <;> exact hself
    · intro b hb hne x hx
      simp only [List.mem_cons, List.mem_singleton, List.not_mem_nil, or_false] at hx
      rcases hx with rfl | rfl <;> exact hother b hb hne
  · have hm := militarySum_nonneg data t (fun r hr => (hnonneg r hr).1)
    have hc := civilianSum_nonneg data t (fun r hr => (hnonneg r hr).2)
    rw [prepareSankeyDataFromFiltered_eq]
    simp only []
    rw [filter_flatMap_of_unique (conflictTypes data) hnd t ht]
    · by_cases h1 : militarySum data t > 0 <;> by_cases h2 : civilianSum data t > 0 <;>
        simp [h1, h2] <;> omega
    · intro x hx
      by_cases h1 : militarySum data t > 0 <;> by_cases h2 : civilianSum data t > 0 <;>
        simp [h1, h2] at hx
      · rcases hx with rfl | rfl <;> exact hself
      · subst hx; exact hself
      · subst hx; exact hself
    · intro b hb hne x hx
      have hi := hother b hb hne
      by_cases h1 : militarySum data b > 0 <;> by_cases h2 : civilianSum data b > 0 <;>
        simp [h1, h2] at hx
      · rcases hx with rfl | rfl <;> exact hi
      · subst hx; exact hi
      · subst hx; exact hi

/-- C7: on the dataset whose one record has the conflict type `__proto__` (700
military and 300 civilian deaths) the node of the type is node 0 in the output
of `prepareSankeyData` and of `prepareSankeyDataFromFiltered`, both outputs hold
the two links of the type with `Object.prototype` as source, and the values of
the links whose source is node 0 add up to 0 in both, while the military plus the
civilian deaths of the type are 1000. -/
theorem sankey_conservation_proto :
    (∀ r ∈ [recProto], 0 ≤ r.military_deaths ∧ 0 ≤ r.civilian_deaths) ∧
      (prepareSankeyData [recProto]).nodes[0]?
        = some { name := "__proto__", type := "conflict" } ∧
      (prepareSankeyDataFromFiltered [recProto]).nodes[0]?
        = some { name := "__proto__", type := "conflict" } ∧
      (prepareSankeyData [recProto]).links =
        [{ source := .objectPrototype, target := 1, value := 700 },
         { source := .objectPrototype, target := 2, value := 300 }] ∧
      (prepareSankeyDataFromFiltered [recProto]).links =
        [{ source := .objectPrototype, target := 1, value := 700 },
         { source := .objectPrototype, target := 2, value := 300 }] ∧
      (((prepareSankeyData [recProto]).links.filter (fun l => l.source == .number 0)).map
          (fun l => l.value)).sum = 0 ∧
      (((prepareSankeyDataFromFiltered [recProto]).links.filter
          (fun l => l.source == .number 0)).map (fun l => l.value)).sum = 0 ∧
      militarySum [recProto] "__proto__" + civilianSum [recProto] "__proto__" = 1000 := by
  decide

/-- The result of `prepareSankeyData` on a dataset without a record of type
`__proto__`: the nodes are the distinct conflict types in order of first
appearance, then `Military Deaths` and `Civilian Deaths`; the links are, for
each type in that order, one from the type's node to the Military node valued
the sum of `military_deaths` and one to the Civilian node valued the sum of
`civilian_deaths` of that type; every link index is a valid node index. -/
theorem prepareSankeyData_named (warData : List ConflictRecord)
    (hname : ∀ r ∈ warData, r.conflict_type ≠ "__proto__") :
    (conflictTypes warData).Nodup ∧
      (∀ t, t ∈ conflictTypes warData ↔ ∃ r ∈ warData, r.conflict_type = t) ∧
      (conflictTypes warData).Pairwise (fun a b =>
        (warData.map (fun r => r.conflict_type)).indexOf a <
          (warData.map (fun r => r.conflict_type)).indexOf b) ∧
      (prepareSankeyData warData).nodes =
        (conflictTypes warData).map (fun t => { name := t, type := "conflict" }) ++
          [{ name := "Military Deaths", type := "casualty" },
           { name := "Civilian Deaths", type := "casualty" }] ∧
      (prepareSankeyData warData).links =
        (conflictTypes warData).flatMap (fun t =>
          [{ source := .number ((conflictTypes warData).indexOf t)
             target := (conflictTypes warData).length
             value := militarySum warData t },
           { source := .number ((conflictTypes warData).indexOf t)
             target := (conflictTypes warData).length + 1
             value := civilianSum warData t }]) ∧
      (∀ l ∈ (prepareSankeyData warData).links,
        (∃ i, l.source = .number i ∧ i < (prepareSankeyData warData).nodes.length) ∧
          l.target < (prepareSankeyData warData).nodes.length) := by
  have hsrc : ∀ t ∈ conflictTypes warData,
      typeSource (conflictTypes warData) t
        = PropertyValue.number ((conflictTypes warData).indexOf t) := by
    intro t ht
    obtain ⟨r, hr, hrt⟩ := (mem_conflictTypes warData t).mp ht
    unfold typeSource
    rw [if_neg (fun hc => hname r hr (hrt.trans hc))]
  have hlinks : (prepareSankeyData warData).links =
      (conflictTypes warData).flatMap (fun t =>
        [{ source := .number ((conflictTypes warData).indexOf t)
           target := (conflictTypes warData).length
           value := militarySum warData t },
         { source := .number ((conflictTypes warData).indexOf t)
           target := (conflictTypes warData).length + 1
           value := civilianSum warData t }]) := by
    rw [prepareSankeyData_eq]
    apply List.flatMap_congr
    intro t ht
    rw [hsrc t ht]
  refine ⟨nodup_distinctKeys _, mem_conflictTypes warData, distinctKeys_firstAppearance _,
    ?_, hlinks, ?_⟩
  · rw [prepareSankeyData_eq]
  · rw [hlinks]
    have hnodes : (prepareSankeyData warData).nodes.length
        = (conflictTypes warData).length + 2 := by
      rw [prepareSankeyData_eq]
      simp
    rw [hnodes]
    intro l hl
    simp only [List.mem_flatMap, List.mem_cons, List.mem_singleton, List.not_mem_nil,
      or_false] at hl
    obtain ⟨t, ht, hl⟩ := hl
    have hlt := List.indexOf_lt_length.mpr ht
    rcases hl with rfl | rfl
    · exact ⟨⟨_, rfl, by omega⟩, by simp⟩
    · exact ⟨⟨_, rfl, by omega⟩, by simp⟩

/-- C10: on the two-record example `prepareSankeyData` returns the nodes and
links given in the spec; on the dataset whose one record has the conflict type
`__proto__` it returns three nodes and two links whose source is
`Object.prototype`, so that no link of the result has a node index as source. -/
theorem prepareSankeyData_proto :
    prepareSankeyData exampleData =
        { nodes := [{ name := "Interstate", type := "conflict" },
                    { name := "Military Deaths", type := "casualty" },
                    { name := "Civilian Deaths", type := "casualty" }]
          links := [{ source := .number 0, target := 1, value := 1600 },
                    { source := .number 0, target := 2, value := 4400 }] } ∧
      prepareSankeyData [recProto] =
        { nodes := [{ name := "__proto__", type := "conflict" },
                    { name := "Military Deaths", type := "casualty" },
                    { name := "Civilian Deaths", type := "casualty" }]
          links := [{ source := .objectPrototype, target := 1, value := 700 },
                    { source := .objectPrototype, target := 2, value := 300 }] } ∧
      ∀ l ∈ (prepareSankeyData [recProto]).links, ∀ i : Nat, l.source ≠ .number i := by
  refine ⟨by decide, by decide, ?_⟩
  intro l hl i
  have hlinks : (prepareSankeyData [recProto]).links =
      [{ source := .objectPrototype, target := 1, value := 700 },
       { source := .objectPrototype, target := 2, value := 300 }] := by decide
  rw [hlinks] at hl
  simp only [List.mem_cons, List.mem_singleton, List.not_mem_nil, or_false] at hl
  rcases hl with rfl | rfl <;> simp

/-! ## Cumulative series -/

theorem foldl_skipZero_sumQ {α : Type} (f : α → ℚ) (l : List α) (a : ℚ) :
    l.foldl (fun sum v => if f v ≠ 0 then sum + f v else sum) a = a + (l.map f).sum := by
  induction l generalizing a with
  | nil => simp
  | cons d l ih =>
    simp only [List.foldl_cons, List.map_cons, List.sum_cons, ih]
    by_cases h : f d = 0
    · simp [h]
    · simp [h, add_assoc]

theorem d3sum_eq {α : Type} (l : List α) (f : α → ℚ) : d3sum l f = (l.map f).sum := by
  unfold d3sum
  rw [foldl_skipZero_sumQ, zero_add]

theorem lookup_map_key {β : Type} (ks : List String) (F : String → β) (T : String) :
    (ks.map (fun k => (k, F k))).lookup T = if T ∈ ks then some (F T) else none := by
  induction ks with
  | nil => simp
  | cons k ks ih =>
    simp only [List.map_cons, List.lookup_cons, List.mem_cons]
    by_cases h : T = k
    · subst h; simp
    · have : (T == k) = false := by simpa using h
      rw [this, ih]
      simp [h]

/-- The expression `byType.get(T) || 0` after `d3.rollup` with a `d3.sum`
reducer: the sum of `f` over the values whose key is `T`. -/
theorem getOrZero_rollup {α : Type} (values : List α) (f : α → ℚ) (key : α → String)
    (T : String) :
    getOrZero (d3rollup values (fun v => d3sum v f) key) T
      = ((values.filter (fun d => key d == T)).map f).sum := by
  unfold getOrZero d3rollup
  rw [d3group_eq, List.map_map]
  have := lookup_map_key (distinctKeys (values.map key))
    (fun k => d3sum (values.filter (fun d => key d == k)) f) T
  simp only [Function.comp_def]
  rw [this]
  by_cases h : T ∈ distinctKeys (values.map key)
  · rw [if_pos h]
    exact d3sum_eq _ _
  · rw [if_neg h]
    have hnil : values.filter (fun d => key d == T) = [] := by
      rw [List.filter_eq_nil_iff]
      intro x hx hc
      have : key x = T := by simpa using hc
      exact h ((mem_distinctKeys _ _).mpr (this ▸ List.mem_map_of_mem key hx))
    simp [hnil]

/-- The per-year entry computed by the source holds the annualised deaths of
the spec for each of the three types. -/
theorem yearEntry_eq (warData : List ConflictRecord) (year : Int) :
    yearEntry warData year =
      { year := year
        Interstate := annualized warData "Interstate" year
        CivilWar := annualized warData "Civil War" year
        Colonial := annualized warData "Colonial" year } := by
  unfold yearEntry annualized
  simp only [getOrZero_rollup, List.filter_filter]

theorem annualized_nonneg (warData : List ConflictRecord)
    (hnonneg : ∀ r ∈ warData, 0 ≤ r.total_deaths) (T : String) (year : Int) :
    0 ≤ annualized warData T year := by
  unfold annualized
  apply List.sum_nonneg
  intro x hx
  obtain ⟨r, hr, rfl⟩ := List.mem_map.mp hx
  obtain ⟨hmem, hp⟩ := List.mem_filter.mp hr
  simp only [Bool.and_eq_true, decide_eq_true_eq] at hp
  have hd : (0 : Int) ≤ r.end_year - r.start_year + 1 := by omega
  exact div_nonneg (by exact_mod_cast hnonneg r hmem) (by exact_mod_cast hd)

theorem cumulate_chain (ys : List YearEntry)
    (hys : ∀ y ∈ ys, 0 ≤ y.Interstate ∧ 0 ≤ y.CivilWar ∧ 0 ≤ y.Colonial) :
    ∀ (yr : Int) (a b c : ℚ),
      List.Chain CumulativeEntry.le
        { year := yr, Interstate := a, CivilWar := b, Colonial := c, total := a + b + c }
        (cumulate a b c ys) := by
  induction ys with
  | nil => intro yr a b c; exact List.Chain.nil
  | cons y ys ih =>
    intro yr a b c
    obtain ⟨h1, h2, h3⟩ := hys y (List.mem_cons_self _ _)
    unfold cumulate
    refine List.Chain.cons ?_ (ih (fun z hz => hys z (List.mem_cons_of_mem _ hz)) _ _ _ _)
    refine ⟨?_, ?_, ?_, ?_⟩ <;> simp only [] <;> linarith

theorem cumulate_chain' (ys : List YearEntry)
    (hys : ∀ y ∈ ys, 0 ≤ y.Interstate ∧ 0 ≤ y.CivilWar ∧ 0 ≤ y.Colonial) (a b c : ℚ) :
    List.Chain' CumulativeEntry.le (cumulate a b c ys) := by
  cases ys with
  | nil => exact List.chain'_nil
  | cons y ys =>
    unfold cumulate
    exact cumulate_chain ys (fun z hz => hys z (List.mem_cons_of_mem _ hz)) _ _ _ _

/-- C8: when every record has a non-negative `total_deaths`, each entry of the
series returned by `prepareCumulativeData` is, in the fields Interstate,
Civil War, Colonial and total, at least the entry of the year before. -/
theorem prepareCumulativeData_monotone (warData : List ConflictRecord)
    (hnonneg : ∀ r ∈ warData, 0 ≤ r.total_deaths) (i : Nat)
    (hi : i + 1 < (prepareCumulativeData warData).length) :
    (prepareCumulativeData warData)[i].Interstate
        ≤ (prepareCumulativeData warData)[i + 1].Interstate ∧
      (prepareCumulativeData warData)[i].CivilWar
        ≤ (prepareCumulativeData warData)[i + 1].CivilWar ∧
      (prepareCumulativeData warData)[i].Colonial
        ≤ (prepareCumulativeData warData)[i + 1].Colonial ∧
      (prepareCumulativeData warData)[i].total
        ≤ (prepareCumulativeData warData)[i + 1].total := by
  have hchain : List.Chain' CumulativeEntry.le (prepareCumulativeData warData) := by
    unfold prepareCumulativeData
    apply cumulate_chain'
    intro y hy
    obtain ⟨year, _, rfl⟩ := List.mem_map.mp hy
    rw [yearEntry_eq]
    exact ⟨annualized_nonneg warData hnonneg _ _, annualized_nonneg warData hnonneg _ _,
      annualized_nonneg warData hnonneg _ _⟩
  exact List.chain'_iff_get.mp hchain i (by omega)

/-- Witness for `prepareCumulativeData_monotone`: the first two years of the
two-record example. -/
theorem prepareCumulativeData_monotone_witness :
    (∀ r ∈ exampleData, 0 ≤ r.total_deaths) ∧
      ∃ h : 0 + 1 < (prepareCumulativeData exampleData).length,
        (prepareCumulativeData exampleData)[0].Interstate
          ≤ (prepareCumulativeData exampleData)[0 + 1].Interstate :=
  ⟨by decide, by decide,
    (prepareCumulativeData_monotone exampleData (by decide) 0 (by decide)).1⟩

theorem d3min_foldl {α : Type} (f : α → Int) (l : List α) (m : Int) :
    ∃ lo, l.foldl (fun min v =>
        match min with
        | none => some (f v)
        | some m => if m > f v then some (f v) else some m) (some m) = some lo ∧
      lo ≤ m ∧ (∀ v ∈ l, lo ≤ f v) ∧ (lo = m ∨ ∃ v ∈ l, f v = lo) := by
  induction l generalizing m with
  | nil => exact ⟨m, rfl, le_refl _, by simp, Or.inl rfl⟩
  | cons a l ih =>
    simp only [List.foldl_cons]
    by_cases h : m > f a
    · rw [if_pos h]
      obtain ⟨lo, h1, h2, h3, h4⟩ := ih (f a)
      refine ⟨lo, h1, by omega, ?_, ?_⟩
      · intro v hv
        rcases List.mem_cons.mp hv with rfl | hv
        · exact h2
        · exact h3 v hv
      · rcases h4 with h4 | ⟨v, hv, hv'⟩
        · exact Or.inr ⟨a, List.mem_cons_self _ _, h4.symm⟩
        · exact Or.inr ⟨v, List.mem_cons_of_mem _ hv, hv'⟩
    · rw [if_neg h]
      obtain ⟨lo, h1, h2, h3, h4⟩ := ih m
      refine ⟨lo, h1, h2, ?_, ?_⟩
      · intro v hv
        rcases List.mem_cons.mp hv with rfl | hv
        · omega
        · exact h3 v hv
      · rcases h4 with h4 | ⟨v, hv, hv'⟩
        · exact Or.inl h4
        · exact Or.inr ⟨v, List.mem_cons_of_mem _ hv, hv'⟩

theorem d3max_foldl {α : Type} (f : α → Int) (l : List α) (m : Int) :
    ∃ hi, l.foldl (fun max v =>
        match max with
        | none => some (f v)
        | some m => if m < f v then some (f v) else some m) (some m) = some hi ∧
      m ≤ hi ∧ (∀ v ∈ l, f v ≤ hi) ∧ (hi = m ∨ ∃ v ∈ l, f v = hi) := by
  induction l generalizing m with
  | nil => exact ⟨m, rfl, le_refl _, by simp, Or.inl rfl⟩
  | cons a l ih =>
    simp only [List.foldl_cons]
    by_cases h : m < f a
    · rw [if_pos h]
      obtain ⟨hi, h1, h2, h3, h4⟩ := ih (f a)
      refine ⟨hi, h1, by omega, ?_, ?_⟩
      · intro v hv
        rcases List.mem_cons.mp hv with rfl | hv
        · exact h2
        · exact h3 v hv
      · rcases h4 with h4 | ⟨v, hv, hv'⟩
        · exact Or.inr ⟨a, List.mem_cons_self _ _, h4.symm⟩
        · exact Or.inr ⟨v, List.mem_cons_of_mem _ hv, hv'⟩
    · rw [if_neg h]
      obtain ⟨hi, h1, h2, h3, h4⟩ := ih m
      refine ⟨hi, h1, h2, ?_, ?_⟩
      · intro v hv
        rcases List.mem_cons.mp hv with rfl | hv
        · omega
        · exact h3 v hv
      · rcases h4 with h4 | ⟨v, hv, hv'⟩
        · exact Or.inl h4
        · exact Or.inr ⟨v, List.mem_cons_of_mem _ hv, hv'⟩

/-- On a non-empty array `d3.min` returns the least value of the accessor. -/
theorem d3min_spec {α : Type} (f : α → Int) (l : List α) (hne : l ≠ []) :
    ∃ lo, d3min l f = some lo ∧ (∃ v ∈ l, f v = lo) ∧ ∀ v ∈ l, lo ≤ f v := by
  cases l with
  | nil => exact absurd rfl hne
  | cons a l =>
    obtain ⟨lo, h1, h2, h3, h4⟩ := d3min_foldl f l (f a)
    refine ⟨lo, ?_, ?_, ?_⟩
    · unfold d3min
      simpa only [List.foldl_cons] using h1
    · rcases h4 with h4 | ⟨v, hv, hv'⟩
      · exact ⟨a, List.mem_cons_self _ _, h4.symm⟩
      · exact ⟨v, List.mem_cons_of_mem _ hv, hv'⟩
    · intro v hv
      rcases List.mem_cons.mp hv with rfl | hv
      · exact h2
      · exact h3 v hv

/-- On a non-empty array `d3.max` returns the greatest value of the accessor. -/
theorem d3max_spec {α : Type} (f : α → Int) (l : List α) (hne : l ≠ []) :
    ∃ hi, d3max l f = some hi ∧ (∃ v ∈ l, f v = hi) ∧ ∀ v ∈ l, f v ≤ hi := by
  cases l with
  | nil => exact absurd rfl hne
  | cons a l =>
    obtain ⟨hi, h1, h2, h3, h4⟩ := d3max_foldl f l (f a)
    refine ⟨hi, ?_, ?_, ?_⟩
    · unfold d3max
      simpa only [List.foldl_cons] using h1
    · rcases h4 with h4 | ⟨v, hv, hv'⟩
      · exact ⟨a, List.mem_cons_self _ _, h4.symm⟩
      · exact ⟨v, List.mem_cons_of_mem _ hv, hv'⟩
    · intro v hv
      rcases List.mem_cons.mp hv with rfl | hv
      · exact h2
      · exact h3 v hv

theorem cumulate_map_year (ys : List YearEntry) :
    ∀ a b c : ℚ, (cumulate a b c ys).map (fun e => e.year) = ys.map (fun y => y.year) := by
  induction ys with
  | nil => intro a b c; rfl
  | cons y ys ih =>
    intro a b c
    unfold cumulate
    simp only [List.map_cons, ih]

theorem mem_d3range (start stop y : Int) :
    y ∈ d3range start stop ↔ start ≤ y ∧ y < stop := by
  unfold d3range
  simp only [List.mem_map, List.mem_range]
  constructor
  · rintro ⟨i, hi, rfl⟩
    omega
  · rintro ⟨h1, h2⟩
    exact ⟨(y - start).toNat, by omega, by omega⟩

theorem d3range_pairwise (start stop : Int) :
    (d3range start stop).Pairwise (fun a b => a < b) := by
  unfold d3range
  rw [List.pairwise_map]
  exact (List.pairwise_lt_range _).imp (by intro a b h; omega)

theorem int_Icc_eq_Ico (lo m : Int) : Finset.Icc lo m = Finset.Ico lo (m + 1) := by
  ext y
  simp only [Finset.mem_Icc, Finset.mem_Ico]
  omega

theorem sum_Ico_succ_int (g : Int → ℚ) (lo m : Int) (h : lo ≤ m) :
    ∑ y ∈ Finset.Ico lo (m + 1), g y = (∑ y ∈ Finset.Ico lo m, g y) + g m := by
  have hins : Finset.Ico lo (m + 1) = insert m (Finset.Ico lo m) := by
    ext y
    simp only [Finset.mem_Ico, Finset.mem_insert]
    omega
  rw [hins, Finset.sum_insert (by simp), add_comm]

/-- The running sums over the years `lo + k, lo + k + 1, ...` when the three
accumulators hold the sums over the years before `lo + k`. -/
theorem cumulate_prefix (warData : List ConflictRecord) (lo : Int) :
    ∀ (n k : Nat) (a b c : ℚ),
      a = ∑ y ∈ Finset.Ico lo (lo + k), annualized warData "Interstate" y →
      b = ∑ y ∈ Finset.Ico lo (lo + k), annualized warData "Civil War" y →
      c = ∑ y ∈ Finset.Ico lo (lo + k), annualized warData "Colonial" y →
      ∀ e ∈ cumulate a b c
          ((List.range' k n).map (fun (i : Nat) => yearEntry warData (lo + (i : Int)))),
        e.Interstate = ∑ y ∈ Finset.Icc lo e.year, annualized warData "Interstate" y ∧
        e.CivilWar = ∑ y ∈ Finset.Icc lo e.year, annualized warData "Civil War" y ∧
        e.Colonial = ∑ y ∈ Finset.Icc lo e.year, annualized warData "Colonial" y ∧
        e.total = e.Interstate + e.CivilWar + e.Colonial := by
  intro n
  induction n with
  | zero =>
    intro k a b c _ _ _ e he
    simp [cumulate] at he
  | succ n ih =>
    intro k a b c ha hb hc e he
    have hk : lo ≤ lo + (k : Int) := by omega
    rw [List.range'_succ, List.map_cons, yearEntry_eq] at he
    unfold cumulate at he
    simp only [] at he
    have ha' : a + annualized warData "Interstate" (lo + k)
        = ∑ y ∈ Finset.Ico lo (lo + ((k + 1 : Nat) : Int)),
            annualized warData "Interstate" y := by
      rw [ha, Nat.cast_succ, ← add_assoc, sum_Ico_succ_int _ _ _ hk]
    have hb' : b + annualized warData "Civil War" (lo + k)
        = ∑ y ∈ Finset.Ico lo (lo + ((k + 1 : Nat) : Int)),
            annualized warData "Civil War" y := by
      rw [hb, Nat.cast_succ, ← add_assoc, sum_Ico_succ_int _ _ _ hk]
    have hc' : c + annualized warData "Colonial" (lo + k)
        = ∑ y ∈ Finset.Ico lo (lo + ((k + 1 : Nat) : Int)),
            annualized warData "Colonial" y := by
      rw [hc, Nat.cast_succ, ← add_assoc, sum_Ico_succ_int _ _ _ hk]
    rcases List.mem_cons.mp he with rfl | he
    · simp only []
      rw [int_Icc_eq_Ico]
      refine ⟨?_, ?_, ?_, trivial⟩
      · rw [ha']; simp [add_assoc]
      · rw [hb']; simp [add_assoc]
      · rw [hc']; simp [add_assoc]
    · exact ih (k + 1) _ _ _ ha' hb' hc' e he

theorem d3range_eq_range' (start stop : Int) :
    d3range start stop =
      (List.range' 0 (stop - start).toNat).map (fun (i : Nat) => start + (i : Int)) := by
  unfold d3range
  rw [List.range_eq_range']

/-! ## Statistics -/

theorem d3min_eq_some_iff {α : Type} (f : α → Int) (l : List α) (lo : Int) :
    d3min l f = some lo ↔ ((∃ v ∈ l, f v = lo) ∧ ∀ v ∈ l, lo ≤ f v) := by
  by_cases hne : l = []
  · subst hne
    simp [d3min]
  · obtain ⟨m, hm, ⟨w, hw, hwm⟩, hle⟩ := d3min_spec f l hne
    rw [hm]
    constructor
    · intro h
      have : m = lo := Option.some.inj h
      subst this
      exact ⟨⟨w, hw, hwm⟩, hle⟩
    · rintro ⟨⟨v, hv, hvlo⟩, hlo⟩
      have h1 := hle v hv
      have h2 := hlo w hw
      have : m = lo := by omega
      rw [this]

theorem d3max_eq_some_iff {α : Type} (f : α → Int) (l : List α) (hi : Int) :
    d3max l f = some hi ↔ ((∃ v ∈ l, f v = hi) ∧ ∀ v ∈ l, f v ≤ hi) := by
  by_cases hne : l = []
  · subst hne
    simp [d3max]
  · obtain ⟨m, hm, ⟨w, hw, hwm⟩, hle⟩ := d3max_spec f l hne
    rw [hm]
    constructor
    · intro h
      have : m = hi := Option.some.inj h
      subst this
      exact ⟨⟨w, hw, hwm⟩, hle⟩
    · rintro ⟨⟨v, hv, hvhi⟩, hhi⟩
      have h1 := hle v hv
      have h2 := hhi w hw
      have : m = hi := by omega
      rw [this]

/-- C11: `getDataStats` returns the number of records, the sums of the three
death fields over all records, as `dateRange` the least `start_year` and the
greatest `end_year` (a bound is reported exactly when it is that extremum, so
none on an empty dataset), and as `conflictTypes` and `regions` duplicate-free
lists of exactly the values that occur; on the two-record example `totalDeaths`
is 6000. -/
theorem getDataStats_spec (warData : List ConflictRecord) :
    (getDataStats warData).totalConflicts = warData.length ∧
      (getDataStats warData).totalDeaths = (warData.map (fun d => d.total_deaths)).sum ∧
      (getDataStats warData).totalMilitaryDeaths
        = (warData.map (fun d => d.military_deaths)).sum ∧
      (getDataStats warData).totalCivilianDeaths
        = (warData.map (fun d => d.civilian_deaths)).sum ∧
      (∀ lo, (getDataStats warData).dateRange.min = some lo ↔
        ((∃ r ∈ warData, r.start_year = lo) ∧ ∀ r ∈ warData, lo ≤ r.start_year)) ∧
      (∀ hi, (getDataStats warData).dateRange.max = some hi ↔
        ((∃ r ∈ warData, r.end_year = hi) ∧ ∀ r ∈ warData, r.end_year ≤ hi)) ∧
      (getDataStats warData).conflictTypes.Nodup ∧
      (∀ t, t ∈ (getDataStats warData).conflictTypes ↔ ∃ r ∈ warData, r.conflict_type = t) ∧
      (getDataStats warData).regions.Nodup ∧
      (∀ g, g ∈ (getDataStats warData).regions ↔ ∃ r ∈ warData, r.geographic_region = g) ∧
      (getDataStats exampleData).totalDeaths = 6000 := by
  refine ⟨rfl, ?_, ?_, ?_, ?_, ?_, nodup_distinctKeys _, ?_, nodup_distinctKeys _, ?_,
    by decide⟩
  · simp [getDataStats, foldl_add_sum]
  · simp [getDataStats, foldl_add_sum]
  · simp [getDataStats, foldl_add_sum]
  · intro lo
    exact d3min_eq_some_iff _ _ _
  · intro hi
    exact d3max_eq_some_iff _ _ _
  · intro t
    simp only [getDataStats]
    rw [mem_distinctKeys, List.mem_map]
  · intro g
    simp only [getDataStats]
    rw [mem_distinctKeys, List.mem_map]

/-! ## Invariants and frame of the filter operations -/

/-- C12 (as stated, refuted): from the initial filter state the single call
`setTimeRangeFilter(2000, 1000)` leads to a state with
`timeRange[0] > timeRange[1]`. -/
theorem timeRange_order_counterexample :
    exampleApp.filterState = initialFilterState ∧
      ¬ ((runOps [.setTimeRangeFilter 2000 1000] exampleApp).filterState.timeRange.1 ≤
        (runOps [.setTimeRangeFilter 2000 1000] exampleApp).filterState.timeRange.2) := by
  decide

theorem run_rangeOrdered (op : FilterOp) (app : App) (hop : op.rangeOrdered)
    (h : app.filterState.timeRange.1 ≤ app.filterState.timeRange.2) :
    (op.run app).filterState.timeRange.1 ≤ (op.run app).filterState.timeRange.2 := by
  cases op with
  | setConflictTypeFilter type => exact h
  | setRegionFilter region => exact h
  | setTimeRangeFilter start stop => exact hop
  | setConflictFilter name =>
    simp only [FilterOp.run, setConflictFilter, notifyListeners]
    split <;> exact h
  | resetFilters =>
    simp [FilterOp.run, resetFilters, notifyListeners]

/-- C12 (amended): in every filter state reached from the initial state through
the setter operations, all calls of `setTimeRangeFilter` having
`start ≤ end`, `timeRange[0] ≤ timeRange[1]`. -/
theorem timeRange_order_invariant (ops : List FilterOp) (app : App)
    (hinit : app.filterState = initialFilterState)
    (hops : ∀ op ∈ ops, op.rangeOrdered) :
    (runOps ops app).filterState.timeRange.1 ≤ (runOps ops app).filterState.timeRange.2 := by
  have h0 : app.filterState.timeRange.1 ≤ app.filterState.timeRange.2 := by
    rw [hinit]; decide
  clear hinit
  induction ops generalizing app with
  | nil => exact h0
  | cons op ops ih =>
    exact ih (op.run app) (fun o ho => hops o (List.mem_cons_of_mem _ ho))
      (run_rangeOrdered op app (hops op (List.mem_cons_self _ _)) h0)

/-- Witness for `timeRange_order_invariant`: a type filter, a slider move, a
conflict click and a reset on the two-record example. -/
theorem timeRange_order_invariant_witness :
    exampleApp.filterState = initialFilterState ∧
      (runOps [.setConflictTypeFilter "Interstate", .setTimeRangeFilter 700 1950,
          .setConflictFilter "A", .resetFilters] exampleApp).filterState.timeRange.1 ≤
        (runOps [.setConflictTypeFilter "Interstate", .setTimeRangeFilter 700 1950,
          .setConflictFilter "A", .resetFilters] exampleApp).filterState.timeRange.2 :=
  ⟨rfl, timeRange_order_invariant _ exampleApp rfl (by
    intro op hop
    simp only [List.mem_cons, List.mem_singleton, List.not_mem_nil, or_false] at hop
    rcases hop with rfl | rfl | rfl | rfl <;> simp [FilterOp.rangeOrdered])⟩

/-- C13 (as stated, refuted): `setConflictTypeFilter` also changes
`selectedConflict`: with conflict A selected, choosing a type clears the
selection. -/
theorem setConflictTypeFilter_clears_counterexample :
    selectedAApp.filterState.selectedConflict = some "A" ∧
      (setConflictTypeFilter "Civil War" selectedAApp).filterState.selectedConflict = none := by
  decide

/-- C13 (amended): `setConflictTypeFilter`, `setRegionFilter` and
`setTimeRangeFilter` each set their own field, reset `selectedConflict` to
`null` and leave the other two fields unchanged; `setConflictFilter` changes
only `selectedConflict`. -/
theorem setters_frame (app : App) (type region conflictName : String) (start stop : Int) :
    (setConflictTypeFilter type app).filterState =
        { app.filterState with selectedType := type, selectedConflict := none } ∧
      (setRegionFilter region app).filterState =
        { app.filterState with selectedRegion := region, selectedConflict := none } ∧
      (setTimeRangeFilter start stop app).filterState =
        { app.filterState with timeRange := (start, stop), selectedConflict := none } ∧
      (setConflictFilter conflictName app).filterState.selectedType
        = app.filterState.selectedType ∧
      (setConflictFilter conflictName app).filterState.selectedRegion
        = app.filterState.selectedRegion ∧
      (setConflictFilter conflictName app).filterState.timeRange
        = app.filterState.timeRange := by
  refine ⟨rfl, rfl, rfl, ?_, ?_, ?_⟩ <;>
    (simp only [setConflictFilter, notifyListeners]; split <;> rfl)

/-- C18: from every filter state `resetFilters` yields `selectedConflict = null`,
`selectedType = 'all'`, `selectedRegion = 'all'`, `timeRange = [700, 2025]`,
which is the initial state, and a second call leaves the filter state and the
filtered data as the first call left them. -/
theorem resetFilters_initial (app : App) :
    (resetFilters app).filterState.selectedConflict = none ∧
      (resetFilters app).filterState.selectedType = "all" ∧
      (resetFilters app).filterState.selectedRegion = "all" ∧
      (resetFilters app).filterState.timeRange = (700, 2025) ∧
      (resetFilters app).filterState = initialFilterState ∧
      (resetFilters (resetFilters app)).filterState = (resetFilters app).filterState ∧
      (resetFilters (resetFilters app)).filteredData = (resetFilters app).filteredData ∧
      (resetFilters (resetFilters app)).warData = (resetFilters app).warData := by
  refine ⟨rfl, rfl, rfl, rfl, rfl, rfl, rfl, rfl⟩

/-! ## Reachable narrative states -/

theorem transitionToStep_eq (step : Int) (st : Story) :
    transitionToStep step st =
      if step = (if st.hasIndicator then { st with indicatorText := some step } else st).currentStep
          ∧ step > 0 then
        (if st.hasIndicator then { st with indicatorText := some step } else st)
      else
        switchStep step
          { (if st.hasIndicator then { st with indicatorText := some step } else st) with
            currentStep := step } := rfl

theorem switchStep_cases (step : Int) (st : Story) :
    switchStep step st = st ∨ ∃ h, switchStep step st = runHandler h st := by
  unfold switchStep
  by_cases h0 : step = 0
  · rw [if_pos h0]; exact Or.inr ⟨.showPerson, rfl⟩
  rw [if_neg h0]
  by_cases h1 : step = 1
  · rw [if_pos h1]; exact Or.inr ⟨.showPerson, rfl⟩
  rw [if_neg h1]
  by_cases h2 : step = 2
  · rw [if_pos h2]; exact Or.inr ⟨.personToCircle, rfl⟩
  rw [if_neg h2]
  by_cases h3 : step = 3
  · rw [if_pos h3]; exact Or.inr ⟨.showManyCircles, rfl⟩
  rw [if_neg h3]
  by_cases h4 : step = 4
  · rw [if_pos h4]; exact Or.inr ⟨.formTimeline, rfl⟩
  rw [if_neg h4]
  by_cases h5 : step = 5
  · rw [if_pos h5]; exact Or.inr ⟨.zoomToModernEra, rfl⟩
  rw [if_neg h5]
  by_cases h6 : step = 6
  · rw [if_pos h6]; exact Or.inr ⟨.breakApartCircles, rfl⟩
  rw [if_neg h6]
  by_cases h7 : step = 7
  · rw [if_pos h7]; exact Or.inr ⟨.splitCircles, rfl⟩
  rw [if_neg h7]
  by_cases h8 : step = 8
  · rw [if_pos h8]; exact Or.inr ⟨.beginDrift, rfl⟩
  rw [if_neg h8]
  by_cases h9 : step = 9
  · rw [if_pos h9]; exact Or.inr ⟨.completeDrift, rfl⟩
  rw [if_neg h9]
  by_cases h10 : step = 10
  · rw [if_pos h10]; exact Or.inr ⟨.emphasizeCivilians, rfl⟩
  rw [if_neg h10]
  by_cases h11 : step = 11
  · rw [if_pos h11]; exact Or.inr ⟨.showConclusion, rfl⟩
  rw [if_neg h11]
  exact Or.inl rfl

/-- The three ways `transitionToStep` can end: the early return, one handler
executed after `currentStep` was written, or (for a step outside 0..11)
`currentStep` written and no handler executed. -/
theorem transitionToStep_cases (step : Int) (st : Story) :
    ∃ st0 : Story,
      st0 = (if st.hasIndicator then { st with indicatorText := some step } else st) ∧
      ((transitionToStep step st = st0 ∧ step = st.currentStep ∧ step > 0) ∨
        (∃ h, transitionToStep step st = runHandler h { st0 with currentStep := step }) ∨
        transitionToStep step st = { st0 with currentStep := step }) := by
  refine ⟨_, rfl, ?_⟩
  have hcur : (if st.hasIndicator then { st with indicatorText := some step } else st).currentStep
      = st.currentStep := by
    split <;> rfl
  rw [transitionToStep_eq]
  generalize (if st.hasIndicator = true then { st with indicatorText := some step } else st)
    = st0 at hcur ⊢
  by_cases h : step = st0.currentStep ∧ step > 0
  · rw [if_pos h]
    exact Or.inl ⟨rfl, hcur ▸ h.1, h.2⟩
  · rw [if_neg h]
    rcases switchStep_cases step { st0 with currentStep := step } with hs | ⟨hd, hs⟩
    · exact Or.inr (Or.inr hs)
    · exact Or.inr (Or.inl ⟨hd, hs⟩)

theorem indicator_frame (step : Int) (st : Story) :
    (if st.hasIndicator then { st with indicatorText := some step } else st).data = st.data ∧
      (if st.hasIndicator then { st with indicatorText := some step } else st).fetchCalls
        = st.fetchCalls ∧
      (if st.hasIndicator then { st with indicatorText := some step } else st).alerts
        = st.alerts ∧
      (if st.hasIndicator then { st with indicatorText := some step } else st).dataDraws
        = st.dataDraws ∧
      (if st.hasIndicator then { st with indicatorText := some step } else st).pulseActive
        = st.pulseActive ∧
      (if st.hasIndicator then { st with indicatorText := some step } else st).pulseIterations
        = st.pulseIterations := by
  split <;> exact ⟨rfl, rfl, rfl, rfl, rfl, rfl⟩

theorem transitionToStep_currentStep (step : Int) (st : Story) :
    (transitionToStep step st).currentStep = step := by
  obtain ⟨st0, hst0, h | ⟨h, hh⟩ | h⟩ := transitionToStep_cases step st
  · rw [h.1, hst0]
    have : (if st.hasIndicator then { st with indicatorText := some step } else st).currentStep
        = st.currentStep := by split <;> rfl
    rw [this]
    exact h.2.1.symm
  · rw [hh, runHandler_currentStep]
  · rw [h]

/-- C14 (as stated, refuted): the call `transitionToStep(12)` in the initial
state leaves `currentStep = 12`, outside 0..11. -/
theorem currentStep_range_counterexample :
    (runSteps [12] (initialStory false)).currentStep = 12 := by
  decide

/-- C14 (amended): in every state reached from the initial narrative state by
`transitionToStep` calls whose requested steps are integers in 0..11,
`currentStep` is in 0..11. -/
theorem currentStep_range (steps : List Int) (hasIndicator : Bool)
    (hsteps : ∀ s ∈ steps, 0 ≤ s ∧ s ≤ 11) :
    0 ≤ (runSteps steps (initialStory hasIndicator)).currentStep ∧
      (runSteps steps (initialStory hasIndicator)).currentStep ≤ 11 := by
  have hgen : ∀ (steps : List Int) (st : Story), (∀ s ∈ steps, 0 ≤ s ∧ s ≤ 11) →
      (0 ≤ st.currentStep ∧ st.currentStep ≤ 11) →
      0 ≤ (runSteps steps st).currentStep ∧ (runSteps steps st).currentStep ≤ 11 := by
    intro steps
    induction steps with
    | nil => intro st _ h; exact h
    | cons s steps ih =>
      intro st hs _
      refine ih (transitionToStep s st) (fun x hx => hs x (List.mem_cons_of_mem _ hx)) ?_
      rw [transitionToStep_currentStep]
      exact hs s (List.mem_cons_self _ _)
  exact hgen steps _ hsteps (by simp [initialStory])

/-- Witness for `currentStep_range`: scrolling to 3, again 3, to 11 and back to 0. -/
theorem currentStep_range_witness :
    (∀ s ∈ [(3 : Int), 3, 11, 0], 0 ≤ s ∧ s ≤ 11) ∧
      0 ≤ (runSteps [3, 3, 11, 0] (initialStory true)).currentStep ∧
      (runSteps [3, 3, 11, 0] (initialStory true)).currentStep ≤ 11 :=
  ⟨by decide, currentStep_range [3, 3, 11, 0] true (by decide)⟩

/-! ## Failed load of the narrative -/

theorem runHandler_frame (h : Handler) (st : Story) :
    (runHandler h st).data = st.data ∧ (runHandler h st).fetchCalls = st.fetchCalls ∧
      (runHandler h st).alerts = st.alerts ∧
      (st.data = none → (runHandler h st).dataDraws = st.dataDraws) := by
  have hdraw : ∀ (h : Handler) (s : Story),
      (drawFromData h s).data = s.data ∧ (drawFromData h s).fetchCalls = s.fetchCalls ∧
        (drawFromData h s).alerts = s.alerts ∧
        (s.data = none → (drawFromData h s).dataDraws = s.dataDraws) := by
    intro h s
    unfold drawFromData
    split
    · exact ⟨rfl, rfl, rfl, fun _ => rfl⟩
    · rename_i d hd
      exact ⟨rfl, rfl, rfl, fun hc => by rw [hc] at hd; cases hd⟩
  have hpulse : ∀ s : Story,
      (pulse s).data = s.data ∧ (pulse s).fetchCalls = s.fetchCalls ∧
        (pulse s).alerts = s.alerts ∧ (pulse s).dataDraws = s.dataDraws := by
    intro s
    unfold pulse
    split <;> exact ⟨rfl, rfl, rfl, rfl⟩
  cases h
  case showManyCircles => exact hdraw _ _
  case formTimeline => exact hdraw _ _
  case zoomToModernEra => exact hdraw _ _
  case breakApartCircles => exact hdraw _ _
  case emphasizeCivilians =>
    obtain ⟨p1, p2, p3, p4⟩ := hpulse
      { st with handlerRuns := st.handlerRuns ++ [.emphasizeCivilians], pulseActive := true }
    exact ⟨p1, p2, p3, fun _ => p4⟩
  all_goals exact ⟨rfl, rfl, rfl, fun _ => rfl⟩

theorem transitionToStep_frame (step : Int) (st : Story) :
    (transitionToStep step st).data = st.data ∧
      (transitionToStep step st).fetchCalls = st.fetchCalls ∧
      (transitionToStep step st).alerts = st.alerts ∧
      (st.data = none → (transitionToStep step st).dataDraws = st.dataDraws) := by
  obtain ⟨i1, i2, i3, i4, _, _⟩ := indicator_frame step st
  obtain ⟨st0, hst0, h | ⟨h, hh⟩ | h⟩ := transitionToStep_cases step st
  · rw [h.1, hst0]
    exact ⟨i1, i2, i3, fun _ => i4⟩
  · obtain ⟨r1, r2, r3, r4⟩ := runHandler_frame h { st0 with currentStep := step }
    rw [hh]
    subst hst0
    exact ⟨r1.trans i1, r2.trans i2, r3.trans i3, fun hd => (r4 (i1.trans hd)).trans i4⟩
  · rw [h]
    subst hst0
    exact ⟨i1, i2, i3, fun _ => i4⟩

theorem event_frame (ev : StoryEvent) (st : Story) :
    (ev.run st).data = st.data ∧ (ev.run st).fetchCalls = st.fetchCalls ∧
      (ev.run st).alerts = st.alerts ∧
      (st.data = none → (ev.run st).dataDraws = st.dataDraws) := by
  cases ev with
  | scroll step => exact transitionToStep_frame step st
  | pulseEnd =>
    simp only [StoryEvent.run, pulseCycleEnd, pulse]
    refine ⟨?_, ?_, ?_, fun _ => ?_⟩ <;> split_ifs <;> rfl

theorem runEvents_frame (events : List StoryEvent) (st : Story) :
    (runEvents events st).data = st.data ∧ (runEvents events st).fetchCalls = st.fetchCalls ∧
      (runEvents events st).alerts = st.alerts ∧
      (st.data = none → (runEvents events st).dataDraws = st.dataDraws) := by
  induction events generalizing st with
  | nil => exact ⟨rfl, rfl, rfl, fun _ => rfl⟩
  | cons ev events ih =>
    obtain ⟨h1, h2, h3, h4⟩ := ih (ev.run st)
    obtain ⟨e1, e2, e3, e4⟩ := event_frame ev st
    refine ⟨?_, ?_, ?_, ?_⟩
    · exact h1.trans e1
    · exact h2.trans e2
    · exact h3.trans e3
    · intro hd
      exact (h4 (e1.trans hd)).trans (e4 hd)

/-- C15: when the fetch of the narrative fails (network error, or a response
that is not `ok`), `storyViz.loadData` leaves `data` unset, runs no handler (so
not `showPerson`), shows one alert and has made one `fetch`; and whatever scroll
and pulse events follow, `data` stays unset, no handler draws from it, no
further `fetch` is made and no further alert is shown. -/
theorem story_load_failure (st : Story) (outcome : FetchOutcome)
    (hfail : outcome = .networkError ∨ ∃ json, outcome = .response false json)
    (hdata : st.data = none) (events : List StoryEvent) :
    (st.loadData outcome).data = none ∧
      (st.loadData outcome).handlerRuns = st.handlerRuns ∧
      (st.loadData outcome).alerts = st.alerts ++ [loadFailureMessage] ∧
      (st.loadData outcome).fetchCalls = st.fetchCalls + 1 ∧
      (runEvents events (st.loadData outcome)).data = none ∧
      (runEvents events (st.loadData outcome)).dataDraws = st.dataDraws ∧
      (runEvents events (st.loadData outcome)).fetchCalls = st.fetchCalls + 1 ∧
      (runEvents events (st.loadData outcome)).alerts = st.alerts ++ [loadFailureMessage] := by
  have hload : st.loadData outcome =
      { st with fetchCalls := st.fetchCalls + 1, alerts := st.alerts ++ [loadFailureMessage] } := by
    rcases hfail with rfl | ⟨json, rfl⟩ <;> rfl
  obtain ⟨h1, h2, h3, h4⟩ := runEvents_frame events (st.loadData outcome)
  rw [hload] at h1 h2 h3 h4 ⊢
  exact ⟨hdata, rfl, rfl, rfl, h1.trans hdata, h4 hdata, h2, h3⟩

/-- Witness for `story_load_failure`: a network error at start, then scrolling
to steps 3 and 5. -/
theorem story_load_failure_witness :
    (FetchOutcome.networkError = .networkError ∨
        ∃ json, FetchOutcome.networkError = .response false json) ∧
      (initialStory true).data = none ∧
      (runEvents [.scroll 3, .scroll 5]
        ((initialStory true).loadData .networkError)).dataDraws = [] ∧
      ((initialStory true).loadData .networkError).alerts = [loadFailureMessage] :=
  ⟨Or.inl rfl, rfl,
    (story_load_failure (initialStory true) .networkError (Or.inl rfl) rfl
      [.scroll 3, .scroll 5]).2.2.2.2.2.1,
    by decide⟩

/-! ## Failed load of the explorer page -/

/-- C16 (the code at the failing inputs): after a network error, and after a
non-OK response whose body is not JSON, `init` has shown no alert, has
initialised the six visualizations and has set up the event listeners, the only
trace of the failure being one `console.error`; a non-OK response with a JSON
body is loaded like a good one. -/
theorem init_after_failed_fetch :
    (init .networkError initialPage).alerts = [] ∧
      (init .networkError initialPage).consoleErrors = 1 ∧
      (init .networkError initialPage).visualizations
        = ["timeline", "timelineZoom", "map", "areaChart", "sankey", "barChart"] ∧
      (init .networkError initialPage).eventListeners = true ∧
      (init .networkError initialPage).app.listeners = [0] ∧
      (init .networkError initialPage).app.warData = [] ∧
      (init (.response false none) initialPage).alerts = [] ∧
      (init (.response false none) initialPage).visualizations
        = ["timeline", "timelineZoom", "map", "areaChart", "sankey", "barChart"] ∧
      (init (.response false none) initialPage).eventListeners = true ∧
      (init (.response false (some exampleData)) initialPage).consoleErrors = 0 ∧
      (init (.response false (some exampleData)) initialPage).app.warData = exampleData := by
  decide

/-! ## The pulse loop -/

theorem runHandler_pulse (h : Handler) (hne : h ≠ .emphasizeCivilians) (st : Story) :
    (runHandler h st).pulseIterations = st.pulseIterations ∧
      (st.pulseActive = false → (runHandler h st).pulseActive = false) := by
  have hdraw : ∀ (h : Handler) (s : Story),
      (drawFromData h s).pulseIterations = s.pulseIterations ∧
        (drawFromData h s).pulseActive = s.pulseActive := by
    intro h s
    unfold drawFromData
    split <;> exact ⟨rfl, rfl⟩
  cases h
  case emphasizeCivilians => exact absurd rfl hne
  case showManyCircles => exact ⟨(hdraw _ _).1, fun hp => (hdraw _ _).2.trans hp⟩
  case formTimeline => exact ⟨(hdraw _ _).1, fun hp => (hdraw _ _).2.trans hp⟩
  case zoomToModernEra => exact ⟨(hdraw _ _).1, fun hp => (hdraw _ _).2.trans hp⟩
  case breakApartCircles => exact ⟨(hdraw _ _).1, fun hp => (hdraw _ _).2.trans hp⟩
  case showConclusion => exact ⟨rfl, fun _ => rfl⟩
  all_goals exact ⟨rfl, fun hp => hp⟩

theorem switchStep_pulse (step : Int) (h10 : step ≠ 10) (st : Story)
    (hp : st.pulseActive = false) :
    (switchStep step st).pulseIterations = st.pulseIterations ∧
      (switchStep step st).pulseActive = false := by
  have key : ∀ h : Handler, h ≠ .emphasizeCivilians →
      (runHandler h st).pulseIterations = st.pulseIterations ∧
        (runHandler h st).pulseActive = false :=
    fun h hne => ⟨(runHandler_pulse h hne st).1, (runHandler_pulse h hne st).2 hp⟩
  unfold switchStep
  by_cases h0 : step = 0
  · rw [if_pos h0]; exact key _ (by decide)
  rw [if_neg h0]
  by_cases h1 : step = 1
  · rw [if_pos h1]; exact key _ (by decide)
  rw [if_neg h1]
  by_cases h2 : step = 2
  · rw [if_pos h2]; exact key _ (by decide)
  rw [if_neg h2]
  by_cases h3 : step = 3
  · rw [if_pos h3]; exact key _ (by decide)
  rw [if_neg h3]
  by_cases h4 : step = 4
  · rw [if_pos h4]; exact key _ (by decide)
  rw [if_neg h4]
  by_cases h5 : step = 5
  · rw [if_pos h5]; exact key _ (by decide)
  rw [if_neg h5]
  by_cases h6 : step = 6
  · rw [if_pos h6]; exact key _ (by decide)
  rw [if_neg h6]
  by_cases h7 : step = 7
  · rw [if_pos h7]; exact key _ (by decide)
  rw [if_neg h7]
  by_cases h8 : step = 8
  · rw [if_pos h8]; exact key _ (by decide)
  rw [if_neg h8]
  by_cases h9 : step = 9
  · rw [if_pos h9]; exact key _ (by decide)
  rw [if_neg h9, if_neg h10]
  by_cases h11 : step = 11
  · rw [if_pos h11]; exact key _ (by decide)
  rw [if_neg h11]
  exact ⟨rfl, hp⟩

theorem transitionToStep_pulse (step : Int) (h10 : step ≠ 10) (st : Story)
    (hp : st.pulseActive = false) :
    (transitionToStep step st).pulseIterations = st.pulseIterations ∧
      (transitionToStep step st).pulseActive = false := by
  obtain ⟨_, _, _, _, i5, i6⟩ := indicator_frame step st
  rw [transitionToStep_eq]
  generalize (if st.hasIndicator = true then { st with indicatorText := some step } else st)
    = st0 at i5 i6 ⊢
  by_cases h : step = st0.currentStep ∧ step > 0
  · rw [if_pos h]
    exact ⟨i6, i5.trans hp⟩
  · rw [if_neg h]
    obtain ⟨s1, s2⟩ := switchStep_pulse step h10 { st0 with currentStep := step }
      (i5.trans hp)
    exact ⟨s1.trans i6, s2⟩

theorem event_pulse (ev : StoryEvent) (hne : ev ≠ .scroll 10) (st : Story)
    (hp : st.pulseActive = false) :
    (ev.run st).pulseIterations = st.pulseIterations ∧ (ev.run st).pulseActive = false := by
  cases ev with
  | scroll step =>
    exact transitionToStep_pulse step (fun hc => hne (by rw [hc])) st hp
  | pulseEnd =>
    simp only [StoryEvent.run, pulseCycleEnd, hp]
    exact ⟨rfl, hp⟩

theorem runEvents_pulse (events : List StoryEvent) (hne : ∀ ev ∈ events, ev ≠ .scroll 10)
    (st : Story) (hp : st.pulseActive = false) :
    (runEvents events st).pulseIterations = st.pulseIterations ∧
      (runEvents events st).pulseActive = false := by
  induction events generalizing st with
  | nil => exact ⟨rfl, hp⟩
  | cons ev events ih =>
    obtain ⟨e1, e2⟩ := event_pulse ev (hne ev (List.mem_cons_self _ _)) st hp
    obtain ⟨h1, h2⟩ := ih (fun x hx => hne x (List.mem_cons_of_mem _ hx)) (ev.run st) e2
    exact ⟨h1.trans e1, h2⟩

/-- C17: once `showConclusion` has run the pulse flag is false and no cycle was
started by it; a pulse cycle that completes then starts nothing; and through any
later sequence of scroll requests other than step 10 and of cycle completions the
flag stays false and no pulse iteration begins. (While the flag is true a
completed cycle does start the next one, and step 10 starts one.) -/
theorem pulse_stops_after_conclusion (st : Story) (events : List StoryEvent)
    (hno10 : ∀ ev ∈ events, ev ≠ .scroll 10) :
    (runHandler .showConclusion st).pulseActive = false ∧
      (runHandler .showConclusion st).pulseIterations = st.pulseIterations ∧
      pulseCycleEnd (runHandler .showConclusion st) = runHandler .showConclusion st ∧
      (runEvents events (runHandler .showConclusion st)).pulseIterations
        = st.pulseIterations ∧
      (runEvents events (runHandler .showConclusion st)).pulseActive = false ∧
      (st.pulseActive = true → (pulseCycleEnd st).pulseIterations = st.pulseIterations + 1) ∧
      (runHandler .emphasizeCivilians st).pulseIterations = st.pulseIterations + 1 := by
  have hp : (runHandler .showConclusion st).pulseActive = false := rfl
  obtain ⟨h1, h2⟩ := runEvents_pulse events hno10 (runHandler .showConclusion st) hp
  refine ⟨hp, rfl, ?_, h1, h2, ?_, ?_⟩
  · simp [pulseCycleEnd, hp]
  · intro ha
    simp [pulseCycleEnd, pulse, ha]
  · simp [runHandler, pulse]

/-- Witness for `pulse_stops_after_conclusion`: step 10, then step 11, then a
cycle completing, a scroll back to step 9 and another cycle completing. -/
theorem pulse_stops_after_conclusion_witness :
    (∀ ev ∈ [StoryEvent.pulseEnd, .scroll 9, .pulseEnd], ev ≠ .scroll 10) ∧
      (runEvents [.pulseEnd, .scroll 9, .pulseEnd]
        (runHandler .showConclusion (runSteps [10] (initialStory true)))).pulseIterations
        = (runSteps [10] (initialStory true)).pulseIterations ∧
      (runSteps [10] (initialStory true)).pulseIterations = 1 :=
  ⟨by decide,
    (pulse_stops_after_conclusion (runSteps [10] (initialStory true))
      [.pulseEnd, .scroll 9, .pulseEnd] (by decide)).2.2.2.1,
    by decide⟩

/-! ## The two Sankey builders compared -/

theorem length_flatMap_pair {α β : Type} (l : List α) (f g : α → β) :
    (l.flatMap (fun t => [f t, g t])).length = 2 * l.length := by
  induction l with
  | nil => rfl
  | cons a l ih =>
    rw [List.flatMap_cons, List.length_append, ih, List.length_cons]
    simp only [List.length_cons, List.length_nil]
    omega

/-- C19: `prepareSankeyData` emits for each conflict type, in order, its
military link and then its civilian link, whatever their values (two links per
type); `prepareSankeyDataFromFiltered` on the same records returns the same
nodes and exactly the links of the former whose value is greater than 0, in the
same order. On a record without civilian deaths the first emits a link of value
0 that the second leaves out. -/
theorem sankey_static_vs_filtered (data : List ConflictRecord) :
    (prepareSankeyData data).links =
        (conflictTypes data).flatMap (fun t =>
          [{ source := typeSource (conflictTypes data) t
             target := (conflictTypes data).length
             value := militarySum data t },
           { source := typeSource (conflictTypes data) t
             target := (conflictTypes data).length + 1
             value := civilianSum data t }]) ∧
      (prepareSankeyData data).links.length = 2 * (conflictTypes data).length ∧
      (prepareSankeyDataFromFiltered data).nodes = (prepareSankeyData data).nodes ∧
      (prepareSankeyDataFromFiltered data).links =
        (prepareSankeyData data).links.filter (fun l => decide (l.value > 0)) ∧
      (prepareSankeyData [recNoCivil]).links =
        [{ source := .number 0, target := 1, value := 500 },
         { source := .number 0, target := 2, value := 0 }] ∧
      (prepareSankeyDataFromFiltered [recNoCivil]).links =
        [{ source := .number 0, target := 1, value := 500 }] := by
  refine ⟨?_, ?_, ?_, ?_, by decide, by decide⟩
  · rw [prepareSankeyData_eq]
  · rw [prepareSankeyData_eq]
    exact length_flatMap_pair _ _ _
  · rw [prepareSankeyData_eq, prepareSankeyDataFromFiltered_eq]
  · rw [prepareSankeyData_eq, prepareSankeyDataFromFiltered_eq]
    simp only [List.filter_flatMap]
    apply List.flatMap_congr
    intro t _
    by_cases h1 : militarySum data t > 0 <;> by_cases h2 : civilianSum data t > 0 <;>
      simp [List.filter_cons, h1, h2]

/-! ## Particles of step 6 -/

theorem allSmallCircles_eq (data : List ConflictRecord) :
    allSmallCircles data =
      (data.filter (fun d => decide (midYear d ≥ 1800) && decide (midYear d ≤ 1970))).flatMap
        particlesFor := by
  unfold allSmallCircles
  simp only [foldl_append_flatMap, List.nil_append]

theorem numCircles_bounds (d : ConflictRecord) : 10 ≤ numCircles d ∧ numCircles d ≤ 150 := by
  unfold numCircles
  omega

theorem length_particlesFor (d : ConflictRecord) :
    ((particlesFor d).length : Int) = numCircles d := by
  have := numCircles_bounds d
  unfold particlesFor
  rw [List.length_map, List.length_range]
  omega

/-- The particles of `allSmallCircles` that belong to a conflict `d` of a
duplicate-free dataset: the block built for `d` when its mid-year is in the
window, none otherwise. -/
theorem particles_of_conflict (data : List ConflictRecord) (hnd : data.Nodup)
    (d : ConflictRecord) (hd : d ∈ data) :
    (allSmallCircles data).filter (fun p => p.originalData == d) =
      if 1800 ≤ midYear d ∧ midYear d ≤ 1970 then particlesFor d else [] := by
  rw [allSmallCircles_eq]
  have hown : ∀ b : ConflictRecord, ∀ x ∈ particlesFor b, x.originalData = b := by
    intro b x hx
    unfold particlesFor at hx
    obtain ⟨i, _, rfl⟩ := List.mem_map.mp hx
    rfl
  by_cases hw : 1800 ≤ midYear d ∧ midYear d ≤ 1970
  · rw [if_pos hw]
    apply filter_flatMap_of_unique _ (hnd.filter _) d
    · rw [List.mem_filter]
      exact ⟨hd, by simpa using hw⟩
    · intro x hx
      simpa using hown d x hx
    · intro b _ hne x hx
      have := hown b x hx
      simpa [this] using hne
  · rw [if_neg hw]
    apply filter_flatMap_of_not_mem _ d
    · rw [List.mem_filter]
      rintro ⟨_, hc⟩
      exact hw (by simpa using hc)
    · intro b _ hne x hx
      have := hown b x hx
      simpa [this] using hne

/-- C20 (as stated, refuted): the conflict of 1500-1510 has 3,000,000 deaths, so
the formula gives 15, but step 6 creates no particle for it: its mid-year is
outside 1800..1970. -/
theorem particle_count_counterexample :
    0 ≤ recOld.total_deaths ∧ numCircles recOld = 15 ∧
      ((allSmallCircles [recOld]).filter (fun p => p.originalData == recOld)).length = 0 := by
  refine ⟨by decide, by decide, ?_⟩
  rw [particles_of_conflict [recOld] (by decide) recOld (by decide)]
  have : ¬ (1800 ≤ midYear recOld ∧ midYear recOld ≤ 1970) := by
    unfold midYear recOld
    norm_num
  rw [if_neg this]
  rfl

/-- C20 (amended): for every conflict of a duplicate-free dataset with a
non-negative `total_deaths` whose mid-year `(start_year + end_year) / 2` lies
in 1800..1970, the number of particles created for it in step 6 is
`total_deaths / 200000` (integer part) clamped to 10..150, hence between 10 and
150; the clamped value is non-decreasing in `total_deaths`. For a conflict
whose mid-year is outside the window no particle is created. -/
theorem particle_count (data : List ConflictRecord) (hnd : data.Nodup)
    (d : ConflictRecord) (hd : d ∈ data) (_hnn : 0 ≤ d.total_deaths) :
    ((1800 ≤ midYear d ∧ midYear d ≤ 1970) →
        ((((allSmallCircles data).filter (fun p => p.originalData == d)).length : Int)
            = max 10 (min 150 (d.total_deaths / 200000)) ∧
          10 ≤ ((allSmallCircles data).filter (fun p => p.originalData == d)).length ∧
          ((allSmallCircles data).filter (fun p => p.originalData == d)).length ≤ 150)) ∧
      (¬ (1800 ≤ midYear d ∧ midYear d ≤ 1970) →
        ((allSmallCircles data).filter (fun p => p.originalData == d)).length = 0) ∧
      (∀ d' : ConflictRecord, d.total_deaths ≤ d'.total_deaths →
        numCircles d ≤ numCircles d') := by
  have hcount := particles_of_conflict data hnd d hd
  refine ⟨?_, ?_, ?_⟩
  · intro hw
    rw [hcount, if_pos hw]
    have hlen := length_particlesFor d
    have hb := numCircles_bounds d
    refine ⟨hlen, ?_, ?_⟩ <;> omega
  · intro hw
    rw [hcount, if_neg hw]
    rfl
  · intro d' hle
    unfold numCircles
    have : d.total_deaths / 200000 ≤ d'.total_deaths / 200000 :=
      Int.ediv_le_ediv (by decide) hle
    omega

/-- Witness for `particle_count`: record B (mid-year 1942, 5000 deaths) of the
two-record example gets 10 particles. -/
theorem particle_count_witness :
    exampleData.Nodup ∧ recB ∈ exampleData ∧ 0 ≤ recB.total_deaths ∧
      (1800 ≤ midYear recB ∧ midYear recB ≤ 1970) ∧
      (((allSmallCircles exampleData).filter (fun p => p.originalData == recB)).length : Int)
        = max 10 (min 150 (recB.total_deaths / 200000)) :=
  have hw : 1800 ≤ midYear recB ∧ midYear recB ≤ 1970 := by
    unfold midYear recB
    norm_num
  ⟨by decide, by decide, by decide, hw,
    ((particle_count exampleData (by decide) recB (by decide) (by decide)).1 hw).1⟩

/-! ## applyFilters as one filter -/

theorem passesFilters_iff (st : FilterState) (r : ConflictRecord) :
    passesFilters st r = true ↔
      (st.selectedType ≠ "all" → r.conflict_type = st.selectedType) ∧
      (st.selectedRegion ≠ "all" → r.geographic_region = st.selectedRegion) ∧
      (r.start_year ≤ st.timeRange.2 ∧ r.end_year ≥ st.timeRange.1) ∧
      (truthy st.selectedConflict = true → some r.conflict_name = st.selectedConflict) := by
  unfold passesFilters
  by_cases h1 : st.selectedType = "all" <;> by_cases h2 : st.selectedRegion = "all" <;>
    by_cases h3 : truthy st.selectedConflict = true <;>
    simp [h1, h2, h3] <;> tauto

theorem applyFilters_eq_filter (warData : List ConflictRecord) (st : FilterState) :
    applyFilters warData st = warData.filter (passesFilters st) := by
  have p1 : st.selectedType ≠ "all" ↔ (st.selectedType == "all") = false := by simp
  have p2 : st.selectedRegion ≠ "all" ↔ (st.selectedRegion == "all") = false := by simp
  unfold applyFilters
  simp only [p1, p2]
  cases hb1 : (st.selectedType == "all") <;> cases hb2 : (st.selectedRegion == "all") <;>
    cases hb3 : truthy st.selectedConflict <;>
    simp only [if_true, if_false, List.filter_filter, Bool.false_eq_true, Bool.true_eq_false] <;>
    apply List.filter_congr <;>
    intro r _ <;>
    simp [passesFilters, hb1, hb2, hb3, Bool.and_comm, Bool.and_assoc, Bool.and_left_comm]

/-- C25: `applyFilters` returns the dataset filtered, in one pass, by the
conjunction of the active predicates: the result is a sublist of the dataset
(dataset order, no record repeated), and a record of the dataset is in it if
and only if it satisfies every active predicate. -/
theorem applyFilters_complete (warData : List ConflictRecord) (st : FilterState) :
    applyFilters warData st = warData.filter (passesFilters st) ∧
      (applyFilters warData st).Sublist warData ∧
      (∀ r, r ∈ applyFilters warData st ↔
        r ∈ warData ∧
        (st.selectedType ≠ "all" → r.conflict_type = st.selectedType) ∧
        (st.selectedRegion ≠ "all" → r.geographic_region = st.selectedRegion) ∧
        (r.start_year ≤ st.timeRange.2 ∧ r.end_year ≥ st.timeRange.1) ∧
        (truthy st.selectedConflict = true → some r.conflict_name = st.selectedConflict)) ∧
      (∀ r, (applyFilters warData st).count r = if passesFilters st r then warData.count r
        else 0) := by
  have heq := applyFilters_eq_filter warData st
  refine ⟨heq, ?_, ?_, ?_⟩
  · rw [heq]
    exact List.filter_sublist _
  · intro r
    rw [heq, List.mem_filter, passesFilters_iff]
  · intro r
    rw [heq]
    by_cases hp : passesFilters st r = true
    · rw [if_pos hp, List.count_filter hp]
    · rw [if_neg hp]
      exact List.count_eq_zero_of_not_mem (fun hm => hp (List.mem_filter.mp hm).2)

/-! ## The cached filtered data -/

/-- C26: after each of the five operations `getFilteredData` returns
`applyFilters` of the current filter state and dataset, and every listener call
made during the operation carried that list (and the current filter state);
there is one such call per listener. -/
theorem filteredData_cache (op : FilterOp) (app : App) :
    getFilteredData (op.run app)
        = applyFilters (op.run app).warData (op.run app).filterState ∧
      ((op.run app).calls.take app.calls.length = app.calls) ∧
      ((op.run app).calls.drop app.calls.length).length = app.listeners.length ∧
      (∀ call ∈ (op.run app).calls.drop app.calls.length,
        call.data = getFilteredData (op.run app) ∧
          call.state = (op.run app).filterState) := by
  have key : ∀ a : App,
      getFilteredData (notifyListeners a) = applyFilters a.warData a.filterState ∧
        (notifyListeners a).warData = a.warData ∧
        (notifyListeners a).filterState = a.filterState ∧
        (notifyListeners a).calls = a.calls ++
          a.listeners.map (fun cb => ⟨cb, applyFilters a.warData a.filterState, a.filterState⟩) :=
    fun a => ⟨rfl, rfl, rfl, rfl⟩
  have main : ∀ a : App, a.calls = app.calls → a.listeners = app.listeners →
      getFilteredData (notifyListeners a)
          = applyFilters (notifyListeners a).warData (notifyListeners a).filterState ∧
        ((notifyListeners a).calls.take app.calls.length = app.calls) ∧
        ((notifyListeners a).calls.drop app.calls.length).length = app.listeners.length ∧
        (∀ call ∈ (notifyListeners a).calls.drop app.calls.length,
          call.data = getFilteredData (notifyListeners a) ∧
            call.state = (notifyListeners a).filterState) := by
    intro a hc hl
    obtain ⟨k1, k2, k3, k4⟩ := key a
    rw [k1, k2, k3, k4, hc, hl]
    refine ⟨rfl, by simp, by simp, ?_⟩
    intro call hcall
    simp only [List.drop_left, List.mem_map] at hcall
    obtain ⟨cb, _, rfl⟩ := hcall
    exact ⟨rfl, rfl⟩
  cases op with
  | setConflictTypeFilter type => exact main _ rfl rfl
  | setRegionFilter region => exact main _ rfl rfl
  | setTimeRangeFilter start stop => exact main _ rfl rfl
  | setConflictFilter name => exact main _ rfl rfl
  | resetFilters => exact main _ rfl rfl

/-! ## The filtered data after a reset -/

/-- C30: in the initial filter state, and after `resetFilters`, `applyFilters`
returns exactly the records with `start_year ≤ 2025` and `end_year ≥ 700`, in
dataset order; a successful load shows the whole dataset; and the filtered data
after a reset is the whole dataset if and only if every record overlaps the
window 700..2025. -/
theorem filteredData_after_reset (app : App) :
    applyFilters app.warData initialFilterState =
        app.warData.filter (fun r => decide (r.start_year ≤ 2025) && decide (r.end_year ≥ 700)) ∧
      (resetFilters app).filteredData =
        app.warData.filter (fun r => decide (r.start_year ≤ 2025) && decide (r.end_year ≥ 700)) ∧
      (∀ (ok : Bool) (json : List ConflictRecord) (p : Page),
        (loadData (.response ok (some json)) p).app.filteredData
          = (loadData (.response ok (some json)) p).app.warData) ∧
      ((resetFilters app).filteredData = app.warData ↔
        ∀ r ∈ app.warData, r.start_year ≤ 2025 ∧ r.end_year ≥ 700) := by
  have h1 : applyFilters app.warData initialFilterState =
      app.warData.filter (fun r =>
        decide (r.start_year ≤ 2025) && decide (r.end_year ≥ 700)) := by
    simp [applyFilters, initialFilterState, truthy]
  refine ⟨h1, h1, fun _ _ _ => rfl, ?_⟩
  have h2 : (resetFilters app).filteredData = applyFilters app.warData initialFilterState := rfl
  rw [h2, h1, List.filter_eq_self]
  simp

/-! ## The pulse flag and the pulse loop along a trace -/

theorem runHandler_pulseActive (h : Handler) (st : Story) :
    (runHandler h st).pulseActive =
      match h with
      | .emphasizeCivilians => true
      | .showConclusion => false
      | _ => st.pulseActive := by
  have hdraw : ∀ (h : Handler) (s : Story), (drawFromData h s).pulseActive = s.pulseActive := by
    intro h s
    unfold drawFromData
    split <;> rfl
  cases h
  case showManyCircles => exact hdraw _ _
  case formTimeline => exact hdraw _ _
  case zoomToModernEra => exact hdraw _ _
  case breakApartCircles => exact hdraw _ _
  case emphasizeCivilians => simp [runHandler, pulse]
  all_goals rfl

theorem pulseExpected_snoc (runs : List Handler) (h : Handler) :
    pulseExpected (runs ++ [h]) =
      match h with
      | .emphasizeCivilians => true
      | .showConclusion => false
      | _ => pulseExpected runs := by
  simp [pulseExpected, List.foldl_append]

theorem transitionToStep_pulse_inv (step : Int) (st : Story)
    (hinv : st.pulseActive = pulseExpected st.handlerRuns) :
    (transitionToStep step st).pulseActive
      = pulseExpected (transitionToStep step st).handlerRuns := by
  have hind : ∀ s : Story,
      s = (if st.hasIndicator then { st with indicatorText := some step } else st) →
      s.pulseActive = st.pulseActive ∧ s.handlerRuns = st.handlerRuns := by
    intro s hs
    subst hs
    split <;> exact ⟨rfl, rfl⟩
  obtain ⟨st0, hst0, h | ⟨h, hh⟩ | h⟩ := transitionToStep_cases step st
  · obtain ⟨i1, i2⟩ := hind st0 hst0
    rw [h.1, i1, i2]
    exact hinv
  · obtain ⟨i1, i2⟩ := hind st0 hst0
    rw [hh, runHandler_pulseActive, runHandler_handlerRuns]
    show _ = pulseExpected (st0.handlerRuns ++ [h])
    rw [pulseExpected_snoc, i2]
    cases h <;> first | rfl | exact i1.trans hinv
  · obtain ⟨i1, i2⟩ := hind st0 hst0
    rw [h]
    show st0.pulseActive = pulseExpected st0.handlerRuns
    rw [i1, i2]
    exact hinv

theorem runSteps_pulse_inv (steps : List Int) (st : Story)
    (hinv : st.pulseActive = pulseExpected st.handlerRuns) :
    (runSteps steps st).pulseActive = pulseExpected (runSteps steps st).handlerRuns := by
  induction steps generalizing st with
  | nil => exact hinv
  | cons s steps ih => exact ih (transitionToStep s st) (transitionToStep_pulse_inv s st hinv)

/-- The `switch` of `transitionToStep` runs the handler that `handlerOfStep`
names, and nothing for a step without a handler. -/
theorem switchStep_handlerOfStep (step : Int) (st : Story) :
    switchStep step st =
      match handlerOfStep step with
      | some h => runHandler h st
      | none => st := by
  unfold switchStep handlerOfStep
  by_cases h0 : step = 0
  · rw [if_pos h0, if_pos h0]
  rw [if_neg h0, if_neg h0]
  by_cases h1 : step = 1
  · rw [if_pos h1, if_pos h1]
  rw [if_neg h1, if_neg h1]
  by_cases h2 : step = 2
  · rw [if_pos h2, if_pos h2]
  rw [if_neg h2, if_neg h2]
  by_cases h3 : step = 3
  · rw [if_pos h3, if_pos h3]
  rw [if_neg h3, if_neg h3]
  by_cases h4 : step = 4
  · rw [if_pos h4, if_pos h4]
  rw [if_neg h4, if_neg h4]
  by_cases h5 : step = 5
  · rw [if_pos h5, if_pos h5]
  rw [if_neg h5, if_neg h5]
  by_cases h6 : step = 6
  · rw [if_pos h6, if_pos h6]
  rw [if_neg h6, if_neg h6]
  by_cases h7 : step = 7
  · rw [if_pos h7, if_pos h7]
  rw [if_neg h7, if_neg h7]
  by_cases h8 : step = 8
  · rw [if_pos h8, if_pos h8]
  rw [if_neg h8, if_neg h8]
  by_cases h9 : step = 9
  · rw [if_pos h9, if_pos h9]
  rw [if_neg h9, if_neg h9]
  by_cases h10 : step = 10
  · rw [if_pos h10, if_pos h10]
  rw [if_neg h10, if_neg h10]
  by_cases h11 : step = 11
  · rw [if_pos h11, if_pos h11]
  rw [if_neg h11, if_neg h11]

theorem handlerOfStep_emphasize (step : Int)
    (h : handlerOfStep step = some .emphasizeCivilians) : step = 10 := by
  unfold handlerOfStep at h
  by_contra hstep
  by_cases h0 : step = 0
  · rw [if_pos h0] at h
    exact absurd h (by decide)
  rw [if_neg h0] at h
  by_cases h1 : step = 1
  · rw [if_pos h1] at h
    exact absurd h (by decide)
  rw [if_neg h1] at h
  by_cases h2 : step = 2
  · rw [if_pos h2] at h
    exact absurd h (by decide)
  rw [if_neg h2] at h
  by_cases h3 : step = 3
  · rw [if_pos h3] at h
    exact absurd h (by decide)
  rw [if_neg h3] at h
  by_cases h4 : step = 4
  · rw [if_pos h4] at h
    exact absurd h (by decide)
  rw [if_neg h4] at h
  by_cases h5 : step = 5
  · rw [if_pos h5] at h
    exact absurd h (by decide)
  rw [if_neg h5] at h
  by_cases h6 : step = 6
  · rw [if_pos h6] at h
    exact absurd h (by decide)
  rw [if_neg h6] at h
  by_cases h7 : step = 7
  · rw [if_pos h7] at h
    exact absurd h (by decide)
  rw [if_neg h7] at h
  by_cases h8 : step = 8
  · rw [if_pos h8] at h
    exact absurd h (by decide)
  rw [if_neg h8] at h
  by_cases h9 : step = 9
  · rw [if_pos h9] at h
    exact absurd h (by decide)
  rw [if_neg h9] at h
  rw [if_neg hstep] at h
  by_cases h11 : step = 11
  · rw [if_pos h11] at h
    exact absurd h (by decide)
  rw [if_neg h11] at h
  exact absurd h (by decide)

theorem handlerOfStep_conclusion (step : Int)
    (h : handlerOfStep step = some .showConclusion) : step = 11 := by
  unfold handlerOfStep at h
  by_contra hstep
  by_cases h0 : step = 0
  · rw [if_pos h0] at h
    exact absurd h (by decide)
  rw [if_neg h0] at h
  by_cases h1 : step = 1
  · rw [if_pos h1] at h
    exact absurd h (by decide)
  rw [if_neg h1] at h
  by_cases h2 : step = 2
  · rw [if_pos h2] at h
    exact absurd h (by decide)
  rw [if_neg h2] at h
  by_cases h3 : step = 3
  · rw [if_pos h3] at h
    exact absurd h (by decide)
  rw [if_neg h3] at h
  by_cases h4 : step = 4
  · rw [if_pos h4] at h
    exact absurd h (by decide)
  rw [if_neg h4] at h
  by_cases h5 : step = 5
  · rw [if_pos h5] at h
    exact absurd h (by decide)
  rw [if_neg h5] at h
  by_cases h6 : step = 6
  · rw [if_pos h6] at h
    exact absurd h (by decide)
  rw [if_neg h6] at h
  by_cases h7 : step = 7
  · rw [if_pos h7] at h
    exact absurd h (by decide)
  rw [if_neg h7] at h
  by_cases h8 : step = 8
  · rw [if_pos h8] at h
    exact absurd h (by decide)
  rw [if_neg h8] at h
  by_cases h9 : step = 9
  · rw [if_pos h9] at h
    exact absurd h (by decide)
  rw [if_neg h9] at h
  by_cases h10 : step = 10
  · rw [if_pos h10] at h
    exact absurd h (by decide)
  rw [if_neg h10] at h
  rw [if_neg hstep] at h
  exact absurd h (by decide)

/-- A step other than 10 and 11 leaves the pulse flag as it is, and a step
other than 10 starts no pulse cycle. -/
theorem transitionToStep_flag (step : Int) (st : Story) :
    (step ≠ 10 → (transitionToStep step st).pulseIterations = st.pulseIterations) ∧
      (step ≠ 10 → step ≠ 11 → (transitionToStep step st).pulseActive = st.pulseActive) := by
  obtain ⟨_, _, _, _, i5, i6⟩ := indicator_frame step st
  rw [transitionToStep_eq]
  generalize (if st.hasIndicator = true then { st with indicatorText := some step } else st)
    = st0 at i5 i6 ⊢
  by_cases h : step = st0.currentStep ∧ step > 0
  · rw [if_pos h]
    exact ⟨fun _ => i6, fun _ _ => i5⟩
  · rw [if_neg h, switchStep_handlerOfStep]
    cases hh : handlerOfStep step with
    | none => exact ⟨fun _ => i6, fun _ _ => i5⟩
    | some hd =>
      simp only []
      constructor
      · intro h10
        have hne : hd ≠ .emphasizeCivilians := by
          rintro rfl
          exact h10 (handlerOfStep_emphasize step hh)
        exact ((runHandler_pulse hd hne _).1).trans i6
      · intro h10 h11
        rw [runHandler_pulseActive]
        have hne : hd ≠ .emphasizeCivilians := by
          rintro rfl
          exact h10 (handlerOfStep_emphasize step hh)
        have hne' : hd ≠ .showConclusion := by
          rintro rfl
          exact h11 (handlerOfStep_conclusion step hh)
        cases hd <;> first | exact i5 | exact absurd rfl hne | exact absurd rfl hne'

theorem schedule_story (h : Handler) (g : Stage) : (Stage.schedule h g).story = g.story := by
  cases h <;> try rfl
  case showManyCircles =>
    unfold Stage.schedule
    simp only []
    split <;> rfl

/-- The narrative state on the stage is the one of `transitionToStep`. -/
theorem stage_transition_story (step : Int) (g : Stage) :
    (Stage.transitionToStep step g).story = transitionToStep step g.story := by
  unfold Stage.transitionToStep
  simp only []
  split
  · rfl
  · split
    · rw [schedule_story]
    · rfl

theorem stage_runSteps_story (steps : List Int) (g : Stage) :
    (Stage.runSteps steps g).story = runSteps steps g.story := by
  induction steps generalizing g with
  | nil => rfl
  | cons s steps ih =>
    show (Stage.runSteps steps (Stage.transitionToStep s g)).story = _
    rw [ih, stage_transition_story]
    rfl

/-- A handler other than `emphasizeCivilians` schedules no pulse cycle where
none is scheduled. -/
theorem schedule_idle (h : Handler) (hne : h ≠ .emphasizeCivilians) (g : Stage)
    (h1 : g.cycleOnPage = false) (h2 : g.cycleDetached = false) :
    (Stage.schedule h g).cycleOnPage = false ∧ (Stage.schedule h g).cycleDetached = false := by
  cases h
  case emphasizeCivilians => exact absurd rfl hne
  case showPerson => exact ⟨rfl, by simp [Stage.schedule, h1, h2]⟩
  case showManyCircles =>
    unfold Stage.schedule
    simp only []
    split
    · exact ⟨h1, h2⟩
    · exact ⟨rfl, by simp [h1, h2]⟩
  case completeDrift => exact ⟨rfl, h2⟩
  case showConclusion => exact ⟨rfl, h2⟩
  all_goals exact ⟨h1, h2⟩

/-- While no pulse cycle is scheduled, an event other than a request for step
10 schedules none and starts none. -/
theorem stage_event_idle (ev : StageEvent) (hne : ev ≠ .scroll 10) (g : Stage)
    (h1 : g.cycleOnPage = false) (h2 : g.cycleDetached = false) :
    (ev.run g).cycleOnPage = false ∧ (ev.run g).cycleDetached = false ∧
      (ev.run g).story.pulseIterations = g.story.pulseIterations := by
  cases ev with
  | scroll step =>
    have h10 : step ≠ 10 := fun hc => hne (by rw [hc])
    have hit : (Stage.transitionToStep step g).story.pulseIterations
        = g.story.pulseIterations := by
      rw [stage_transition_story]
      exact (transitionToStep_flag step g.story).1 h10
    refine ⟨?_, ?_, hit⟩
    · show (Stage.transitionToStep step g).cycleOnPage = false
      unfold Stage.transitionToStep
      simp only []
      split
      · exact h1
      · split
        · rename_i hd hh
          have hne' : hd ≠ .emphasizeCivilians := by
            rintro rfl
            exact h10 (handlerOfStep_emphasize step hh)
          exact (schedule_idle hd hne'
            { g with story := transitionToStep step g.story } h1 h2).1
        · exact h1
    · show (Stage.transitionToStep step g).cycleDetached = false
      unfold Stage.transitionToStep
      simp only []
      split
      · exact h2
      · split
        · rename_i hd hh
          have hne' : hd ≠ .emphasizeCivilians := by
            rintro rfl
            exact h10 (handlerOfStep_emphasize step hh)
          exact (schedule_idle hd hne'
            { g with story := transitionToStep step g.story } h1 h2).2
        · exact h2
  | pageCycleEnd =>
    have hrun : StageEvent.pageCycleEnd.run g = g := by
      show Stage.pageCycleEnd g = g
      simp [Stage.pageCycleEnd, h1]
    rw [hrun]
    exact ⟨h1, h2, rfl⟩
  | detachedCycleEnd =>
    have hrun : StageEvent.detachedCycleEnd.run g = g := by
      show Stage.detachedCycleEnd g = g
      simp [Stage.detachedCycleEnd, h2]
    rw [hrun]
    exact ⟨h1, h2, rfl⟩

theorem stage_runEvents_idle (events : List StageEvent)
    (hne : ∀ ev ∈ events, ev ≠ .scroll 10) (g : Stage)
    (h1 : g.cycleOnPage = false) (h2 : g.cycleDetached = false) :
    (Stage.runEvents events g).cycleOnPage = false ∧
      (Stage.runEvents events g).cycleDetached = false ∧
      (Stage.runEvents events g).story.pulseIterations = g.story.pulseIterations := by
  induction events generalizing g with
  | nil => exact ⟨h1, h2, rfl⟩
  | cons ev events ih =>
    obtain ⟨e1, e2, e3⟩ := stage_event_idle ev (hne ev (List.mem_cons_self _ _)) g h1 h2
    obtain ⟨i1, i2, i3⟩ := ih (fun x hx => hne x (List.mem_cons_of_mem _ hx)) (ev.run g) e1 e2
    exact ⟨i1, i2, i3.trans e3⟩

/-- Leaving for step 9 from another step: `completeDrift` keeps the pulse flag
and pre-empts the pulse cycle of the circles of the page. -/
theorem stage_step9 (g : Stage) (hcur : g.story.currentStep ≠ 9) :
    (Stage.transitionToStep 9 g).story.pulseActive = g.story.pulseActive ∧
      (Stage.transitionToStep 9 g).cycleOnPage = false ∧
      (Stage.transitionToStep 9 g).cycleDetached = g.cycleDetached := by
  refine ⟨?_, ?_, ?_⟩
  · rw [stage_transition_story]
    exact (transitionToStep_flag 9 g.story).2 (by decide) (by decide)
  · unfold Stage.transitionToStep
    simp only []
    rw [if_neg (fun h => hcur h.1.symm)]
    rfl
  · unfold Stage.transitionToStep
    simp only []
    rw [if_neg (fun h => hcur h.1.symm)]
    rfl

/-- C29 (as stated, refuted): going from step 10 back to step 9 does not leave
the pulse loop active. With the example loaded and the narrative scrolled to step 10 the
loop runs: the flag is true, a cycle is scheduled and each cycle end starts the
next one (three cycles after two cycle ends). After the request for step 9 the
flag `pulseActive` is still true, but no pulse cycle is scheduled any more, a
cycle end changes nothing, and the count of cycles stays at three through
further cycle ends and requests for steps 8 and 9. -/
theorem pulse_loop_counterexample :
    pulsingStage.story.currentStep = 10 ∧
      pulsingStage.story.pulseActive = true ∧
      pulsingStage.cycleOnPage = true ∧
      pulsingStage.story.pulseIterations = 3 ∧
      (Stage.pageCycleEnd pulsingStage).story.pulseIterations = 4 ∧
      (Stage.transitionToStep 9 pulsingStage).story.currentStep = 9 ∧
      (Stage.transitionToStep 9 pulsingStage).story.pulseActive = true ∧
      (Stage.transitionToStep 9 pulsingStage).cycleOnPage = false ∧
      (Stage.transitionToStep 9 pulsingStage).cycleDetached = false ∧
      (Stage.pageCycleEnd (Stage.transitionToStep 9 pulsingStage)).story.pulseIterations = 3 ∧
      (Stage.detachedCycleEnd
        (Stage.transitionToStep 9 pulsingStage)).story.pulseIterations = 3 ∧
      (Stage.runEvents [.pageCycleEnd, .scroll 8, .detachedCycleEnd, .scroll 9, .pageCycleEnd]
        (Stage.transitionToStep 9 pulsingStage)).story.pulseIterations = 3 := by
  decide

/-- C29: a handler turns the pulse flag on only if it is `emphasizeCivilians`
(step 10) and off only if it is `showConclusion` (step 11); after every sequence
of `transitionToStep` calls from the initial state `pulseActive` is true exactly
when the trace of executed handlers has a step-10 execution with no step-11
execution after it. Going to step 9 from another step, step 10 included, keeps
the flag but not the loop: `completeDrift` pre-empts the pulse cycle scheduled
on the circles of the page, and once no pulse cycle is scheduled none is started
by any sequence of cycle ends and of requests for steps other than 10. -/
theorem pulseActive_trace (steps : List Int) (hasIndicator : Bool) :
    (∀ (h : Handler) (st : Story), st.pulseActive = false →
        (runHandler h st).pulseActive = true → h = .emphasizeCivilians) ∧
      (∀ (h : Handler) (st : Story), st.pulseActive = true →
        (runHandler h st).pulseActive = false → h = .showConclusion) ∧
      (runSteps steps (initialStory hasIndicator)).pulseActive
        = pulseExpected (runSteps steps (initialStory hasIndicator)).handlerRuns ∧
      (Stage.runSteps steps (initialStage hasIndicator)).story
        = runSteps steps (initialStory hasIndicator) ∧
      (∀ g : Stage, g.story.currentStep ≠ 9 →
        (Stage.transitionToStep 9 g).story.pulseActive = g.story.pulseActive ∧
          (Stage.transitionToStep 9 g).cycleOnPage = false ∧
          (Stage.transitionToStep 9 g).cycleDetached = g.cycleDetached) ∧
      (∀ (g : Stage) (events : List StageEvent),
        g.cycleOnPage = false → g.cycleDetached = false →
        (∀ ev ∈ events, ev ≠ .scroll 10) →
        (Stage.runEvents events g).cycleOnPage = false ∧
          (Stage.runEvents events g).cycleDetached = false ∧
          (Stage.runEvents events g).story.pulseIterations = g.story.pulseIterations) ∧
      (runSteps [10, 9] (initialStory hasIndicator)).pulseActive = true ∧
      (runSteps [10, 9] (initialStory hasIndicator)).currentStep = 9 ∧
      (Stage.runSteps [10, 9] (initialStage hasIndicator)).cycleOnPage = false ∧
      (Stage.runSteps [10, 9] (initialStage hasIndicator)).cycleDetached = false := by
  refine ⟨?_, ?_, runSteps_pulse_inv steps _ rfl, stage_runSteps_story steps _,
    stage_step9, fun g events h1 h2 hne => stage_runEvents_idle events hne g h1 h2,
    ?_, ?_, ?_, ?_⟩
  · intro h st hf ht
    rw [runHandler_pulseActive] at ht
    cases h <;> simp_all
  · intro h st ht hf
    rw [runHandler_pulseActive] at hf
    cases h <;> simp_all
  · cases hasIndicator <;> decide
  · cases hasIndicator <;> decide
  · cases hasIndicator <;> decide
  · cases hasIndicator <;> decide

/-! ## Derived percentages -/

/-- C24: for a record with `total_deaths > 0`, non-negative `military_deaths`
and `civilian_deaths` and `military_deaths + civilian_deaths = total_deaths`,
both derived fields are finite quotients by the non-zero `total_deaths`, each
lies between 0 and 1, and they add up to 1. -/
theorem derivedPercentages_spec (d : ConflictRecord) (htotal : 0 < d.total_deaths)
    (hmil : 0 ≤ d.military_deaths) (hciv : 0 ≤ d.civilian_deaths)
    (hsum : d.military_deaths + d.civilian_deaths = d.total_deaths) :
    d.total_deaths ≠ 0 ∧
      ∃ military_pct civilian_pct : ℚ,
        derivedPercentages d = (.finite military_pct, .finite civilian_pct) ∧
        military_pct = (d.military_deaths : ℚ) / (d.total_deaths : ℚ) ∧
        civilian_pct = (d.civilian_deaths : ℚ) / (d.total_deaths : ℚ) ∧
        0 ≤ military_pct ∧ military_pct ≤ 1 ∧ 0 ≤ civilian_pct ∧ civilian_pct ≤ 1 ∧
        military_pct + civilian_pct = 1 := by
  have hne : d.total_deaths ≠ 0 := by omega
  have hpos : (0 : ℚ) < (d.total_deaths : ℚ) := by exact_mod_cast htotal
  have hm : (0 : ℚ) ≤ (d.military_deaths : ℚ) := by exact_mod_cast hmil
  have hc : (0 : ℚ) ≤ (d.civilian_deaths : ℚ) := by exact_mod_cast hciv
  have hs : (d.military_deaths : ℚ) + (d.civilian_deaths : ℚ) = (d.total_deaths : ℚ) := by
    exact_mod_cast hsum
  refine ⟨hne, _, _, ?_, rfl, rfl, ?_, ?_, ?_, ?_, ?_⟩
  · simp [derivedPercentages, jsDiv, hne]
  · exact div_nonneg hm hpos.le
  · rw [div_le_one hpos]; linarith
  · exact div_nonneg hc hpos.le
  · rw [div_le_one hpos]; linarith
  · rw [← add_div, hs, div_self hpos.ne']

/-- Witness for `derivedPercentages_spec`: record A (600 of 1000 military). -/
theorem derivedPercentages_spec_witness :
    0 < recA.total_deaths ∧ 0 ≤ recA.military_deaths ∧ 0 ≤ recA.civilian_deaths ∧
      recA.military_deaths + recA.civilian_deaths = recA.total_deaths ∧
      (recA.total_deaths ≠ 0 ∧
        ∃ military_pct civilian_pct : ℚ,
          derivedPercentages recA = (.finite military_pct, .finite civilian_pct) ∧
          military_pct = (recA.military_deaths : ℚ) / (recA.total_deaths : ℚ) ∧
          civilian_pct = (recA.civilian_deaths : ℚ) / (recA.total_deaths : ℚ) ∧
          0 ≤ military_pct ∧ military_pct ≤ 1 ∧ 0 ≤ civilian_pct ∧ civilian_pct ≤ 1 ∧
          military_pct + civilian_pct = 1) :=
  ⟨by decide, by decide, by decide, by decide,
    derivedPercentages_spec recA (by decide) (by decide) (by decide) (by decide)⟩

/-! ## Step 5: zoom to 1800-1970 -/

/-- C22: `zoomToModernEra` keeps one circle per record, in order. For a record
with mid-year `m`: when `m < 1800` or `m > 1970` the circle gets target radius 0,
target opacity 0 and x position -100; otherwise it gets target opacity 0.7 and
the x position of the linear scale from the domain 1800..1970 to the range
100..width-100, that is `100 + (m - 1800) / 170 * (width - 200)`. -/
theorem zoomToModernEra_spec (width height : ℚ) (data : List ConflictRecord)
    (d : ConflictRecord) :
    (zoomToModernEra width height data).map Prod.fst = data ∧
      (∀ c ∈ zoomToModernEra width height data, c.2 = zoomTarget width height data c.1) ∧
      ((midYear d < 1800 ∨ midYear d > 1970) →
        (zoomTarget width height data d).r = .zero ∧
          (zoomTarget width height data d).opacity = 0 ∧
          (zoomTarget width height data d).cx = -100) ∧
      (¬ (midYear d < 1800 ∨ midYear d > 1970) →
        (zoomTarget width height data d).opacity = 7 / 10 ∧
          (zoomTarget width height data d).cx = scaleLinear 1800 1970 100 (width - 100) (midYear d) ∧
          (zoomTarget width height data d).cx
            = 100 + (midYear d - 1800) / 170 * (width - 200)) ∧
      scaleLinear 1800 1970 100 (width - 100) 1800 = 100 ∧
      scaleLinear 1800 1970 100 (width - 100) 1970 = width - 100 := by
  refine ⟨?_, ?_, ?_, ?_, ?_, ?_⟩
  · simp [zoomToModernEra, List.map_map, Function.comp_def]
  · intro c hc
    simp only [zoomToModernEra, List.mem_map] at hc
    obtain ⟨x, _, rfl⟩ := hc
    rfl
  · intro hout
    have hnot : ¬ (midYear d ≥ 1800 ∧ midYear d ≤ 1970) := by
      rintro ⟨h1, h2⟩
      rcases hout with h | h <;> linarith
    simp [zoomTarget, hout, hnot]
  · intro hin
    have hin2 : midYear d ≥ 1800 ∧ midYear d ≤ 1970 := by
      constructor
      · by_contra hc; exact hin (Or.inl (lt_of_not_ge hc))
      · by_contra hc; exact hin (Or.inr (lt_of_not_ge hc))
    have hcx : (zoomTarget width height data d).cx
        = scaleLinear 1800 1970 100 (width - 100) (midYear d) := by
      simp only [zoomTarget, if_neg hin]
    have hop : (zoomTarget width height data d).opacity = 7 / 10 := by
      simp only [zoomTarget, if_pos hin2]
    refine ⟨hop, hcx, ?_⟩
    rw [hcx]
    unfold scaleLinear
    norm_num
    ring
  · unfold scaleLinear
    norm_num
  · unfold scaleLinear
    norm_num

/-! ## Step 7: military and civilian particles -/

theorem splitParticle_classes (u : ℚ) (e : ParticleElement)
    (hcls : e.classes = ["death-particle"]) :
    (splitParticle u e).classes =
      if isMilitary u e.datum.originalData then ["military-particle"]
      else ["civilian-particle"] := by
  unfold splitParticle
  simp only [hcls]
  cases isMilitary u e.datum.originalData <;> decide

theorem binaryExponent_self (a : Nat) : binaryExponent a a = -52 := by
  unfold binaryExponent
  simp

theorem roundHalfEven_self (a : Nat) (ha : 0 < a) : roundHalfEven (a * 2 ^ 52) a = 2 ^ 52 := by
  unfold roundHalfEven
  simp only [Nat.mul_div_cancel_left _ ha, Nat.mul_mod_right, Nat.mul_zero]
  rw [if_pos ha]

/-- Rounding a quotient `a / a` gives the number 1. -/
theorem roundRatio_self (a : Nat) (ha : 0 < a) :
    roundRatio (a : Int) a = .finite (2 ^ 52) (-52) := by
  have hne : a ≠ 0 := ha.ne'
  have hneg : decide ((a : Int) < 0) = false := by
    rw [decide_eq_false_iff_not]
    omega
  unfold roundRatio
  simp only [Int.natAbs_ofNat, if_neg hne, binaryExponent_self, hneg]
  have h1 : (-(-52 : Int)).toNat = 52 := by decide
  have h2 : (-52 : Int).toNat = 0 := by decide
  rw [h1, h2, pow_zero, mul_one, roundHalfEven_self a ha]
  decide

theorem divide_self (t : Int) (ht : 0 < t) :
    JsNumber.divide t t = .finite (2 ^ 52) (-52) := by
  unfold JsNumber.divide
  rw [if_neg ht.ne', if_neg (by omega)]
  have h := roundRatio_self t.natAbs (by omega)
  rw [Int.natAbs_of_nonneg ht.le] at h
  exact h

theorem divide_zero (t : Int) :
    JsNumber.divide 0 t = if t = 0 then .nan else .finite 0 0 := by
  unfold JsNumber.divide
  by_cases ht : t = 0
  · simp [ht]
  · rw [if_neg ht, if_neg ht]
    have : (if t < 0 then -(0 : Int) else 0) = 0 := by split <;> rfl
    rw [this]
    rfl

theorem isMilitary_of_no_military (u : ℚ) (hu0 : 0 ≤ u) (c : ConflictRecord)
    (h : c.military_deaths = 0) : isMilitary u c = false := by
  unfold isMilitary
  simp only [h, divide_zero]
  by_cases ht : c.total_deaths = 0
  · rw [if_pos ht]
    rfl
  · rw [if_neg ht]
    simpa [jsLess] using hu0

theorem isMilitary_of_all_military (u : ℚ) (hu1 : u < 1) (c : ConflictRecord)
    (h : c.military_deaths = c.total_deaths) (hpos : 0 < c.total_deaths) :
    isMilitary u c = true := by
  unfold isMilitary
  simp only [h, divide_self _ hpos, jsLess, decide_eq_true_eq]
  norm_num
  exact hu1

/-- The threshold of the comparison is the rounded quotient: for a conflict
with 2 military deaths out of 3 it is the JavaScript number just below 2/3, and
a draw equal to it gives a civilian particle. -/
theorem isMilitary_rounded_quotient :
    JsNumber.divide recTwoOfThree.military_deaths recTwoOfThree.total_deaths
        = .finite 6004799503160661 (-53) ∧
      (6004799503160661 : ℚ) * (2 : ℚ) ^ (-53 : Int) < 2 / 3 ∧
      isMilitary ((6004799503160661 : ℚ) * (2 : ℚ) ^ (-53 : Int)) recTwoOfThree = false ∧
      isMilitary ((6004799503160660 : ℚ) * (2 : ℚ) ^ (-53 : Int)) recTwoOfThree = true := by
  have hdiv : JsNumber.divide recTwoOfThree.military_deaths recTwoOfThree.total_deaths
      = .finite 6004799503160661 (-53) := by decide
  refine ⟨hdiv, by norm_num, ?_, ?_⟩
  · unfold isMilitary
    simp only [hdiv, jsLess]
    norm_num
  · unfold isMilitary
    simp only [hdiv, jsLess]
    norm_num

theorem splitCircles_length (random : Nat → ℚ) (es : List ParticleElement) :
    ∀ k : Nat, (splitCircles random k es).length = es.length := by
  induction es with
  | nil => intro k; rfl
  | cons e es ih =>
    intro k
    unfold splitCircles
    split <;> simp [ih]

/-- The element that `splitCircles` leaves at position `i`: the callback applied
with a draw of its own when the element has the class `death-particle`, the
element itself otherwise. -/
theorem splitCircles_getElem (random : Nat → ℚ) (es : List ParticleElement) :
    ∀ (k i : Nat) (hi : i < es.length),
      (splitCircles random k es)[i]? =
        some (if "death-particle" ∈ es[i].classes then
          splitParticle
            (random (k + ((es.take i).filter
              (fun e => decide ("death-particle" ∈ e.classes))).length)) es[i]
          else es[i]) := by
  induction es with
  | nil => intro k i hi; simp at hi
  | cons e es ih =>
    intro k i hi
    cases i with
    | zero =>
      unfold splitCircles
      by_cases hmem : "death-particle" ∈ e.classes
      · simp [hmem]
      · simp [hmem]
    | succ j =>
      have hj : j < es.length := by simpa using hi
      unfold splitCircles
      by_cases hmem : "death-particle" ∈ e.classes
      · rw [if_pos hmem, List.getElem?_cons_succ, ih (k + 1) j hj]
        simp only [List.getElem_cons_succ, List.take_succ_cons, List.filter_cons, hmem,
          decide_True, if_true, List.length_cons]
        have harith : ∀ L : Nat, k + 1 + L = k + (L + 1) := fun L => by omega
        rw [harith]
      · rw [if_neg hmem, List.getElem?_cons_succ, ih k j hj]
        simp only [List.getElem_cons_succ, List.take_succ_cons, List.filter_cons, hmem,
          decide_False]
        rfl

/-- C21: `splitCircles` keeps the number and order of the circles of the page,
leaves every circle that is not of class `death-particle` as it is, and applies
its callback to every circle of class `death-particle`, each with a draw of its
own (the draws are numbered in page order). For such a particle of a conflict
`c` and its draw `u` in `[0, 1)`: it is classified military exactly when
`u < military_deaths(c) / total_deaths(c)`, the quotient being the JavaScript
number that the division yields, and civilian otherwise; its datum is kept; its
classes afterwards are exactly `military-particle` or exactly
`civilian-particle`, so no longer `death-particle`; with `military_deaths = 0`
it is civilian, with `military_deaths = total_deaths > 0` it is military. For a
conflict with 2 military deaths out of 3 the quotient is the JavaScript number
just below 2/3: a draw equal to it is civilian, the draw before it military. -/
theorem splitCircles_spec (random : Nat → ℚ) (k : Nat) (elements : List ParticleElement)
    (hrandom : ∀ n, 0 ≤ random n ∧ random n < 1)
    (hpage : ∀ e ∈ elements, "death-particle" ∈ e.classes → e.classes = ["death-particle"]) :
    (splitCircles random k elements).length = elements.length ∧
      (∀ (i : Nat) (hi : i < elements.length),
        ("death-particle" ∉ elements[i].classes →
          (splitCircles random k elements)[i]? = some elements[i]) ∧
        ("death-particle" ∈ elements[i].classes →
          ∃ e' : ParticleElement, ∃ n : Nat,
            (splitCircles random k elements)[i]? = some e' ∧
            n = k + ((elements.take i).filter
              (fun e => decide ("death-particle" ∈ e.classes))).length ∧
            e' = splitParticle (random n) elements[i] ∧
            e'.datum = elements[i].datum ∧
            isMilitary (random n) elements[i].datum.originalData =
              jsLess (random n)
                (JsNumber.divide elements[i].datum.originalData.military_deaths
                  elements[i].datum.originalData.total_deaths) ∧
            (isMilitary (random n) elements[i].datum.originalData = true →
              e'.classes = ["military-particle"]) ∧
            (isMilitary (random n) elements[i].datum.originalData = false →
              e'.classes = ["civilian-particle"]) ∧
            "death-particle" ∉ e'.classes ∧
            (elements[i].datum.originalData.military_deaths = 0 →
              e'.classes = ["civilian-particle"]) ∧
            (elements[i].datum.originalData.military_deaths
                = elements[i].datum.originalData.total_deaths →
              0 < elements[i].datum.originalData.total_deaths →
              e'.classes = ["military-particle"]))) ∧
      JsNumber.divide recTwoOfThree.military_deaths recTwoOfThree.total_deaths
        = .finite 6004799503160661 (-53) ∧
      isMilitary ((6004799503160661 : ℚ) * (2 : ℚ) ^ (-53 : Int)) recTwoOfThree = false ∧
      isMilitary ((6004799503160660 : ℚ) * (2 : ℚ) ^ (-53 : Int)) recTwoOfThree = true := by
  refine ⟨splitCircles_length random elements k, ?_, isMilitary_rounded_quotient.1,
    isMilitary_rounded_quotient.2.2⟩
  intro i hi
  have hget := splitCircles_getElem random elements k i hi
  constructor
  · intro hmem
    rw [hget, if_neg hmem]
  · intro hmem
    rw [if_pos hmem] at hget
    have hcls := hpage elements[i] (List.getElem_mem hi) hmem
    have hc := splitParticle_classes
      (random (k + ((elements.take i).filter
        (fun e => decide ("death-particle" ∈ e.classes))).length)) elements[i] hcls
    obtain ⟨hr0, hr1⟩ := hrandom (k + ((elements.take i).filter
        (fun e => decide ("death-particle" ∈ e.classes))).length)
    refine ⟨_, _, hget, rfl, rfl, rfl, rfl, ?_, ?_, ?_, ?_, ?_⟩
    · intro hm
      rw [hc, hm]
      rfl
    · intro hm
      rw [hc, hm]
      rfl
    · rw [hc]
      split <;> decide
    · intro h0
      rw [hc, isMilitary_of_no_military _ hr0 _ h0]
      rfl
    · intro hall hpos
      rw [hc, isMilitary_of_all_military _ hr1 _ hall hpos]
      rfl

/-- Witness for `splitCircles_spec`: a page with one circle of another class
and two particles of record A, every draw being 1/2. -/
theorem splitCircles_spec_witness :
    (∀ n : Nat, (0 : ℚ) ≤ (fun _ => (1 / 2 : ℚ)) n ∧ (fun _ => (1 / 2 : ℚ)) n < 1) ∧
      (∀ e ∈ examplePage, "death-particle" ∈ e.classes → e.classes = ["death-particle"]) ∧
      (splitCircles (fun _ => (1 / 2 : ℚ)) 0 examplePage).length = examplePage.length :=
  ⟨fun _ => ⟨by norm_num, by norm_num⟩, by decide,
    (splitCircles_spec (fun _ => (1 / 2 : ℚ)) 0 examplePage
      (fun _ => ⟨by norm_num, by norm_num⟩) (by decide)).1⟩

/-! ## Step 3: the radius scale -/

theorem sqrt_four : Real.sqrt 4 = 2 := by
  rw [show (4 : ℝ) = 2 ^ 2 by norm_num]
  exact Real.sqrt_sq (by norm_num)

/-- The value of the step-3 radius of a record of the dataset: 5 plus 75 times
the square root of its share of the largest death count. -/
theorem showManyCirclesRadius_value (data : List ConflictRecord) (a : ConflictRecord)
    (ha : a ∈ data) (hpa : 0 < a.total_deaths) (ra : ℝ)
    (hra : (showManyCirclesRadius data a).HasValue ra) :
    ∃ M : Int, d3max data (fun d => d.total_deaths) = some M ∧ 0 < M ∧
      ra = 5 + 75 * (Real.sqrt (a.total_deaths : ℝ) / Real.sqrt (M : ℝ)) := by
  have hne : data ≠ [] := List.ne_nil_of_mem ha
  obtain ⟨M, hM, _, hle⟩ := d3max_spec (fun d : ConflictRecord => d.total_deaths) data hne
  have hMpos : 0 < M := lt_of_lt_of_le hpa (hle a ha)
  refine ⟨M, hM, hMpos, ?_⟩
  unfold showManyCirclesRadius at hra
  simp only [hM, RadiusTarget.HasValue] at hra
  rw [hra, Real.sqrt_zero]
  push_cast
  ring

/-- C23 (as stated, refuted): with deaths 4 and 1 in the dataset the step-3
radii are 80 and 42.5, whose quotient is not the square root of 4 / 1. -/
theorem radius_ratio_counterexample :
    (showManyCirclesRadius [recFour, recOne] recFour).HasValue 80 ∧
      (showManyCirclesRadius [recFour, recOne] recOne).HasValue (85 / 2) ∧
      (80 : ℝ) / (85 / 2)
        ≠ Real.sqrt ((recFour.total_deaths : ℝ) / (recOne.total_deaths : ℝ)) := by
  have h4 : showManyCirclesRadius [recFour, recOne] recFour = .sqrtScale (some 4) 5 80 4 := by
    decide
  have h1 : showManyCirclesRadius [recFour, recOne] recOne = .sqrtScale (some 4) 5 80 1 := by
    decide
  refine ⟨?_, ?_, ?_⟩
  · rw [h4]
    simp only [RadiusTarget.HasValue]
    push_cast
    rw [Real.sqrt_zero, sqrt_four]
    norm_num
  · rw [h1]
    simp only [RadiusTarget.HasValue]
    push_cast
    rw [Real.sqrt_zero, sqrt_four, Real.sqrt_one]
    norm_num
  · have : ((recFour.total_deaths : ℝ) / (recOne.total_deaths : ℝ)) = 4 := by
      simp [recFour, recOne]
    rw [this, sqrt_four]
    norm_num

/-- C23 (amended): in step 3 the radius is 5 plus a term proportional to the
square root of `total_deaths` (the scale maps 0..maxDeaths to 5..80): for any
two records of the dataset with positive `total_deaths` a and b,
`(radius(a) - 5) / (radius(b) - 5) = sqrt(a / b)`. -/
theorem radius_sqrt_above_minimum (data : List ConflictRecord) (a b : ConflictRecord)
    (ha : a ∈ data) (hb : b ∈ data) (hpa : 0 < a.total_deaths) (hpb : 0 < b.total_deaths)
    (ra rb : ℝ) (hra : (showManyCirclesRadius data a).HasValue ra)
    (hrb : (showManyCirclesRadius data b).HasValue rb) :
    (ra - 5) / (rb - 5) = Real.sqrt ((a.total_deaths : ℝ) / (b.total_deaths : ℝ)) := by
  obtain ⟨M, hM, hMpos, hva⟩ := showManyCirclesRadius_value data a ha hpa ra hra
  obtain ⟨M', hM', _, hvb⟩ := showManyCirclesRadius_value data b hb hpb rb hrb
  have : M' = M := Option.some.inj (hM'.symm.trans hM)
  subst this
  have hsM : Real.sqrt (M' : ℝ) ≠ 0 := by
    have : (0 : ℝ) < (M' : ℝ) := by exact_mod_cast hMpos
    exact (Real.sqrt_pos.mpr this).ne'
  have hsb : Real.sqrt (b.total_deaths : ℝ) ≠ 0 := by
    have : (0 : ℝ) < (b.total_deaths : ℝ) := by exact_mod_cast hpb
    exact (Real.sqrt_pos.mpr this).ne'
  have hapos : (0 : ℝ) ≤ (a.total_deaths : ℝ) := by exact_mod_cast hpa.le
  rw [hva, hvb, Real.sqrt_div hapos, add_sub_cancel_left, add_sub_cancel_left]
  field_simp
  ring

/-- Witness for `radius_sqrt_above_minimum`: the records with 4 and 1 deaths,
radii 80 and 42.5. -/
theorem radius_sqrt_above_minimum_witness :
    recFour ∈ [recFour, recOne] ∧ recOne ∈ [recFour, recOne] ∧
      0 < recFour.total_deaths ∧ 0 < recOne.total_deaths ∧
      ((80 : ℝ) - 5) / (85 / 2 - 5)
        = Real.sqrt ((recFour.total_deaths : ℝ) / (recOne.total_deaths : ℝ)) :=
  ⟨by decide, by decide, by decide, by decide,
    radius_sqrt_above_minimum [recFour, recOne] recFour recOne (by decide) (by decide)
      (by decide) (by decide) 80 (85 / 2)
      (by
        rw [show showManyCirclesRadius [recFour, recOne] recFour
          = .sqrtScale (some 4) 5 80 4 by decide]
        simp only [RadiusTarget.HasValue]
        push_cast
        rw [Real.sqrt_zero, sqrt_four]
        norm_num)
      (by
        rw [show showManyCirclesRadius [recFour, recOne] recOne
          = .sqrtScale (some 4) 5 80 1 by decide]
        simp only [RadiusTarget.HasValue]
        push_cast
        rw [Real.sqrt_zero, sqrt_four, Real.sqrt_one]
        norm_num)⟩

/-! ## The last entry of the cumulative series -/

theorem annualized_cons (r : ConflictRecord) (rs : List ConflictRecord) (T : String)
    (y : Int) :
    annualized (r :: rs) T y =
      (if (r.conflict_type == T && (decide (r.start_year ≤ y) && decide (r.end_year ≥ y)))
          = true then
        (r.total_deaths : ℚ) / ((r.end_year - r.start_year + 1 : Int) : ℚ) else 0)
      + annualized rs T y := by
  unfold annualized
  rw [List.filter_cons]
  split
  · rw [List.map_cons, List.sum_cons]
  · rw [zero_add]

theorem sum_active_years (r : ConflictRecord) (lo hi : Int) (hlo : lo ≤ r.start_year)
    (hord : r.start_year ≤ r.end_year) (hhi : r.end_year ≤ hi) :
    ∑ y ∈ Finset.Icc lo hi,
      (if (decide (r.start_year ≤ y) && decide (r.end_year ≥ y)) = true then
        (r.total_deaths : ℚ) / ((r.end_year - r.start_year + 1 : Int) : ℚ) else 0)
      = (r.total_deaths : ℚ) := by
  rw [← Finset.sum_filter]
  have hfilter : (Finset.Icc lo hi).filter
      (fun y => (decide (r.start_year ≤ y) && decide (r.end_year ≥ y)) = true)
      = Finset.Icc r.start_year r.end_year := by
    ext y
    simp only [Finset.mem_filter, Finset.mem_Icc, Bool.and_eq_true, decide_eq_true_eq]
    omega
  rw [hfilter, Finset.sum_const, Int.card_Icc, nsmul_eq_mul]
  have hd : (0 : Int) < r.end_year - r.start_year + 1 := by omega
  have hcast : (((r.end_year + 1 - r.start_year).toNat : ℕ) : ℚ)
      = ((r.end_year - r.start_year + 1 : Int) : ℚ) := by
    have : ((r.end_year + 1 - r.start_year).toNat : Int) = r.end_year - r.start_year + 1 := by
      omega
    exact_mod_cast this
  rw [hcast]
  have hne : ((r.end_year - r.start_year + 1 : Int) : ℚ) ≠ 0 := by exact_mod_cast hd.ne'
  generalize ((r.end_year - r.start_year + 1 : Int) : ℚ) = D at hne ⊢
  field_simp

theorem deathsOfType_cons (r : ConflictRecord) (rs : List ConflictRecord) (T : String) :
    deathsOfType (r :: rs) T =
      (if (r.conflict_type == T) = true then r.total_deaths else 0) + deathsOfType rs T := by
  unfold deathsOfType
  rw [List.filter_cons]
  split
  · rw [List.map_cons, List.sum_cons]
  · rw [zero_add]

/-- Summed over all the years of the series, the annualised deaths of a type
give back the deaths of the records of that type. -/
theorem sum_annualized (warData : List ConflictRecord) (T : String) (lo hi : Int)
    (hb : ∀ r ∈ warData, lo ≤ r.start_year ∧ r.start_year ≤ r.end_year ∧ r.end_year ≤ hi) :
    ∑ y ∈ Finset.Icc lo hi, annualized warData T y
      = ((deathsOfType warData T : Int) : ℚ) := by
  induction warData with
  | nil => simp [annualized, deathsOfType]
  | cons r rs ih =>
    obtain ⟨h1, h2, h3⟩ := hb r (List.mem_cons_self _ _)
    have ih' := ih (fun x hx => hb x (List.mem_cons_of_mem _ hx))
    simp only [annualized_cons, Finset.sum_add_distrib, ih', deathsOfType_cons]
    by_cases hT : (r.conflict_type == T) = true
    · have hs := sum_active_years r lo hi h1 h2 h3
      simp only [hT, Bool.true_and, if_true]
      rw [hs, Int.cast_add]
    · have hF : (r.conflict_type == T) = false := by simpa using hT
      simp [hF]

theorem deathsOfType_three (warData : List ConflictRecord) :
    deathsOfType warData "Interstate" + deathsOfType warData "Civil War"
        + deathsOfType warData "Colonial"
      = ((warData.filter (fun r =>
          r.conflict_type == "Interstate" || r.conflict_type == "Civil War" ||
            r.conflict_type == "Colonial")).map (fun r => r.total_deaths)).sum := by
  induction warData with
  | nil => rfl
  | cons r rs ih =>
    simp only [deathsOfType_cons, List.filter_cons]
    by_cases h1 : r.conflict_type = "Interstate"
    · simp [h1, ← ih]
      omega
    · by_cases h2 : r.conflict_type = "Civil War"
      · simp [h2, ← ih]
        omega
      · by_cases h3 : r.conflict_type = "Colonial"
        · simp [h3, ← ih]
          omega
        · simp [h1, h2, h3, ← ih]

theorem d3range_getLast (lo hi : Int) (h : lo ≤ hi) :
    (d3range lo (hi + 1)).getLast? = some hi := by
  unfold d3range
  rw [List.getLast?_map, List.getLast?_range]
  have hn : (hi + 1 - lo).toNat ≠ 0 := by omega
  rw [if_neg hn]
  simp only [Option.map_some', Option.some.injEq]
  omega

/-- In exact arithmetic, for a non-empty dataset whose records all have
`start_year ≤ end_year`, the series has a last entry; its Interstate, Civil War
and Colonial values are the sums of `total_deaths` over the records of the
respective type, and its total is the sum of `total_deaths` over the records of
these three types (in every entry `total` is the sum of the three per-type
values). -/
theorem exact_last_entry (warData : List ConflictRecord) (hne : warData ≠ [])
    (hord : ∀ r ∈ warData, r.start_year ≤ r.end_year) :
    ∃ e : CumulativeEntry,
      (prepareCumulativeData warData).getLast? = some e ∧
      e.Interstate = ((deathsOfType warData "Interstate" : Int) : ℚ) ∧
      e.CivilWar = ((deathsOfType warData "Civil War" : Int) : ℚ) ∧
      e.Colonial = ((deathsOfType warData "Colonial" : Int) : ℚ) ∧
      e.total = ((((warData.filter (fun r =>
          r.conflict_type == "Interstate" || r.conflict_type == "Civil War" ||
            r.conflict_type == "Colonial")).map (fun r => r.total_deaths)).sum : Int) : ℚ) ∧
      ∀ e' ∈ prepareCumulativeData warData,
        e'.total = e'.Interstate + e'.CivilWar + e'.Colonial := by
  obtain ⟨lo, hlo, ⟨rlo, hrlo, hrlo'⟩, hlo2⟩ :=
    d3min_spec (fun d : ConflictRecord => d.start_year) warData hne
  obtain ⟨hi, hhi, _, hhi2⟩ := d3max_spec (fun d : ConflictRecord => d.end_year) warData hne
  have hlohi : lo ≤ hi := by
    have h1 := hord rlo hrlo
    have h2 := hhi2 rlo hrlo
    simp only [] at hrlo' h2
    omega
  have hyears : cumulativeYears warData = d3range lo (hi + 1) := by
    unfold cumulativeYears
    rw [hlo, hhi]
  have hmap : (prepareCumulativeData warData).map (fun e => e.year) = d3range lo (hi + 1) := by
    unfold prepareCumulativeData
    simp only [cumulate_map_year, hyears, List.map_map]
    have : ((fun y : YearEntry => y.year) ∘ fun year => yearEntry warData year) = id := by
      funext y
      simp [yearEntry]
    rw [this, List.map_id]
  have hentries : ∀ e ∈ prepareCumulativeData warData,
      e.Interstate = ∑ y ∈ Finset.Icc lo e.year, annualized warData "Interstate" y ∧
      e.CivilWar = ∑ y ∈ Finset.Icc lo e.year, annualized warData "Civil War" y ∧
      e.Colonial = ∑ y ∈ Finset.Icc lo e.year, annualized warData "Colonial" y ∧
      e.total = e.Interstate + e.CivilWar + e.Colonial := by
    intro e he
    unfold prepareCumulativeData at he
    simp only [hyears, d3range_eq_range', List.map_map] at he
    exact cumulate_prefix warData lo _ 0 0 0 0 (by simp) (by simp) (by simp) e he
  have hlast := d3range_getLast lo hi hlohi
  rw [← hmap, List.getLast?_map] at hlast
  cases hl : (prepareCumulativeData warData).getLast? with
  | none => rw [hl] at hlast; cases hlast
  | some e =>
    rw [hl] at hlast
    have hyear : e.year = hi := Option.some.inj hlast
    have hmem : e ∈ prepareCumulativeData warData := List.mem_of_getLast?_eq_some hl
    obtain ⟨e1, e2, e3, e4⟩ := hentries e hmem
    have hb : ∀ r ∈ warData, lo ≤ r.start_year ∧ r.start_year ≤ r.end_year ∧ r.end_year ≤ hi :=
      fun r hr => ⟨hlo2 r hr, hord r hr, hhi2 r hr⟩
    rw [hyear] at e1 e2 e3
    rw [sum_annualized warData _ lo hi hb] at e1 e2 e3
    refine ⟨e, rfl, e1, e2, e3, ?_, fun e' he' => (hentries e' he').2.2.2⟩
    rw [e4, e1, e2, e3, ← deathsOfType_three]
    push_cast
    ring

/-! ## The cumulative series in the arithmetic of the program -/

theorem orZero_zero {F : Type} (A : Arithmetic F) : orZero A A.zero = A.zero := by
  unfold orZero
  split <;> rfl

/-- The expression `byType.get(T) || 0` after `d3.rollup` with a `d3.sum`
reducer, in any arithmetic. -/
theorem getOrZeroWith_rollup {F α : Type} (A : Arithmetic F) (values : List α) (f : α → F)
    (key : α → String) (T : String) :
    getOrZeroWith A (d3rollup values (fun v => d3sumWith A v f) key) T
      = orZero A (d3sumWith A (values.filter (fun d => key d == T)) f) := by
  unfold getOrZeroWith d3rollup
  rw [d3group_eq, List.map_map]
  have := lookup_map_key (distinctKeys (values.map key))
    (fun k => d3sumWith A (values.filter (fun d => key d == k)) f) T
  simp only [Function.comp_def]
  rw [this]
  by_cases h : T ∈ distinctKeys (values.map key)
  · rw [if_pos h]
  · rw [if_neg h]
    have hnil : values.filter (fun d => key d == T) = [] := by
      rw [List.filter_eq_nil_iff]
      intro x hx hc
      have : key x = T := by simpa using hc
      exact h ((mem_distinctKeys _ _).mpr (this ▸ List.mem_map_of_mem key hx))
    rw [hnil]
    exact (orZero_zero A).symm

theorem yearEntryWith_eq {F : Type} (A : Arithmetic F) (warData : List ConflictRecord)
    (year : Int) :
    yearEntryWith A warData year =
      { year := year
        Interstate := annualizedWith A warData "Interstate" year
        CivilWar := annualizedWith A warData "Civil War" year
        Colonial := annualizedWith A warData "Colonial" year } := by
  unfold yearEntryWith annualizedWith
  simp only [getOrZeroWith_rollup, List.filter_filter]

theorem cumulateWith_map_year {F : Type} (A : Arithmetic F) (ys : List (YearEntryOf F)) :
    ∀ a b c : F,
      (cumulateWith A a b c ys).map (fun e => e.year) = ys.map (fun y => y.year) := by
  induction ys with
  | nil => intro a b c; rfl
  | cons y ys ih =>
    intro a b c
    unfold cumulateWith
    simp only [List.map_cons, ih]

theorem d3range_succ (lo : Int) (k : Nat) :
    d3range lo (lo + (k : Int) + 1) = d3range lo (lo + (k : Int)) ++ [lo + (k : Int)] := by
  unfold d3range
  have h1 : (lo + (k : Int) + 1 - lo).toNat = k + 1 := by omega
  have h2 : (lo + (k : Int) - lo).toNat = k := by omega
  rw [h1, h2, List.range_succ, List.map_append, List.map_singleton]

theorem runningSum_succ {F : Type} (A : Arithmetic F) (warData : List ConflictRecord)
    (T : String) (lo : Int) (k : Nat) :
    runningSum A warData T lo (lo + (k : Int)) =
      A.add ((d3range lo (lo + (k : Int))).foldl
          (fun sum y => A.add sum (annualizedWith A warData T y)) A.zero)
        (annualizedWith A warData T (lo + (k : Int))) := by
  unfold runningSum
  rw [d3range_succ, List.foldl_append]
  rfl

/-- The running sums over the years `lo + k, lo + k + 1, ...` when the three
accumulators hold the sums over the years before `lo + k`, in any arithmetic. -/
theorem cumulateWith_prefix {F : Type} (A : Arithmetic F) (warData : List ConflictRecord)
    (lo : Int) :
    ∀ (n k : Nat) (a b c : F),
      a = (d3range lo (lo + (k : Int))).foldl
        (fun sum y => A.add sum (annualizedWith A warData "Interstate" y)) A.zero →
      b = (d3range lo (lo + (k : Int))).foldl
        (fun sum y => A.add sum (annualizedWith A warData "Civil War" y)) A.zero →
      c = (d3range lo (lo + (k : Int))).foldl
        (fun sum y => A.add sum (annualizedWith A warData "Colonial" y)) A.zero →
      ∀ e ∈ cumulateWith A a b c
          ((List.range' k n).map (fun (i : Nat) => yearEntryWith A warData (lo + (i : Int)))),
        e.Interstate = runningSum A warData "Interstate" lo e.year ∧
        e.CivilWar = runningSum A warData "Civil War" lo e.year ∧
        e.Colonial = runningSum A warData "Colonial" lo e.year ∧
        e.total = A.add (A.add e.Interstate e.CivilWar) e.Colonial := by
  intro n
  induction n with
  | zero =>
    intro k a b c _ _ _ e he
    simp [cumulateWith] at he
  | succ n ih =>
    intro k a b c ha hb hc e he
    rw [List.range'_succ, List.map_cons, yearEntryWith_eq] at he
    unfold cumulateWith at he
    simp only [] at he
    have ha' := runningSum_succ A warData "Interstate" lo k
    have hb' := runningSum_succ A warData "Civil War" lo k
    have hc' := runningSum_succ A warData "Colonial" lo k
    rw [← ha] at ha'
    rw [← hb] at hb'
    rw [← hc] at hc'
    rcases List.mem_cons.mp he with rfl | he
    · exact ⟨ha'.symm, hb'.symm, hc'.symm, rfl⟩
    · refine ih (k + 1) _ _ _ ?_ ?_ ?_ e he
      · rw [← ha']
        unfold runningSum
        rw [Nat.cast_succ, ← add_assoc]
      · rw [← hb']
        unfold runningSum
        rw [Nat.cast_succ, ← add_assoc]
      · rw [← hc']
        unfold runningSum
        rw [Nat.cast_succ, ← add_assoc]

/-- The years and the values of the series in any arithmetic, given the first
and the last year. -/
theorem prepareCumulativeDataWith_entries {F : Type} (A : Arithmetic F)
    (warData : List ConflictRecord) (lo hi : Int)
    (hlo : d3min warData (fun d => d.start_year) = some lo)
    (hhi : d3max warData (fun d => d.end_year) = some hi) :
    (prepareCumulativeDataWith A warData).map (fun e => e.year) = d3range lo (hi + 1) ∧
      ∀ e ∈ prepareCumulativeDataWith A warData,
        e.Interstate = runningSum A warData "Interstate" lo e.year ∧
        e.CivilWar = runningSum A warData "Civil War" lo e.year ∧
        e.Colonial = runningSum A warData "Colonial" lo e.year ∧
        e.total = A.add (A.add e.Interstate e.CivilWar) e.Colonial := by
  have hyears : cumulativeYears warData = d3range lo (hi + 1) := by
    unfold cumulativeYears
    rw [hlo, hhi]
  constructor
  · unfold prepareCumulativeDataWith
    simp only [cumulateWith_map_year, hyears, List.map_map]
    have : ((fun y : YearEntryOf F => y.year) ∘ fun year => yearEntryWith A warData year)
        = id := by
      funext y
      simp [yearEntryWith]
    rw [this, List.map_id]
  · intro e he
    unfold prepareCumulativeDataWith at he
    simp only [hyears, d3range_eq_range', List.map_map] at he
    refine cumulateWith_prefix A warData lo _ 0 _ _ _ ?_ ?_ ?_ e he <;>
      simp [d3range]

/-- The entry of 1918 of the two-record example as the program computes it:
19 additions of the rounded quotient 1000 / 19 give 1000.0000000000002. -/
theorem exampleData_entry_1918 :
    ((prepareCumulativeDataWith binary64 exampleData)[18]?).map
        (fun e => (e.year, e.Interstate))
      = some (1918, .finite 8796093022208002 (-43)) ∧
      JsNumber.ofInt 1000 = .finite 8796093022208000 (-43) := by
  constructor
  · set_option maxRecDepth 100000 in decide
  · set_option maxRecDepth 100000 in decide

/-- C9: in the arithmetic of the program, and in any other, for a non-empty
dataset with `lo` the least `start_year` and `hi` the greatest `end_year`: the
years of the series returned by `prepareCumulativeData` are strictly ascending
and are exactly the integers from `lo` to `hi`; the entry of year `y` holds, for
each of Interstate, Civil War and Colonial, the sum over the years `lo..y`, added
in this order, of the sum (`d3.sum`, dataset order) over the records of that type
active in the year of `total_deaths / (end_year - start_year + 1)`; and `total`
is the sum of its three per-type values. In the arithmetic of the program the
entry of 1918 of the two-record example holds 1000.0000000000002 for
Interstate. -/
theorem prepareCumulativeData_spec {F : Type} (A : Arithmetic F)
    (warData : List ConflictRecord) (hne : warData ≠ []) :
    ∃ lo hi : Int,
      ((∃ r ∈ warData, r.start_year = lo) ∧ ∀ r ∈ warData, lo ≤ r.start_year) ∧
      ((∃ r ∈ warData, r.end_year = hi) ∧ ∀ r ∈ warData, r.end_year ≤ hi) ∧
      ((prepareCumulativeDataWith A warData).map (fun e => e.year)).Pairwise
        (fun a b => a < b) ∧
      (∀ y, y ∈ (prepareCumulativeDataWith A warData).map (fun e => e.year) ↔
        lo ≤ y ∧ y ≤ hi) ∧
      (∀ e ∈ prepareCumulativeDataWith A warData,
        e.Interstate = runningSum A warData "Interstate" lo e.year ∧
        e.CivilWar = runningSum A warData "Civil War" lo e.year ∧
        e.Colonial = runningSum A warData "Colonial" lo e.year ∧
        e.total = A.add (A.add e.Interstate e.CivilWar) e.Colonial) ∧
      ((prepareCumulativeDataWith binary64 exampleData)[18]?).map
          (fun e => (e.year, e.Interstate))
        = some (1918, .finite 8796093022208002 (-43)) := by
  obtain ⟨lo, hlo, hlo1, hlo2⟩ := d3min_spec (fun d : ConflictRecord => d.start_year) warData hne
  obtain ⟨hi, hhi, hhi1, hhi2⟩ := d3max_spec (fun d : ConflictRecord => d.end_year) warData hne
  obtain ⟨hmap, hentries⟩ := prepareCumulativeDataWith_entries A warData lo hi hlo hhi
  refine ⟨lo, hi, ⟨hlo1, hlo2⟩, ⟨hhi1, hhi2⟩, ?_, ?_, hentries, exampleData_entry_1918.1⟩
  · rw [hmap]
    exact d3range_pairwise _ _
  · intro y
    rw [hmap, mem_d3range]
    omega

/-- Witness for `prepareCumulativeData_spec`: the two-record example in the
arithmetic of JavaScript numbers. -/
theorem prepareCumulativeData_spec_witness :
    exampleData ≠ [] ∧
      ∃ lo hi : Int,
        ((∃ r ∈ exampleData, r.start_year = lo) ∧ ∀ r ∈ exampleData, lo ≤ r.start_year) ∧
        ((∃ r ∈ exampleData, r.end_year = hi) ∧ ∀ r ∈ exampleData, r.end_year ≤ hi) ∧
        ((prepareCumulativeDataWith binary64 exampleData).map (fun e => e.year)).Pairwise
          (fun a b => a < b) ∧
        (∀ y, y ∈ (prepareCumulativeDataWith binary64 exampleData).map (fun e => e.year) ↔
          lo ≤ y ∧ y ≤ hi) ∧
        (∀ e ∈ prepareCumulativeDataWith binary64 exampleData,
          e.Interstate = runningSum binary64 exampleData "Interstate" lo e.year ∧
          e.CivilWar = runningSum binary64 exampleData "Civil War" lo e.year ∧
          e.Colonial = runningSum binary64 exampleData "Colonial" lo e.year ∧
          e.total = binary64.add (binary64.add e.Interstate e.CivilWar) e.Colonial) ∧
        ((prepareCumulativeDataWith binary64 exampleData)[18]?).map
            (fun e => (e.year, e.Interstate))
          = some (1918, .finite 8796093022208002 (-43)) :=
  ⟨by decide, prepareCumulativeData_spec binary64 exampleData (by decide)⟩

/-! ## The divisor of the annualisation -/

theorem d3sumWith_congr {F α : Type} (A : Arithmetic F) (l : List α) (f g : α → F)
    (h : ∀ v ∈ l, f v = g v) : d3sumWith A l f = d3sumWith A l g := by
  unfold d3sumWith
  generalize A.zero = init
  induction l generalizing init with
  | nil => rfl
  | cons v l ih =>
    simp only [List.foldl_cons]
    rw [h v (List.mem_cons_self _ _)]
    exact ih (fun x hx => h x (List.mem_cons_of_mem _ hx)) _

/-- The annualised deaths of a year do not depend on what a division by a
number below 1 would give. -/
theorem annualizedWith_div {F : Type} (A : Arithmetic F) (div' : Int → Int → F)
    (hdiv : ∀ a b : Int, 1 ≤ b → div' a b = A.div a b) (warData : List ConflictRecord)
    (T : String) (year : Int) :
    annualizedWith { A with div := div' } warData T year = annualizedWith A warData T year := by
  have h := d3sumWith_congr A
    (warData.filter (fun r =>
      r.conflict_type == T && (decide (r.start_year ≤ year) && decide (r.end_year ≥ year))))
    (fun r => div' r.total_deaths (r.end_year - r.start_year + 1))
    (fun r => A.div r.total_deaths (r.end_year - r.start_year + 1))
    (by
      intro r hr
      have hact := (List.mem_filter.mp hr).2
      simp only [Bool.and_eq_true, decide_eq_true_eq] at hact
      exact hdiv _ _ (by omega))
  exact congrArg (orZero A) h

theorem cumulateWith_div {F : Type} (A : Arithmetic F) (div' : Int → Int → F)
    (ys : List (YearEntryOf F)) :
    ∀ a b c : F,
      cumulateWith { A with div := div' } a b c ys = cumulateWith A a b c ys := by
  induction ys with
  | nil => intro a b c; rfl
  | cons y ys ih =>
    intro a b c
    unfold cumulateWith
    simp only [ih]

/-- C27: `prepareCumulativeData` returns the same series whatever a division
by a number below 1 would give, in the arithmetic of the program and in any
other: it only divides by `end_year - start_year + 1` of records active in some
year, which is at least 1 for every member of every group of the conflicts
active in a year; a record with `end_year < start_year` is active in no year.
So the annualisation never divides by zero. -/
theorem annualisation_divisor {F : Type} (A : Arithmetic F) (div' : Int → Int → F)
    (warData : List ConflictRecord)
    (hdiv : ∀ a b : Int, 1 ≤ b → div' a b = A.div a b) :
    prepareCumulativeDataWith { A with div := div' } warData
        = prepareCumulativeDataWith A warData ∧
      (∀ (year : Int) (g : String × List ConflictRecord),
        g ∈ d3group
          (warData.filter (fun d => decide (d.start_year ≤ year) && decide (d.end_year ≥ year)))
          (fun d => d.conflict_type) →
        ∀ d ∈ g.2, 1 ≤ d.end_year - d.start_year + 1) ∧
      (∀ r : ConflictRecord, r.end_year < r.start_year → ∀ y : Int,
        r ∉ warData.filter (fun d => decide (d.start_year ≤ y) && decide (d.end_year ≥ y))) := by
  refine ⟨?_, ?_, ?_⟩
  · have hy : ∀ year : Int,
        yearEntryWith { A with div := div' } warData year = yearEntryWith A warData year := by
      intro year
      rw [yearEntryWith_eq, yearEntryWith_eq]
      simp only [annualizedWith_div A div' hdiv]
    unfold prepareCumulativeDataWith
    simp only [hy]
    exact cumulateWith_div A div' _ _ _ _
  · intro year g hg d hd
    rw [d3group_eq] at hg
    obtain ⟨k, _, rfl⟩ := List.mem_map.mp hg
    have hact := (List.mem_filter.mp (List.mem_filter.mp hd).1).2
    simp only [Bool.and_eq_true, decide_eq_true_eq] at hact
    omega
  · intro r hr y hmem
    have := (List.mem_filter.mp hmem).2
    simp only [Bool.and_eq_true, decide_eq_true_eq] at this
    omega

/-- Witness for `annualisation_divisor`: JavaScript arithmetic against the one
whose division by a number below 1 gives `NaN`, on a dataset with a record
whose `end_year` is before its `start_year`. -/
theorem annualisation_divisor_witness :
    (∀ a b : Int, 1 ≤ b →
        (fun a b => if 1 ≤ b then JsNumber.divide a b else JsNumber.nan) a b
          = binary64.div a b) ∧
      prepareCumulativeDataWith
          { binary64 with
            div := fun a b => if 1 ≤ b then JsNumber.divide a b else JsNumber.nan }
          [recA, recBackwards]
        = prepareCumulativeDataWith binary64 [recA, recBackwards] :=
  ⟨fun _ _ h => if_pos h,
    (annualisation_divisor binary64
      (fun a b => if 1 ≤ b then JsNumber.divide a b else JsNumber.nan)
      [recA, recBackwards] (fun _ _ h => if_pos h)).1⟩

/-! ## The last entry of the series in the arithmetic of the program -/

theorem d3sumWith_exact {α : Type} (l : List α) (f : α → ℚ) :
    d3sumWith exactArithmetic l f = d3sum l f := by
  unfold d3sumWith d3sum exactArithmetic
  simp only [decide_eq_true_eq]

theorem orZero_exact (x : ℚ) : orZero exactArithmetic x = x := by
  unfold orZero exactArithmetic
  by_cases h : x = 0 <;> simp [h]

theorem annualizedWith_exact (warData : List ConflictRecord) (T : String) (year : Int) :
    annualizedWith exactArithmetic warData T year = annualized warData T year := by
  unfold annualizedWith annualized
  rw [orZero_exact, d3sumWith_exact, d3sum_eq]
  rfl

theorem yearEntryWith_exact (warData : List ConflictRecord) (year : Int) :
    (yearEntryWith exactArithmetic warData year).toYearEntry = yearEntry warData year := by
  rw [yearEntryWith_eq, yearEntry_eq]
  simp only [YearEntryOf.toYearEntry, annualizedWith_exact]

theorem cumulateWith_exact (ys : List (YearEntryOf ℚ)) :
    ∀ a b c : ℚ,
      (cumulateWith exactArithmetic a b c ys).map CumulativeEntryOf.toEntry
        = cumulate a b c (ys.map YearEntryOf.toYearEntry) := by
  induction ys with
  | nil => intro a b c; rfl
  | cons y ys ih =>
    intro a b c
    unfold cumulateWith
    rw [List.map_cons, List.map_cons, ih]
    rfl

/-- The function `prepareCumulativeData` over the rationals is the function in
exact arithmetic. -/
theorem prepareCumulativeData_exact (warData : List ConflictRecord) :
    prepareCumulativeData warData =
      (prepareCumulativeDataWith exactArithmetic warData).map CumulativeEntryOf.toEntry := by
  unfold prepareCumulativeData prepareCumulativeDataWith
  rw [cumulateWith_exact, List.map_map]
  have : (YearEntryOf.toYearEntry ∘ fun year => yearEntryWith exactArithmetic warData year)
      = fun year => yearEntry warData year := by
    funext year
    exact yearEntryWith_exact warData year
  rw [this]
  rfl

/-- The records of a type other than the three named ones do not enter the
annualised deaths of the three types. -/
theorem annualizedWith_named {F : Type} (A : Arithmetic F) (warData : List ConflictRecord)
    (T : String) (hT : T = "Interstate" ∨ T = "Civil War" ∨ T = "Colonial") (year : Int) :
    annualizedWith A
        (warData.filter (fun r =>
          r.conflict_type == "Interstate" || r.conflict_type == "Civil War" ||
            r.conflict_type == "Colonial")) T year
      = annualizedWith A warData T year := by
  unfold annualizedWith
  rw [List.filter_filter]
  have hfilter : warData.filter (fun r =>
        (r.conflict_type == T &&
          (decide (r.start_year ≤ year) && decide (r.end_year ≥ year))) &&
        (r.conflict_type == "Interstate" || r.conflict_type == "Civil War" ||
          r.conflict_type == "Colonial"))
      = warData.filter (fun r =>
        r.conflict_type == T &&
          (decide (r.start_year ≤ year) && decide (r.end_year ≥ year))) := by
    apply List.filter_congr
    intro r _
    by_cases h : r.conflict_type = T
    · rcases hT with rfl | rfl | rfl <;> simp [h]
    · have : (r.conflict_type == T) = false := by simpa using h
      simp [this]
  rw [hfilter]

theorem runningSum_named {F : Type} (A : Arithmetic F) (warData : List ConflictRecord)
    (T : String) (hT : T = "Interstate" ∨ T = "Civil War" ∨ T = "Colonial") (lo year : Int) :
    runningSum A
        (warData.filter (fun r =>
          r.conflict_type == "Interstate" || r.conflict_type == "Civil War" ||
            r.conflict_type == "Colonial")) T lo year
      = runningSum A warData T lo year := by
  unfold runningSum
  simp only [annualizedWith_named A warData T hT]

/-- The last entry of the series of the two-record example as the program
computes it, and the JavaScript number 6000. -/
theorem exampleData_last_entry :
    (prepareCumulativeDataWith binary64 exampleData).getLast? =
        some { year := 1945, Interstate := .finite 6597069766656001 (-40),
               CivilWar := .finite 0 0, Colonial := .finite 0 0,
               total := .finite 6597069766656001 (-40) } ∧
      JsNumber.ofInt (deathsOfType exampleData "Interstate")
        = .finite 6597069766656000 (-40) := by
  constructor
  · set_option maxRecDepth 100000 in decide
  · set_option maxRecDepth 100000 in decide

/-- C28 (as stated, refuted): the last entry of the series of the two-record
example as the program computes it holds 6000.000000000001 for Interstate and
for the total, which is not the number 6000, the sum of `total_deaths` of the
two records. -/
theorem cumulative_last_entry_counterexample :
    exampleData ≠ [] ∧ (∀ r ∈ exampleData, r.start_year ≤ r.end_year) ∧
      (prepareCumulativeDataWith binary64 exampleData).getLast? =
        some { year := 1945, Interstate := .finite 6597069766656001 (-40),
               CivilWar := .finite 0 0, Colonial := .finite 0 0,
               total := .finite 6597069766656001 (-40) } ∧
      deathsOfType exampleData "Interstate" = 6000 ∧
      JsNumber.ofInt (deathsOfType exampleData "Interstate")
        = .finite 6597069766656000 (-40) ∧
      (6597069766656000 : ℚ) * (2 : ℚ) ^ (-40 : Int) = 6000 ∧
      (6597069766656001 : ℚ) * (2 : ℚ) ^ (-40 : Int) ≠ 6000 :=
  ⟨by decide, by decide, exampleData_last_entry.1, by decide, exampleData_last_entry.2,
    by norm_num, by norm_num⟩

/-- C28: for a non-empty dataset whose records all have
`start_year ≤ end_year`, in the arithmetic of the program and in any other, the
series returned by `prepareCumulativeData` has a last entry, that of the
greatest `end_year`; its Interstate, Civil War and Colonial values are the
running sums, over all the years of the series in ascending order, of the
annualised deaths of the respective type, and its total is the sum of the three;
these running sums are the same when the records of every other type are left
out of the dataset; and computed in exact arithmetic the three values are the
sums of `total_deaths` over the records of the respective type and the total is
the sum of `total_deaths` over the records of the three types. As the program
computes it, the last entry of the two-record example holds 6000.000000000001
for Interstate and for the total. -/
theorem cumulative_last_entry {F : Type} (A : Arithmetic F) (warData : List ConflictRecord)
    (hne : warData ≠ []) (hord : ∀ r ∈ warData, r.start_year ≤ r.end_year) :
    ∃ lo hi : Int,
      ((∃ r ∈ warData, r.start_year = lo) ∧ ∀ r ∈ warData, lo ≤ r.start_year) ∧
      ((∃ r ∈ warData, r.end_year = hi) ∧ ∀ r ∈ warData, r.end_year ≤ hi) ∧
      (∃ e : CumulativeEntryOf F,
        (prepareCumulativeDataWith A warData).getLast? = some e ∧ e.year = hi ∧
        e.Interstate = runningSum A warData "Interstate" lo hi ∧
        e.CivilWar = runningSum A warData "Civil War" lo hi ∧
        e.Colonial = runningSum A warData "Colonial" lo hi ∧
        e.total = A.add (A.add e.Interstate e.CivilWar) e.Colonial) ∧
      (∀ T : String, T = "Interstate" ∨ T = "Civil War" ∨ T = "Colonial" → ∀ y : Int,
        runningSum A
            (warData.filter (fun r =>
              r.conflict_type == "Interstate" || r.conflict_type == "Civil War" ||
                r.conflict_type == "Colonial")) T lo y
          = runningSum A warData T lo y) ∧
      prepareCumulativeData warData =
        (prepareCumulativeDataWith exactArithmetic warData).map CumulativeEntryOf.toEntry ∧
      ∃ e0 : CumulativeEntry,
        (prepareCumulativeData warData).getLast? = some e0 ∧
        e0.Interstate = ((deathsOfType warData "Interstate" : Int) : ℚ) ∧
        e0.CivilWar = ((deathsOfType warData "Civil War" : Int) : ℚ) ∧
        e0.Colonial = ((deathsOfType warData "Colonial" : Int) : ℚ) ∧
        e0.total = ((((warData.filter (fun r =>
            r.conflict_type == "Interstate" || r.conflict_type == "Civil War" ||
              r.conflict_type == "Colonial")).map (fun r => r.total_deaths)).sum : Int) : ℚ) ∧
        (prepareCumulativeDataWith binary64 exampleData).getLast? =
          some { year := 1945, Interstate := .finite 6597069766656001 (-40),
                 CivilWar := .finite 0 0, Colonial := .finite 0 0,
                 total := .finite 6597069766656001 (-40) } := by
  obtain ⟨lo, hlo, ⟨rlo, hrlo, hrlo'⟩, hlo2⟩ :=
    d3min_spec (fun d : ConflictRecord => d.start_year) warData hne
  obtain ⟨hi, hhi, hhi1, hhi2⟩ := d3max_spec (fun d : ConflictRecord => d.end_year) warData hne
  have hlohi : lo ≤ hi := by
    have h1 := hord rlo hrlo
    have h2 := hhi2 rlo hrlo
    simp only [] at hrlo' h2
    omega
  obtain ⟨hmap, hentries⟩ := prepareCumulativeDataWith_entries A warData lo hi hlo hhi
  obtain ⟨e0, he0, h1, h2, h3, h4, _⟩ := exact_last_entry warData hne hord
  refine ⟨lo, hi, ⟨⟨rlo, hrlo, hrlo'⟩, hlo2⟩, ⟨hhi1, hhi2⟩, ?_,
    fun T hT y => runningSum_named A warData T hT lo y,
    prepareCumulativeData_exact warData, e0, he0, h1, h2, h3, h4, exampleData_last_entry.1⟩
  have hlast := d3range_getLast lo hi hlohi
  rw [← hmap, List.getLast?_map] at hlast
  cases hl : (prepareCumulativeDataWith A warData).getLast? with
  | none => rw [hl] at hlast; cases hlast
  | some e =>
    rw [hl] at hlast
    have hyear : e.year = hi := Option.some.inj hlast
    have hmem : e ∈ prepareCumulativeDataWith A warData := List.mem_of_getLast?_eq_some hl
    obtain ⟨e1, e2, e3, e4⟩ := hentries e hmem
    rw [hyear] at e1 e2 e3
    exact ⟨e, rfl, hyear, e1, e2, e3, e4⟩

/-- Witness for `cumulative_last_entry`: the two-record example in the
arithmetic of JavaScript numbers. -/
theorem cumulative_last_entry_witness :
    exampleData ≠ [] ∧ (∀ r ∈ exampleData, r.start_year ≤ r.end_year) ∧
      ∃ lo hi : Int,
        ((∃ r ∈ exampleData, r.start_year = lo) ∧ ∀ r ∈ exampleData, lo ≤ r.start_year) ∧
        ((∃ r ∈ exampleData, r.end_year = hi) ∧ ∀ r ∈ exampleData, r.end_year ≤ hi) ∧
        (∃ e : CumulativeEntryOf JsNumber,
          (prepareCumulativeDataWith binary64 exampleData).getLast? = some e ∧ e.year = hi ∧
          e.Interstate = runningSum binary64 exampleData "Interstate" lo hi ∧
          e.CivilWar = runningSum binary64 exampleData "Civil War" lo hi ∧
          e.Colonial = runningSum binary64 exampleData "Colonial" lo hi ∧
          e.total = binary64.add (binary64.add e.Interstate e.CivilWar) e.Colonial) ∧
        (∀ T : String, T = "Interstate" ∨ T = "Civil War" ∨ T = "Colonial" → ∀ y : Int,
          runningSum binary64
              (exampleData.filter (fun r =>
                r.conflict_type == "Interstate" || r.conflict_type == "Civil War" ||
                  r.conflict_type == "Colonial")) T lo y
            = runningSum binary64 exampleData T lo y) ∧
        prepareCumulativeData exampleData =
          (prepareCumulativeDataWith exactArithmetic exampleData).map
            CumulativeEntryOf.toEntry ∧
        ∃ e0 : CumulativeEntry,
          (prepareCumulativeData exampleData).getLast? = some e0 ∧
          e0.Interstate = ((deathsOfType exampleData "Interstate" : Int) : ℚ) ∧
          e0.CivilWar = ((deathsOfType exampleData "Civil War" : Int) : ℚ) ∧
          e0.Colonial = ((deathsOfType exampleData "Colonial" : Int) : ℚ) ∧
          e0.total = ((((exampleData.filter (fun r =>
              r.conflict_type == "Interstate" || r.conflict_type == "Civil War" ||
                r.conflict_type == "Colonial")).map (fun r => r.total_deaths)).sum : Int) : ℚ) ∧
          (prepareCumulativeDataWith binary64 exampleData).getLast? =
            some { year := 1945, Interstate := .finite 6597069766656001 (-40),
                   CivilWar := .finite 0 0, Colonial := .finite 0 0,
                   total := .finite 6597069766656001 (-40) } :=
  ⟨by decide, by decide, cumulative_last_entry binary64 exampleData (by decide) (by decide)⟩

end WarStory
